import Mathlib

/-!
GetThis sample collection: limits, naming, registry and sinks.

A shallow embedding of `src/OrcCommand/GetThis_Run.cpp` (DFIR-ORC, command
`GetThis`).  Every definition below is a transcription of the C++ function of
the same name.  Conventions:

* `DWORD` / `DWORDLONG` values are natural numbers; every arithmetic result is
  reduced modulo `2^32` / `2^64` where the C++ type wraps.
* `std::wstring` is `List Char` (one `Char` per `WCHAR`).
* A call that does not return to its caller (the CRT invalid-parameter handler of
  `swprintf_s`, a null dereference, a loop that never ends) is an `Except.error`
  carrying a `Stop`.
* Results of collaborators whose code is outside the file (archive codec, file
  streams, hash streams, `iswspace`) are fields of `Env`.
-/

namespace GetThis

/-! ## Machine integers and Windows constants -/

/-- Wide string: a sequence of `WCHAR`. -/
abbrev WString := List Char

/-- Sum of two `DWORD` values, as the 32-bit machine computes it. -/
def add32 (a b : Nat) : Nat := (a + b) % 4294967296

/-- Sum of two `DWORDLONG` values, as the 64-bit machine computes it. -/
def add64 (a b : Nat) : Nat := (a + b) % 18446744073709551616

/-- Windows SDK constant `INFINITE` (`0xFFFFFFFF`), the "no limit" sentinel. -/
def INFINITE : Nat := 4294967295

/-- Windows SDK constant `MAX_PATH`. -/
def MAX_PATH : Nat := 260

/-- The `HRESULT` values that occur in the file; `error c` is any other failure code
handed back by a collaborator. -/
inductive HRESULT where
  | S_OK
  | S_FALSE
  | E_FAIL
  | E_POINTER
  | E_INVALIDARG
  | E_NOTIMPL
  | E_ABORT
  | error (code : Nat)
  deriving DecidableEq, Repr

/-- The `FAILED` test of the Windows SDK: true on every failure code, false on `S_OK` and `S_FALSE`. -/
def FAILED : HRESULT → Bool
  | .S_OK => false
  | .S_FALSE => false
  | _ => true

/-- Ways in which a call fails to return to its caller. -/
inductive Stop where
  /-- the CRT invalid-parameter handler ran (`swprintf_s` buffer too small) -/
  | invalidParameter
  /-- a null pointer was dereferenced, or `front()` was taken of an empty vector -/
  | fault
  /-- the loop never ends -/
  | diverges
  deriving DecidableEq, Repr

deriving instance DecidableEq for Except

/-! ## Limits -/

/-- Modelled from the spec: the `LimitStatus` enumeration of `GetThis.h` (the header is
not part of the sources at hand); the nine names are the ones the two `switch`
statements of `GetThis_Run.cpp` list. -/
inductive LimitStatus where
  | NoLimits
  | SampleWithinLimits
  | GlobalSampleCountLimitReached
  | GlobalMaxBytesPerSample
  | GlobalMaxBytesTotal
  | LocalSampleCountLimitReached
  | LocalMaxBytesPerSample
  | LocalMaxBytesTotal
  | FailedToComputeLimits
  deriving DecidableEq, Repr

/-- Modelled from the spec: the `Limits` record of `GetThis.h`; field names and widths
(`dw` = 32 bits, `dwl` = 64 bits) are those used by `GetThis_Run.cpp`. -/
structure Limits where
  dwlMaxBytesTotal : Nat
  dwlMaxBytesPerSample : Nat
  dwMaxSampleCount : Nat
  dwlAccumulatedBytesTotal : Nat
  dwAccumulatedSampleCount : Nat
  bIgnoreLimits : Bool
  bMaxBytesTotalReached : Bool
  bMaxBytesPerSampleReached : Bool
  bMaxSampleCountReached : Bool
  deriving DecidableEq, Repr

/-- `Main::SampleLimitStatus` (GetThis_Run.cpp:424-457). -/
def SampleLimitStatus (GlobalLimits LocalLimits : Limits) (DataSize : Nat) : LimitStatus :=
  if GlobalLimits.bIgnoreLimits then .NoLimits
  else if GlobalLimits.dwMaxSampleCount ≠ INFINITE
      ∧ GlobalLimits.dwAccumulatedSampleCount ≥ GlobalLimits.dwMaxSampleCount then
    .GlobalSampleCountLimitReached
  else if LocalLimits.dwMaxSampleCount ≠ INFINITE
      ∧ LocalLimits.dwAccumulatedSampleCount ≥ LocalLimits.dwMaxSampleCount then
    .LocalSampleCountLimitReached
  else if GlobalLimits.dwlMaxBytesPerSample ≠ INFINITE
      ∧ DataSize > GlobalLimits.dwlMaxBytesPerSample then
    .GlobalMaxBytesPerSample
  else if GlobalLimits.dwlMaxBytesTotal ≠ INFINITE
      ∧ add64 DataSize GlobalLimits.dwlAccumulatedBytesTotal > GlobalLimits.dwlMaxBytesTotal then
    .GlobalMaxBytesTotal
  else if LocalLimits.dwlMaxBytesPerSample ≠ INFINITE
      ∧ DataSize > LocalLimits.dwlMaxBytesPerSample then
    .LocalMaxBytesPerSample
  else if LocalLimits.dwlMaxBytesTotal ≠ INFINITE
      ∧ add64 DataSize LocalLimits.dwlAccumulatedBytesTotal > LocalLimits.dwlMaxBytesTotal then
    .LocalMaxBytesTotal
  else .SampleWithinLimits

/-- The `switch (status)` of `Main::AddSamplesForMatch` (GetThis_Run.cpp:609-624): the
value stored in `sampleRef.OffLimits`. -/
def OffLimitsOf : LimitStatus → Bool
  | .NoLimits => false
  | .SampleWithinLimits => false
  | .GlobalSampleCountLimitReached => true
  | .GlobalMaxBytesPerSample => true
  | .GlobalMaxBytesTotal => true
  | .LocalSampleCountLimitReached => true
  | .LocalMaxBytesPerSample => true
  | .LocalMaxBytesTotal => true
  | .FailedToComputeLimits => true

/-! ## Content specification and NTFS records -/

/-- Modelled from the spec: `ContentType` of `GetThis.h`; `INVALID` stands for every
value that the `switch` statements send to `default`. -/
inductive ContentType where
  | DATA
  | STRINGS
  | RAW
  | INVALID
  deriving DecidableEq, Repr

/-- Modelled from the spec: `ContentSpec` of `GetThis.h`. -/
structure ContentSpec where
  Type_ : ContentType
  MinChars : Nat
  MaxChars : Nat
  deriving DecidableEq, Repr

/-- NTFS `MFT_SEGMENT_REFERENCE` (declared outside the sources at hand). -/
structure MFT_SEGMENT_REFERENCE where
  SegmentNumberLowPart : Nat
  SegmentNumberHighPart : Nat
  SequenceNumber : Nat
  deriving DecidableEq, Repr

/-- The four time stamps of a `$STANDARD_INFORMATION` or `$FILE_NAME` attribute. -/
structure FileTimes where
  CreationTime : Nat
  LastModificationTime : Nat
  LastAccessTime : Nat
  LastChangeTime : Nat
  deriving DecidableEq, Repr

/-- NTFS `FILE_NAME` attribute; `FileName` holds the `FileNameLength` characters of the
name (the record is not NUL-terminated). -/
structure FILE_NAME where
  ParentDirectory : MFT_SEGMENT_REFERENCE
  Info : FileTimes
  FileName : WString
  deriving DecidableEq, Repr

/-- What the surrounding platform fixes: the CRT classification `iswspace` and the byte
sizes of the three members of `MFT_SEGMENT_REFERENCE` (the `sizeof` expressions of
`CreateSampleFileName`). -/
structure Platform where
  iswspace : Char → Bool
  sizeofSequenceNumber : Nat
  sizeofSegmentNumberHighPart : Nat
  sizeofSegmentNumberLowPart : Nat

/-! ## Sample file names -/

/-- The characters `printf` takes from a string argument: up to the first NUL. -/
def cstr (s : WString) : WString := s.takeWhile (fun c => c ≠ Char.ofNat 0)

/-- Conversion `%*.*X` with width and precision both `w`: upper-case hexadecimal digits,
zero-padded on the left to at least `w` digits. -/
def fmtHex (w v : Nat) : WString :=
  let ds := (Nat.toDigits 16 v).map Char.toUpper
  List.replicate (w - ds.length) '0' ++ ds

/-- Conversion `%u`. -/
def fmtDec (v : Nat) : WString := Nat.toDigits 10 v

/-- The three leading `%*.*X` conversions of every format string of
`CreateSampleFileName`. -/
def fmtParent (p : Platform) (r : MFT_SEGMENT_REFERENCE) : WString :=
  fmtHex (p.sizeofSequenceNumber * 2) r.SequenceNumber
    ++ fmtHex (p.sizeofSegmentNumberHighPart * 2) r.SegmentNumberHighPart
    ++ fmtHex (p.sizeofSegmentNumberLowPart * 2) r.SegmentNumberLowPart

/-- The `switch (content.Type_)` of `CreateSampleFileName`: the tag `pContent`. -/
def pContentOf : ContentType → WString
  | .DATA => "data".toList
  | .STRINGS => "strings".toList
  | .RAW => "raw".toList
  | .INVALID => []

/-- The text one of the four `swprintf_s` calls of `CreateSampleFileName` formats
(GetThis_Run.cpp:246-327), before the size of `tmpName` is taken into account. -/
def formatSampleFileName (p : Platform) (content : ContentSpec) (fn : FILE_NAME)
    (DataName : WString) (idx : Nat) : WString :=
  if idx ≠ 0 then
    if DataName.length ≠ 0 then
      -- L"%*.*X%*.*X%*.*X_%.*s_%.*s_%u_%s"
      fmtParent p fn.ParentDirectory ++ "_".toList ++ cstr fn.FileName ++ "_".toList
        ++ cstr DataName ++ "_".toList ++ fmtDec idx ++ "_".toList ++ pContentOf content.Type_
    else
      -- L"%*.*X%*.*X%*.*X__%.*s_%u_%s"
      fmtParent p fn.ParentDirectory ++ "__".toList ++ cstr fn.FileName ++ "_".toList
        ++ fmtDec idx ++ "_".toList ++ pContentOf content.Type_
  else
    if DataName.length ≠ 0 then
      -- L"%*.*X%*.*X%*.*X__%.*s_%.*s_%s"
      fmtParent p fn.ParentDirectory ++ "__".toList ++ cstr fn.FileName ++ "_".toList
        ++ cstr DataName ++ "_".toList ++ pContentOf content.Type_
    else
      -- L"%*.*X%*.*X%*.*X_%.*s_%s"
      fmtParent p fn.ParentDirectory ++ "_".toList ++ cstr fn.FileName ++ "_".toList
        ++ pContentOf content.Type_

/-- The `for_each` at the end of `CreateSampleFileName` (GetThis_Run.cpp:331-334). -/
def sanitize (p : Platform) (s : WString) : WString :=
  s.map (fun Item => if p.iswspace Item || Item == ':' || Item == '#' then '_' else Item)

/-- `Main::CreateSampleFileName` (GetThis_Run.cpp:217-337).  The last argument is the
caller's `SampleFileName`, returned untouched on `E_POINTER`.  `swprintf_s` writes into
`tmpName[MAX_PATH]`: a text that does not fit with its terminating NUL reaches the CRT
invalid-parameter handler. -/
def CreateSampleFileName (p : Platform) (content : ContentSpec) (pFileName : Option FILE_NAME)
    (DataName : WString) (idx : Nat) (SampleFileName : WString) :
    Except Stop (HRESULT × WString) :=
  match pFileName with
  | none => .ok (.E_POINTER, SampleFileName)
  | some fn =>
    let tmpName := formatSampleFileName p content fn DataName idx
    if tmpName.length + 1 > MAX_PATH then .error .invalidParameter
    else .ok (.S_OK, sanitize p tmpName)

/-! ## Matches, streams and samples -/

/-- A `ByteStream` as far as the pipeline built by `ConfigureSampleStreams` is concerned:
a stream of an attribute delivered by the finder, or one of the three wrapping layers. -/
inductive ByteStream where
  /-- a stream of an attribute (its `DataStream` or `RawStream`), of the given size -/
  | source (id : Nat) (size : Nat)
  /-- `StringsStream` opened over `up` with the two bounds -/
  | strings (up : ByteStream) (minChars maxChars : Nat)
  /-- `CryptoHashStream` opened to read `up` -/
  | cryptoHash (algs : Nat) (up : ByteStream)
  /-- `FuzzyHashStream` opened to read `up` -/
  | fuzzyHash (algs : Nat) (up : ByteStream)
  /-- the temporary stream behind the CSV writer of the archive sink -/
  | csvStream
  /-- the temporary stream the logger writes to during the archive sink -/
  | logStream
  deriving DecidableEq, Repr

/-- `FileFind::SearchTerm`, held by shared pointer: `id` stands for the address. -/
structure SearchTerm where
  id : Nat
  Description : WString
  deriving DecidableEq, Repr

/-- `FileFind::Match::NameMatch`: one hard link of the matched file. -/
structure NameMatch where
  FILENAME : Option FILE_NAME
  FullPathName : WString
  deriving DecidableEq, Repr

/-- `FileFind::Match::AttributeMatch`: one matching attribute. -/
structure AttributeMatch where
  Type_ : Nat
  AttrName : WString
  InstanceID : Nat
  DataStream : ByteStream
  RawStream : ByteStream
  YaraRules : Option (List WString)
  deriving DecidableEq, Repr

/-- The `VolumeReader` of a match; `SnapshotID` is present exactly when the reader is a
`SnapshotVolumeReader`. -/
structure VolumeReader where
  VolumeSerialNumber : Nat
  SnapshotID : Option Nat
  deriving DecidableEq, Repr

/-- `FileFind::Match`. -/
structure Match where
  Term : SearchTerm
  VolumeReader : VolumeReader
  FRN : Nat
  StandardInformation : FileTimes
  MatchingNames : List NameMatch
  MatchingAttributes : List AttributeMatch
  deriving DecidableEq, Repr

/-- `GUID_NULL`. -/
def GUID_NULL : Nat := 0

/-- Modelled from the spec: the `SampleRef` record of `GetThis.h`, with the fields that
`GetThis_Run.cpp` reads and writes. -/
structure SampleRef where
  Matches : List Match
  VolumeSerial : Nat
  SnapshotID : Nat
  FRN : Nat
  InstanceID : Nat
  AttributeIndex : Nat
  OffLimits : Bool
  Content : ContentSpec
  CollectionDate : Nat
  SampleName : WString
  CopyStream : Option ByteStream
  HashStream : Option ByteStream
  FuzzyHashStream : Option ByteStream
  SampleSize : Nat
  MD5 : List Nat
  SHA1 : List Nat
  SHA256 : List Nat
  SSDeep : List Nat
  TLSH : List Nat
  deriving DecidableEq, Repr

/-- Modelled from the spec: a default-constructed `SampleRef` (empty containers and
strings, null pointers, zeroed scalars). -/
def SampleRef.fresh : SampleRef :=
  { Matches := [], VolumeSerial := 0, SnapshotID := GUID_NULL, FRN := 0, InstanceID := 0,
    AttributeIndex := 0, OffLimits := false,
    Content := { Type_ := .INVALID, MinChars := 0, MaxChars := 0 }, CollectionDate := 0,
    SampleName := [], CopyStream := none, HashStream := none, FuzzyHashStream := none,
    SampleSize := 0, MD5 := [], SHA1 := [], SHA256 := [], SSDeep := [], TLSH := [] }

/-- Modelled from the spec: equality of two `SampleRef` in the `SampleSet` (declared in
`GetThis.h`): the key is `(volume_serial, FRN, attribute_instance_id)`. -/
def SampleRef.sameKey (a b : SampleRef) : Bool :=
  a.VolumeSerial == b.VolumeSerial && a.FRN == b.FRN && a.InstanceID == b.InstanceID

/-- Modelled from the spec: `SampleSpec` of `GetThis.h`. -/
structure SampleSpec where
  Name : WString
  Content : ContentSpec
  PerSampleLimits : Limits
  Terms : List SearchTerm
  deriving DecidableEq, Repr

/-- The part of `Main::config` that the collection pipeline uses; `0` is the `Undefined`
value of both algorithm sets. -/
structure Configuration where
  listofSpecs : List SampleSpec
  content : ContentSpec
  CryptoHashAlgs : Nat
  FuzzyHashAlgs : Nat
  bReportAll : Bool
  deriving DecidableEq, Repr

/-- The members of `Main` that the collection pipeline reads and writes.  `Samples` (an
unordered set keyed by `SampleRef.sameKey`) and `SampleNames` (an unordered set of
strings) are lists in insertion order. -/
structure Main where
  config : Configuration
  GlobalLimits : Limits
  Samples : List SampleRef
  SampleNames : List WString
  CollectionDate : Nat
  deriving DecidableEq, Repr

/-- Results of the collaborators whose code lies outside `GetThis_Run.cpp`. -/
structure Env where
  platform : Platform
  /-- `ByteStream::GetSize` -/
  GetSize : ByteStream → Nat
  /-- `StringsStream::OpenForStrings(stream, min, max)` -/
  OpenForStrings : ByteStream → Nat → Nat → HRESULT
  /-- `CryptoHashStream::OpenToRead(algs, upstream)` -/
  CryptoOpenToRead : Nat → ByteStream → HRESULT
  /-- `FuzzyHashStream::OpenToRead(algs, upstream)` -/
  FuzzyOpenToRead : Nat → ByteStream → HRESULT
  /-- `Match::GetMatchFullName(name, attribute, out)` -/
  GetMatchFullName : NameMatch → AttributeMatch → WString
  /-- `SystemDetails::GetOrcComputerName` -/
  ComputerName : WString
  /-- `ArchiveCreate::AddStream(name, displayName, stream)` -/
  AddStream : WString → WString → Option ByteStream → HRESULT
  /-- `ArchiveCreate::FlushQueue()` -/
  FlushQueue : HRESULT
  /-- `ArchiveCreate::Complete()` -/
  Complete : HRESULT
  /-- `FileStream::WriteTo(path)`, the path being `output_dir / SampleName` -/
  WriteTo : WString → WString → HRESULT
  /-- `ByteStream::CopyTo(output, &written)` on the given stream -/
  CopyTo : ByteStream → HRESULT
  /-- `CryptoHashStream::GetMD5` -/
  GetMD5 : ByteStream → List Nat
  /-- `CryptoHashStream::GetSHA1` -/
  GetSHA1 : ByteStream → List Nat
  /-- `CryptoHashStream::GetSHA256` -/
  GetSHA256 : ByteStream → List Nat
  /-- `FuzzyHashStream::GetSSDeep` -/
  GetSSDeep : ByteStream → List Nat
  /-- `FuzzyHashStream::GetTLSH` -/
  GetTLSH : ByteStream → List Nat
  /-- The count that `ByteStream::CopyTo(output, &written)` stores through its second
  argument (`ullBytesWritten`, GetThis_Run.cpp:775-776 and 935-936): the bytes the
  pipeline produced -/
  BytesWritten : ByteStream → Nat
  /-- `FileFind::InitializeYara(config.Yara)` -/
  InitializeYara : HRESULT
  /-- The value `FileFind::Find(locations, callback, false)` returns once the callbacks
  were made -/
  Find : HRESULT

/-! ## Building a sample -/

/-- The `switch (sampleRef.Content.Type)` of `ConfigureSampleStreams`
(GetThis_Run.cpp:352-392): the source layer, or the failure of `OpenForStrings`. -/
def sourceStream (env : Env) (config : Configuration) (sampleRef : SampleRef)
    (attr : AttributeMatch) : Except HRESULT ByteStream :=
  match sampleRef.Content.Type_ with
  | .DATA => .ok attr.DataStream
  | .STRINGS =>
    if sampleRef.Content.MaxChars = 0 ∧ sampleRef.Content.MinChars = 0 then
      let hr := env.OpenForStrings attr.DataStream config.content.MinChars config.content.MaxChars
      if FAILED hr then .error hr
      else .ok (.strings attr.DataStream config.content.MinChars config.content.MaxChars)
    else
      let hr := env.OpenForStrings attr.DataStream sampleRef.Content.MinChars
        sampleRef.Content.MaxChars
      if FAILED hr then .error hr
      else .ok (.strings attr.DataStream sampleRef.Content.MinChars sampleRef.Content.MaxChars)
  | .RAW => .ok attr.RawStream
  | .INVALID => .ok attr.DataStream

/-- The crypto-hash layer of `ConfigureSampleStreams` (GetThis_Run.cpp:396-408): the new
`upstream`, or the failure of `OpenToRead`; in both cases with the sample as it then is. -/
def cryptoLayer (env : Env) (config : Configuration) (stream : ByteStream)
    (sampleRef : SampleRef) : Except (HRESULT × SampleRef) (ByteStream × SampleRef) :=
  let algs := config.CryptoHashAlgs
  if algs ≠ 0 then
    let hashStream := ByteStream.cryptoHash algs stream
    let sampleRef1 := { sampleRef with HashStream := some hashStream }
    let hr := env.CryptoOpenToRead algs stream
    if FAILED hr then .error (hr, sampleRef1) else .ok (hashStream, sampleRef1)
  else .ok (stream, sampleRef)

/-- The fuzzy-hash layer of `ConfigureSampleStreams` (GetThis_Run.cpp:410-417). -/
def fuzzyLayer (env : Env) (config : Configuration) (upstream : ByteStream)
    (sampleRef : SampleRef) : Except (HRESULT × SampleRef) (ByteStream × SampleRef) :=
  let fuzzy_algs := config.FuzzyHashAlgs
  if fuzzy_algs ≠ 0 then
    let fuzzyStream := ByteStream.fuzzyHash fuzzy_algs upstream
    let sampleRef1 := { sampleRef with FuzzyHashStream := some fuzzyStream }
    let hr := env.FuzzyOpenToRead fuzzy_algs upstream
    if FAILED hr then .error (hr, sampleRef1) else .ok (fuzzyStream, sampleRef1)
  else .ok (upstream, sampleRef)

/-- `Main::ConfigureSampleStreams` (GetThis_Run.cpp:339-422). -/
def ConfigureSampleStreams (env : Env) (config : Configuration) (sampleRef : SampleRef) :
    Except Stop (HRESULT × SampleRef) :=
  match sampleRef.Matches.head? with
  | none => .error .fault
  | some front =>
    match front.MatchingAttributes[sampleRef.AttributeIndex]? with
    | none => .error .fault
    | some attr =>
      if sampleRef.SampleName.isEmpty then .ok (.E_INVALIDARG, sampleRef)
      else
        match sourceStream env config sampleRef attr with
        | .error hr => .ok (hr, sampleRef)
        | .ok stream =>
          match cryptoLayer env config stream sampleRef with
          | .error r => .ok r
          | .ok (upstream, sampleRef1) =>
            match fuzzyLayer env config upstream sampleRef1 with
            | .error r => .ok r
            | .ok (upstream2, sampleRef2) =>
              .ok (.S_OK, { sampleRef2 with CopyStream := some upstream2,
                                            SampleSize := env.GetSize upstream2 })

/-- The `do ... while` of `AddSamplesForMatch` (GetThis_Run.cpp:650-665) with `fuel`
iterations left: the returned string is `CabSampleName` on leaving the loop. -/
def uniqueNameLoop (env : Env) (SampleNames : List WString) (aSpec : SampleSpec)
    (content : ContentSpec) (pFileName : Option FILE_NAME) (AttrName : WString) :
    Nat → Nat → WString → Except Stop WString
  | 0, _, _ => .error .diverges
  | fuel + 1, dwIdx, CabSampleName =>
    match CreateSampleFileName env.platform content pFileName AttrName dwIdx CabSampleName with
    | .error e => .error e
    | .ok (hr, created) =>
      if FAILED hr then .ok created
      else
        let candidate := if !aSpec.Name.isEmpty then aSpec.Name ++ ['\\'] ++ created else created
        if candidate ∈ SampleNames then
          uniqueNameLoop env SampleNames aSpec content pFileName AttrName fuel (add32 dwIdx 1)
            candidate
        else .ok candidate

/-- The whole `do ... while`: `dwIdx` is a `DWORD` starting at `0`, so after `2^32`
iterations the loop is back in the state it started from and never ends. -/
def uniqueName (env : Env) (SampleNames : List WString) (aSpec : SampleSpec)
    (content : ContentSpec) (pFileName : Option FILE_NAME) (AttrName : WString) :
    Except Stop WString :=
  uniqueNameLoop env SampleNames aSpec content pFileName AttrName 4294967296 0 []

/-- `std::unordered_set::insert` on the Name Registry. -/
def insertName (SampleNames : List WString) (name : WString) : List WString :=
  if name ∈ SampleNames then SampleNames else SampleNames ++ [name]

/-- The `for (auto& name : aMatch->MatchingNames)` loop of `AddSamplesForMatch`
(GetThis_Run.cpp:640-669), on the sample under construction and the Name Registry. -/
def nameSample (env : Env) (aSpec : SampleSpec) (anAttr : AttributeMatch) (CollectionDate : Nat) :
    List NameMatch → SampleRef → List WString → Except Stop (SampleRef × List WString)
  | [], sampleRef, SampleNames => .ok (sampleRef, SampleNames)
  | name :: rest, sampleRef, SampleNames =>
    let sampleRef1 := { sampleRef with Content := aSpec.Content, CollectionDate := CollectionDate }
    match uniqueName env SampleNames aSpec sampleRef1.Content name.FILENAME anAttr.AttrName with
    | .error e => .error e
    | .ok CabSampleName =>
      nameSample env aSpec anAttr CollectionDate rest
        { sampleRef1 with SampleName := CabSampleName } (insertName SampleNames CabSampleName)

/-- The sample that the head of the attribute loop of `AddSamplesForMatch` fills in
(GetThis_Run.cpp:589-624). -/
def newSampleRef (status : LimitStatus) (aMatch : Match) (anAttr : AttributeMatch)
    (sIndex : Nat) : SampleRef :=
  { SampleRef.fresh with
    Matches := [aMatch]
    VolumeSerial := aMatch.VolumeReader.VolumeSerialNumber
    SnapshotID := match aMatch.VolumeReader.SnapshotID with
      | some id => id
      | none => GUID_NULL
    FRN := aMatch.FRN
    InstanceID := anAttr.InstanceID
    AttributeIndex := sIndex
    OffLimits := OffLimitsOf status }

/-- The `for (const auto& anAttr : aMatch->MatchingAttributes)` loop of
`AddSamplesForMatch` (GetThis_Run.cpp:587-677), carrying `sIndex` and `hr`. -/
def addSamplesLoop (env : Env) (status : LimitStatus) (aSpec : SampleSpec) (aMatch : Match) :
    List AttributeMatch → Nat → HRESULT → Main → Except Stop (HRESULT × Main)
  | [], _, hr, m => .ok (hr, m)
  | anAttr :: rest, sIndex, _, m =>
    let sampleRef := newSampleRef status aMatch anAttr sIndex
    match m.Samples.find? (fun s => s.sameKey sampleRef) with
    | some _ => addSamplesLoop env status aSpec aMatch rest (sIndex + 1) .S_FALSE m
    | none =>
      match nameSample env aSpec anAttr m.CollectionDate aMatch.MatchingNames sampleRef
          m.SampleNames with
      | .error e => .error e
      | .ok (named, SampleNames) =>
        match ConfigureSampleStreams env m.config named with
        | .error e => .error e
        | .ok (hr, configured) =>
          addSamplesLoop env status aSpec aMatch rest (sIndex + 1) hr
            { m with SampleNames := SampleNames, Samples := m.Samples ++ [configured] }

/-- `Main::AddSamplesForMatch` (GetThis_Run.cpp:581-682). -/
def AddSamplesForMatch (env : Env) (status : LimitStatus) (aSpec : SampleSpec) (aMatch : Match)
    (m : Main) : Except Stop (HRESULT × Main) :=
  match addSamplesLoop env status aSpec aMatch aMatch.MatchingAttributes 0 .E_FAIL m with
  | .error e => .error e
  | .ok (hr, m1) => if hr = .S_FALSE then .ok (hr, m1) else .ok (.S_OK, m1)

/-! ## Ingesting matches -/

/-- The `std::find_if` of `FindMatchingSamples` (GetThis_Run.cpp:966-970): position of
the first spec whose `Terms` hold the term of the match (shared pointers compare by
address). -/
def findSpec (Term : SearchTerm) : List SampleSpec → Option Nat
  | [] => none
  | aSpec :: rest =>
    if aSpec.Terms.any (fun t => t.id == Term.id) then some 0
    else (findSpec Term rest).map (fun i => i + 1)

/-- The accumulator update of the `NoLimits` / `SampleWithinLimits` case
(GetThis_Run.cpp:1020-1024) on one `Limits`. -/
def Limits.account (l : Limits) (dwlDataSize : Nat) : Limits :=
  { l with dwlAccumulatedBytesTotal := add64 l.dwlAccumulatedBytesTotal dwlDataSize
           dwAccumulatedSampleCount := add32 l.dwAccumulatedSampleCount 1 }

/-- Write back `aSpecIt->PerSampleLimits`. -/
def setSpecLimits (specs : List SampleSpec) (i : Nat) (l : Limits) : List SampleSpec :=
  match specs[i]? with
  | none => specs
  | some aSpec => specs.set i { aSpec with PerSampleLimits := l }

/-- The `switch (status)` that ends the body of the attribute loop of
`FindMatchingSamples` (GetThis_Run.cpp:1009-1078): effect on the global limits and on
the limits of the governing spec. -/
def applyStatus (status : LimitStatus) (hr : HRESULT) (dwlDataSize : Nat)
    (GlobalLimits PerSampleLimits : Limits) : Limits × Limits :=
  match status with
  | .NoLimits | .SampleWithinLimits =>
    if hr = .S_FALSE then (GlobalLimits, PerSampleLimits)
    else (GlobalLimits.account dwlDataSize, PerSampleLimits.account dwlDataSize)
  | .GlobalSampleCountLimitReached =>
    ({ GlobalLimits with bMaxSampleCountReached := true }, PerSampleLimits)
  | .GlobalMaxBytesPerSample =>
    ({ GlobalLimits with bMaxBytesPerSampleReached := true }, PerSampleLimits)
  | .GlobalMaxBytesTotal =>
    ({ GlobalLimits with bMaxBytesTotalReached := true }, PerSampleLimits)
  | .LocalSampleCountLimitReached =>
    (GlobalLimits, { PerSampleLimits with bMaxSampleCountReached := true })
  | .LocalMaxBytesPerSample =>
    (GlobalLimits, { PerSampleLimits with bMaxBytesPerSampleReached := true })
  | .LocalMaxBytesTotal =>
    (GlobalLimits, { PerSampleLimits with bMaxBytesTotalReached := true })
  | .FailedToComputeLimits => (GlobalLimits, PerSampleLimits)

/-- One round of `for (const auto& attr : aMatch->MatchingAttributes)` in the callback of
`FindMatchingSamples` (GetThis_Run.cpp:995-1079), `specIdx` being the position of
`aSpecIt`.  Returns the status, the `hr` of `AddSamplesForMatch` and the new state. -/
def ingestAttribute (env : Env) (aMatch : Match) (specIdx : Nat) (attr : AttributeMatch)
    (m : Main) : Except Stop (LimitStatus × HRESULT × Main) :=
  match m.config.listofSpecs[specIdx]? with
  | none => .error .fault
  | some aSpec =>
    let dwlDataSize := env.GetSize attr.DataStream
    let status := SampleLimitStatus m.GlobalLimits aSpec.PerSampleLimits dwlDataSize
    match AddSamplesForMatch env status aSpec aMatch m with
    | .error e => .error e
    | .ok (hr, m1) =>
      let limits := applyStatus status hr dwlDataSize m1.GlobalLimits aSpec.PerSampleLimits
      .ok (status, hr,
        { m1 with GlobalLimits := limits.1
                  config := { m1.config with
                    listofSpecs := setSpecLimits m1.config.listofSpecs specIdx limits.2 } })

/-- The attribute loop of the callback, from the given attributes on. -/
def ingestAttributes (env : Env) (aMatch : Match) (specIdx : Nat) :
    List AttributeMatch → Main → Except Stop Main
  | [], m => .ok m
  | attr :: rest, m =>
    match ingestAttribute env aMatch specIdx attr m with
    | .error e => .error e
    | .ok (_, _, m1) => ingestAttributes env aMatch specIdx rest m1

/-- The callback that `FindMatchingSamples` hands to the finder
(GetThis_Run.cpp:961-1081), called with one match (or a null pointer). -/
def onMatch (env : Env) (aMatch : Option Match) (m : Main) : Except Stop Main :=
  match aMatch with
  | none => .ok m
  | some aMatch =>
    match findSpec aMatch.Term m.config.listofSpecs with
    | none => .ok m
    | some specIdx =>
      match aMatch.MatchingNames with
      | [] => .error .fault
      | _ :: _ =>
        if aMatch.MatchingAttributes.isEmpty then .ok m
        else ingestAttributes env aMatch specIdx aMatch.MatchingAttributes m

/-- The finder calling back once per delivered match, in order. -/
def ingestMatches (env : Env) : List (Option Match) → Main → Except Stop Main
  | [], m => .ok m
  | aMatch :: rest, m =>
    match onMatch env aMatch m with
    | .error e => .error e
    | .ok m1 => ingestMatches env rest m1

/-! ## Manifest rows and sinks -/

/-- One call on the `ITableOutput` that fills a column. -/
inductive Cell where
  | WriteString (s : WString)
  | WriteInteger (n : Nat)
  | WriteNothing
  | WriteFileSize (n : Nat)
  | WriteBytes (b : List Nat)
  | WriteFileTime (t : Nat)
  | WriteExactFlags (flags : Nat)
  | WriteGUID (g : Nat)
  deriving DecidableEq, Repr

/-- A line of the manifest: the column calls made before `WriteEndOfLine`. -/
abbrev Row := List Cell

/-- The 64-bit `QuadPart` read through the cast of a `MFT_SEGMENT_REFERENCE`
(`ULONG` low part, `USHORT` high part, `USHORT` sequence number, little endian). -/
def quadPart (r : MFT_SEGMENT_REFERENCE) : Nat :=
  r.SegmentNumberLowPart + 4294967296 * r.SegmentNumberHighPart
    + 281474976710656 * r.SequenceNumber

/-- The `std::copy` into an `ostream_iterator` with delimiter `"; "`
(GetThis_Run.cpp:559-567): the delimiter follows every element. -/
def joinRules (rules : List WString) : WString :=
  rules.foldl (fun acc r => acc ++ r ++ "; ".toList) []

/-- The body of the inner loop of `AddSampleRefToCSV` (GetThis_Run.cpp:486-574): the line
written for one hard link `name` of `aMatch`. -/
def csvRow (strComputerName : WString) (sample : SampleRef) (aMatch : Match) (name : NameMatch) :
    Except Stop Row :=
  match name.FILENAME, aMatch.MatchingAttributes[sample.AttributeIndex]? with
  | some fn, some attr =>
    .ok [ .WriteString strComputerName,
          .WriteInteger aMatch.VolumeReader.VolumeSerialNumber,
          .WriteInteger (quadPart fn.ParentDirectory),
          .WriteInteger aMatch.FRN,
          .WriteString name.FullPathName,
          (if sample.OffLimits then .WriteNothing else .WriteString sample.SampleName),
          .WriteFileSize sample.SampleSize,
          .WriteBytes sample.MD5,
          .WriteBytes sample.SHA1,
          .WriteString aMatch.Term.Description,
          (match sample.Content.Type_ with
            | .DATA => .WriteString "data".toList
            | .STRINGS => .WriteString "strings".toList
            | _ => .WriteNothing),
          .WriteFileTime sample.CollectionDate,
          .WriteFileTime aMatch.StandardInformation.CreationTime,
          .WriteFileTime aMatch.StandardInformation.LastModificationTime,
          .WriteFileTime aMatch.StandardInformation.LastAccessTime,
          .WriteFileTime aMatch.StandardInformation.LastChangeTime,
          .WriteFileTime fn.Info.CreationTime,
          .WriteFileTime fn.Info.LastModificationTime,
          .WriteFileTime fn.Info.LastAccessTime,
          .WriteFileTime fn.Info.LastChangeTime,
          .WriteExactFlags attr.Type_,
          .WriteString attr.AttrName,
          .WriteInteger (sample.InstanceID % 4294967296),
          .WriteGUID sample.SnapshotID,
          .WriteBytes sample.SHA256,
          .WriteBytes sample.SSDeep,
          .WriteBytes sample.TLSH,
          (match attr.YaraRules with
            | some rules => .WriteString (joinRules rules)
            | none => .WriteNothing) ]
  | _, _ => .error .fault

/-- Lines written one after the other until one of them cannot be produced: the lines
that were written, and how the writing ended. -/
def writeRows {α : Type} (f : α → Except Stop Row) : List α → List Row × Except Stop Unit
  | [] => ([], .ok ())
  | a :: rest =>
    match f a with
    | .error e => ([], .error e)
    | .ok row => ((row :: (writeRows f rest).1), (writeRows f rest).2)

/-- Several writers run one after the other until one of them stops. -/
def writeAll {α : Type} (f : α → List Row × Except Stop Unit) : List α → List Row × Except Stop Unit
  | [] => ([], .ok ())
  | a :: rest =>
    match (f a).2 with
    | .error e => ((f a).1, .error e)
    | .ok _ => ((f a).1 ++ (writeAll f rest).1, (writeAll f rest).2)

/-- `Main::AddSampleRefToCSV` (GetThis_Run.cpp:459-579): the lines written and, when the
function returns, its result (always `S_OK`). -/
def AddSampleRefToCSV (strComputerName : WString) (sample : SampleRef) :
    List Row × Except Stop HRESULT :=
  let r := writeAll (fun aMatch => writeRows (csvRow strComputerName sample aMatch)
    aMatch.MatchingNames) sample.Matches
  (r.1, r.2.map (fun _ => HRESULT.S_OK))

/-- The digests read back from the taps before a sample is written to the manifest
(GetThis_Run.cpp:719-730 and 794-805). -/
def readDigests (env : Env) (sampleRef : SampleRef) : SampleRef :=
  let s1 := match sampleRef.HashStream with
    | some h => { sampleRef with MD5 := env.GetMD5 h, SHA1 := env.GetSHA1 h,
                                 SHA256 := env.GetSHA256 h }
    | none => sampleRef
  match s1.FuzzyHashStream with
  | some f => { s1 with SSDeep := env.GetSSDeep f, TLSH := env.GetTLSH f }
  | none => s1

/-- The manifest loop of both sinks (GetThis_Run.cpp:717-741 and 790-812):
`AddSampleRefToCSV` on every sample of the registry, in iteration order. -/
def writeManifest (env : Env) (Samples : List SampleRef) : List Row × Except Stop Unit :=
  writeAll (fun sampleRef =>
    let r := AddSampleRefToCSV env.ComputerName (readDigests env sampleRef)
    (r.1, r.2.map (fun _ => ()))) Samples

/-- What a sink does that can be seen from outside, in order. -/
inductive SinkEvent where
  /-- `compressor->AddStream(name, displayName, stream)` -/
  | AddStream (szName szDisplay : WString) (stream : Option ByteStream)
  /-- `compressor->FlushQueue()` -/
  | FlushQueue
  /-- `outputStream.WriteTo(output_dir / SampleName)` -/
  | WriteTo (outputdir SampleName : WString)
  /-- `CopyStream->CopyTo(outputStream, ...)` into the file of that sample -/
  | CopyTo (stream : ByteStream) (SampleName : WString)
  /-- `outputStream.Close(); CopyStream->Close()` -/
  | Close (stream : ByteStream) (SampleName : WString)
  /-- one line of the manifest -/
  | WriteRow (row : Row)
  /-- `compressor->Complete()` -/
  | Complete
  /-- `CopyStream->CopyTo(devnull, ...)` in `HashOffLimitSamples` -/
  | HashCopy (stream : ByteStream) (SampleName : WString)
  /-- `CopyStream->Close()` in `HashOffLimitSamples` -/
  | HashClose (stream : ByteStream) (SampleName : WString)
  deriving DecidableEq, Repr

/-- The first `for_each` of the archive sink (GetThis_Run.cpp:689-702). -/
def archivePayload (env : Env) : List SampleRef → List SinkEvent × Except Stop Unit
  | [] => ([], .ok ())
  | sampleRef :: rest =>
    if !sampleRef.OffLimits then
      match sampleRef.Matches.head? with
      | none => ([], .error .fault)
      | some front =>
        match front.MatchingNames.head?, front.MatchingAttributes.head? with
        | some name, some attr =>
          (.AddStream sampleRef.SampleName (env.GetMatchFullName name attr) sampleRef.CopyStream
            :: (archivePayload env rest).1, (archivePayload env rest).2)
        | _, _ => ([], .error .fault)
    else archivePayload env rest

/-- `Main::CollectMatchingSamples(compressor, output, Samples)`, the archive sink
(GetThis_Run.cpp:684-744). -/
def CollectMatchingSamples_archive (env : Env) (Samples : List SampleRef) :
    List SinkEvent × Except Stop HRESULT :=
  let payload := archivePayload env Samples
  match payload.2 with
  | .error e => (payload.1, .error e)
  | .ok _ =>
    let hr := env.FlushQueue
    if FAILED hr then (payload.1 ++ [.FlushQueue], .ok hr)
    else
      let manifest := writeManifest env Samples
      (payload.1 ++ [.FlushQueue] ++ manifest.1.map .WriteRow,
        manifest.2.map (fun _ => HRESULT.S_OK))

/-- The first loop of the directory sink (GetThis_Run.cpp:761-788); a failed `WriteTo`
or `CopyTo` leaves the loop. -/
def directoryPayload (env : Env) (outputdir : WString) :
    List SampleRef → List SinkEvent × Except Stop Unit
  | [] => ([], .ok ())
  | sample_ref :: rest =>
    if !sample_ref.OffLimits then
      if FAILED (env.WriteTo outputdir sample_ref.SampleName) then
        ([.WriteTo outputdir sample_ref.SampleName], .ok ())
      else
        match sample_ref.CopyStream with
        | none => ([.WriteTo outputdir sample_ref.SampleName], .error .fault)
        | some stream =>
          if FAILED (env.CopyTo stream) then
            ([.WriteTo outputdir sample_ref.SampleName, .CopyTo stream sample_ref.SampleName],
              .ok ())
          else
            (.WriteTo outputdir sample_ref.SampleName :: .CopyTo stream sample_ref.SampleName
              :: .Close stream sample_ref.SampleName :: (directoryPayload env outputdir rest).1,
              (directoryPayload env outputdir rest).2)
    else directoryPayload env outputdir rest

/-- `Main::CollectMatchingSamples(outputdir, output, MatchingSamples)`, the directory sink
(GetThis_Run.cpp:746-814). -/
def CollectMatchingSamples_directory (env : Env) (outputdir : WString)
    (MatchingSamples : List SampleRef) : List SinkEvent × Except Stop HRESULT :=
  if MatchingSamples.isEmpty then ([], .ok .S_OK)
  else
    let payload := directoryPayload env outputdir MatchingSamples
    match payload.2 with
    | .error e => (payload.1, .error e)
    | .ok _ =>
      let manifest := writeManifest env MatchingSamples
      (payload.1 ++ manifest.1.map .WriteRow, manifest.2.map (fun _ => HRESULT.S_OK))

/-! ## Reading a sink trace -/

/-- The payload an event hands to the sink: the sample name and the stream given to
`AddStream`, or copied into the output file. -/
def SinkEvent.payloadOf : SinkEvent → Option (WString × Option ByteStream)
  | .AddStream szName _ stream => some (szName, stream)
  | .CopyTo stream SampleName => some (SampleName, some stream)
  | _ => none

/-- The sample name of the output file an event creates. -/
def SinkEvent.fileOf : SinkEvent → Option WString
  | .WriteTo _ SampleName => some SampleName
  | _ => none

/-- The manifest line an event writes. -/
def SinkEvent.rowOf : SinkEvent → Option Row
  | .WriteRow row => some row
  | _ => none

/-- The manifest lines of one sample, as both sinks write them. -/
def rowsOf (env : Env) (sampleRef : SampleRef) : List Row :=
  (AddSampleRefToCSV env.ComputerName (readDigests env sampleRef)).1

/-- The name under which an event adds a member to the archive. -/
def SinkEvent.memberOf : SinkEvent → Option WString
  | .AddStream szName _ _ => some szName
  | _ => none

/-- The sample name and the stream an event of the off-limits hasher reads to its end. -/
def SinkEvent.hashedOf : SinkEvent → Option (WString × Option ByteStream)
  | .HashCopy stream SampleName => some (SampleName, some stream)
  | _ => none

/-! ## Output setup, off-limits hasher and run -/

/-- `OutputSpec::Type` as far as the `switch` of `CollectMatchingSamples` tells the values
apart. -/
inductive OutputType where
  | Archive
  | Directory
  | Other
  deriving DecidableEq, Repr

/-- Results of the collaborators that set up and finish an output. -/
structure OutputEnv where
  /-- `ArchiveCreate::MakeCreate` returned a compressor -/
  MakeCreate : Bool
  /-- `compressor->InitArchive(path)` -/
  InitArchive : HRESULT
  /-- `outputSpec.Password.empty()` -/
  PasswordEmpty : Bool
  /-- `compressor->SetPassword(password)` -/
  SetPassword : HRESULT
  /-- `compressor->SetCompressionLevel(level)` -/
  SetCompressionLevel : HRESULT
  /-- `logStream->Open(...)` -/
  LogStreamOpen : HRESULT
  /-- `_L_->LogToStream(logStream)` -/
  LogToStream : HRESULT
  /-- `csvStream->Open(...)` -/
  CsvStreamOpen : HRESULT
  /-- `csvWriter->WriteToStream(csvStream)` -/
  CsvWriteToStream : HRESULT
  /-- `csvWriter->SetSchema(schema)` -/
  CsvSetSchema : HRESULT
  /-- error code of `fs::create_directories`, if any -/
  create_directories : Option Nat
  /-- `_L_->IsLoggingToFile()` -/
  IsLoggingToFile : Bool
  /-- `_L_->LogToFile(logFile)` -/
  LogToFile : HRESULT
  /-- `csvStream->WriteToFile(csvPath)` -/
  CsvWriteToFile : HRESULT
  /-- `csvWriter->GetStream()->GetSize()` once the given lines were written and flushed
  (`0` also when there is no stream) -/
  CsvStreamSize : List Row → Nat
  /-- `_L_->GetByteStream()->GetSize()` at the end of the archive sink (`0` also when there
  is no stream) -/
  LogStreamSize : Nat

/-- `CreateCompressor` (GetThis_Run.cpp:51-92): `error hr` when it returns `nullptr`. -/
def CreateCompressor (out : OutputEnv) : Except HRESULT Unit :=
  if !out.MakeCreate then .error .E_POINTER
  else if FAILED out.InitArchive then .error out.InitArchive
  else if !out.PasswordEmpty && FAILED out.SetPassword then .error out.SetPassword
  else if FAILED out.SetCompressionLevel then .error out.SetCompressionLevel
  else .ok ()

/-- `CreateCsvWriter` (GetThis_Run.cpp:94-128): `error hr` when it returns `nullptr`. -/
def CreateCsvWriter (out : OutputEnv) : Except HRESULT Unit :=
  if FAILED out.CsvStreamOpen then .error out.CsvStreamOpen
  else if FAILED out.CsvWriteToStream then .error out.CsvWriteToStream
  else if FAILED out.CsvSetSchema then .error out.CsvSetSchema
  else .ok ()

/-- `CreateLogStream` (GetThis_Run.cpp:130-154): `error hr` when it returns `nullptr`. -/
def CreateLogStream (out : OutputEnv) : Except HRESULT Unit :=
  if FAILED out.LogStreamOpen then .error out.LogStreamOpen
  else if FAILED out.LogToStream then .error out.LogToStream
  else .ok ()

/-- `Main::CreateOutputDirLogFileAndCSV` (GetThis_Run.cpp:158-195): `error hr` when the
writer it returns is `nullptr`. -/
def CreateOutputDirLogFileAndCSV (out : OutputEnv) : Except HRESULT Unit :=
  match out.create_directories with
  | some ec => .error (.error ec)
  | none =>
    if !out.IsLoggingToFile && FAILED out.LogToFile then .error out.LogToFile
    else if FAILED out.CsvWriteToFile then .error out.CsvWriteToFile
    else .ok ()

/-- The end of the `Archive` case of `CollectMatchingSamples(output, MatchingSamples)`
(GetThis_Run.cpp:854-895), after the samples were collected and `rows` written: the
archive operations issued and the result of `Complete`. -/
def finalizeArchive (env : Env) (out : OutputEnv) (rows : List Row) : List SinkEvent × HRESULT :=
  let csv := if out.CsvStreamSize rows ≠ 0 then
      [SinkEvent.AddStream "GetThis.csv".toList "GetThis.csv".toList (some .csvStream)]
    else []
  let log := if out.LogStreamSize > 0 then
      [SinkEvent.AddStream "GetThis.log".toList "GetThis.log".toList (some .logStream)]
    else []
  (csv ++ log ++ [.Complete], env.Complete)

/-- `Main::CollectMatchingSamples(output, MatchingSamples)` (GetThis_Run.cpp:816-920). -/
def CollectMatchingSamples (env : Env) (out : OutputEnv) (outputType : OutputType)
    (outputPath : WString) (MatchingSamples : List SampleRef) :
    List SinkEvent × Except Stop HRESULT :=
  match outputType with
  | .Archive =>
    match CreateCompressor out with
    | .error hr => ([], .ok hr)
    | .ok _ =>
      match CreateLogStream out with
      | .error hr => ([], .ok hr)
      | .ok _ =>
        match CreateCsvWriter out with
        | .error hr => ([], .ok hr)
        | .ok _ =>
          let collected := CollectMatchingSamples_archive env MatchingSamples
          match collected.2 with
          | .error e => (collected.1, .error e)
          | .ok hr =>
            if FAILED hr then (collected.1, .ok hr)
            else
              let final := finalizeArchive env out (collected.1.filterMap SinkEvent.rowOf)
              if FAILED final.2 then (collected.1 ++ final.1, .ok final.2)
              else (collected.1 ++ final.1, .ok .S_OK)
  | .Directory =>
    match CreateOutputDirLogFileAndCSV out with
    | .error hr => ([], .ok hr)
    | .ok _ =>
      let collected := CollectMatchingSamples_directory env outputPath MatchingSamples
      match collected.2 with
      | .error e => (collected.1, .error e)
      | .ok hr =>
        if FAILED hr then (collected.1, .ok hr) else (collected.1, .ok .S_OK)
  | .Other => ([], .ok .E_NOTIMPL)

/-- `Main::HashOffLimitSamples` (GetThis_Run.cpp:922-947); a failed `CopyTo` leaves the
loop. -/
def HashOffLimitSamples (env : Env) : List SampleRef → List SinkEvent × Except Stop HRESULT
  | [] => ([], .ok .S_OK)
  | sample :: rest =>
    if !sample.OffLimits then HashOffLimitSamples env rest
    else
      match sample.CopyStream with
      | none => ([], .error .fault)
      | some stream =>
        if FAILED (env.CopyTo stream) then ([.HashCopy stream sample.SampleName], .ok .S_OK)
        else
          (.HashCopy stream sample.SampleName :: .HashClose stream sample.SampleName
            :: (HashOffLimitSamples env rest).1, (HashOffLimitSamples env rest).2)

/-- `Main::FindMatchingSamples` (GetThis_Run.cpp:949-1088), the finder delivering the
matches `found`: whatever `InitializeYara` and `Find` return, the result is `S_OK`. -/
def FindMatchingSamples (env : Env) (found : List (Option Match)) (m : Main) :
    Except Stop (HRESULT × Main) :=
  match ingestMatches env found m with
  | .error e => .error e
  | .ok m1 => .ok (.S_OK, m1)

/-- The two `log::Error` calls of `FindMatchingSamples` outside its callback
(GetThis_Run.cpp:953-956 and 1083-1086): the failures of `InitializeYara` and of `Find`,
which are logged and have no other effect. -/
def FindMatchingSamples_logged (env : Env) : List HRESULT :=
  (if FAILED env.InitializeYara then [env.InitializeYara] else [])
    ++ (if FAILED env.Find then [env.Find] else [])

/-- The call of `HashOffLimitSamples` in `Run` (GetThis_Run.cpp:1119-1126), made only
when off-limits samples are to be reported and a crypto algorithm is selected. -/
def hashPhase (env : Env) (m : Main) : List SinkEvent × Except Stop HRESULT :=
  if m.config.bReportAll && m.config.CryptoHashAlgs ≠ 0 then HashOffLimitSamples env m.Samples
  else ([], .ok .S_OK)

/-- `Main::Run` (GetThis_Run.cpp:1090-1149) from `FindMatchingSamples` on: what the
hasher and the sink do, and the value returned.  (The results of `RegFlushKeys` and of
`CloseOutput` are only logged.) -/
def Run (env : Env) (out : OutputEnv) (outputType : OutputType) (outputPath : WString)
    (found : List (Option Match)) (m : Main) : List SinkEvent × Except Stop HRESULT :=
  match FindMatchingSamples env found m with
  | .error e => ([], .error e)
  | .ok (hr, m1) =>
    if FAILED hr then ([], .ok hr)
    else
      let hashed := hashPhase env m1
      match hashed.2 with
      | .error e => (hashed.1, .error e)
      | .ok hr1 =>
        if FAILED hr1 then (hashed.1, .ok hr1)
        else
          let sink := CollectMatchingSamples env out outputType outputPath m1.Samples
          match sink.2 with
          | .error e => (hashed.1 ++ sink.1, .error e)
          | .ok hr2 =>
            if FAILED hr2 then (hashed.1 ++ sink.1, .ok hr2)
            else (hashed.1 ++ sink.1, .ok .S_OK)

/-- The text of `CabSampleName` at the end of one round of the `do ... while` of
`AddSamplesForMatch` run with index `idx` on a non-null `$FILE_NAME`
(GetThis_Run.cpp:652-660): the sanitized formatted name, after the name of the spec and a
backslash when the spec has a name. -/
def candidateName (p : Platform) (aSpec : SampleSpec) (content : ContentSpec) (fn : FILE_NAME)
    (AttrName : WString) (idx : Nat) : WString :=
  if !aSpec.Name.isEmpty then
    aSpec.Name ++ ['\\'] ++ sanitize p (formatSampleFileName p content fn AttrName idx)
  else sanitize p (formatSampleFileName p content fn AttrName idx)

/-- A sequence of calls of `AddSamplesForMatch`, each with its own status, spec and match,
on the state the previous call left. -/
def addSamplesSeq (env : Env) : List (LimitStatus × SampleSpec × Match) → Main → Except Stop Main
  | [], m => .ok m
  | (status, aSpec, aMatch) :: rest, m =>
    match AddSamplesForMatch env status aSpec aMatch m with
    | .error e => .error e
    | .ok (_, m1) => addSamplesSeq env rest m1

/-- The operations of `HashOffLimitSamples` on one sample whose pipeline is read to its
end: `CopyTo(devnull)`, then `Close` (GetThis_Run.cpp:935-943). -/
def drainOf (sample : SampleRef) : List SinkEvent :=
  match sample.CopyStream with
  | some stream => [.HashCopy stream sample.SampleName, .HashClose stream sample.SampleName]
  | none => []

/-- The two members that the archive output adds after the samples
(GetThis_Run.cpp:866 and 884), as `SinkEvent.payloadOf` reads them. -/
def closingMembers : List (WString × Option ByteStream) :=
  [("GetThis.csv".toList, some .csvStream), ("GetThis.log".toList, some .logStream)]

/-! ## Predicates on samples and on the registry -/

/-- The fields of a sample that are fixed before it is named and configured. -/
def SampleRef.sameIdentity (a b : SampleRef) : Prop :=
  b.Matches = a.Matches ∧ b.VolumeSerial = a.VolumeSerial ∧ b.FRN = a.FRN
    ∧ b.InstanceID = a.InstanceID ∧ b.AttributeIndex = a.AttributeIndex
    ∧ b.OffLimits = a.OffLimits ∧ b.SnapshotID = a.SnapshotID

/-- No two entries of the registry have the same key. -/
def uniqueKeys (Samples : List SampleRef) : Prop :=
  Samples.Pairwise (fun a b => a.sameKey b = false)

/-- The registry holds an entry with the key of attribute `a` of `aMatch`. -/
def registered (Samples : List SampleRef) (aMatch : Match) (a : AttributeMatch) : Prop :=
  ∃ s ∈ Samples, s.VolumeSerial = aMatch.VolumeReader.VolumeSerialNumber ∧ s.FRN = aMatch.FRN
    ∧ s.InstanceID = a.InstanceID

/-! ## Sample file names, in the words of the specification -/

/-- The format of the specification: the three parent identifiers in hexadecimal, `SEP1`,
the file name, `'_'`, the stream name and `'_'` when there is a stream name, the index
and `'_'` when the index is not `0`, the tag; `SEP1` being `'_'` when the stream name is
empty and `"__"` otherwise, whatever the index. -/
def specSampleFileName (p : Platform) (content : ContentSpec) (fn : FILE_NAME)
    (DataName : WString) (idx : Nat) : WString :=
  fmtParent p fn.ParentDirectory
    ++ (if DataName.isEmpty then "_".toList else "__".toList)
    ++ fn.FileName ++ "_".toList
    ++ (if DataName.isEmpty then [] else DataName ++ "_".toList)
    ++ (if idx = 0 then [] else fmtDec idx ++ "_".toList)
    ++ pContentOf content.Type_

/-- A stored sample name as `AddSamplesForMatch` leaves it: empty, or the name of the spec
and a backslash (when the spec has a name) followed by a synthesized part without white
space, `':'` and `'#'`. -/
def storedNameShape (p : Platform) (aSpec : SampleSpec) (name : WString) : Prop :=
  name = [] ∨ ∃ synth : WString,
    name = (if !aSpec.Name.isEmpty then aSpec.Name ++ ['\\'] ++ synth else synth)
    ∧ ∀ c ∈ synth, p.iswspace c = false ∧ c ≠ ':' ∧ c ≠ '#'

/-! ## The pipeline of a sample, in the words of the specification -/

/-- The head of the pipeline: the source, wrapped in the crypto-hash tap when crypto
algorithms are selected, wrapped in the fuzzy-hash tap when fuzzy algorithms are
selected (`0` is `Undefined`). -/
def specPipeline (cryptoAlgs fuzzyAlgs : Nat) (source : ByteStream) : ByteStream :=
  let tapped := if cryptoAlgs ≠ 0 then ByteStream.cryptoHash cryptoAlgs source else source
  if fuzzyAlgs ≠ 0 then ByteStream.fuzzyHash fuzzyAlgs tapped else tapped

/-- The source layer: the parsed data stream for `DATA` and unknown types, the raw stream
for `RAW`, a strings reader over the data stream for `STRINGS`, with the bounds of the
sample unless both are `0`, in which case the global defaults apply. -/
def specSource (config : Configuration) (content : ContentSpec) (attr : AttributeMatch) :
    ByteStream :=
  match content.Type_ with
  | .RAW => attr.RawStream
  | .STRINGS =>
    if content.MinChars = 0 ∧ content.MaxChars = 0 then
      .strings attr.DataStream config.content.MinChars config.content.MaxChars
    else .strings attr.DataStream content.MinChars content.MaxChars
  | _ => attr.DataStream

/-! ## The rules of the limit accountant, in the words of the specification -/

/-- Rule "sample count reached" on one scope: `max_sample_count` is set and
`accumulated_count ≥ max_sample_count`. -/
def countReached (l : Limits) : Bool :=
  decide (l.dwMaxSampleCount ≠ INFINITE) && decide (l.dwAccumulatedSampleCount ≥ l.dwMaxSampleCount)

/-- Rule "per-sample size exceeded" on one scope: `max_bytes_per_sample` is set and
`n > max_bytes_per_sample`. -/
def perSampleExceeded (l : Limits) (n : Nat) : Bool :=
  decide (l.dwlMaxBytesPerSample ≠ INFINITE) && decide (n > l.dwlMaxBytesPerSample)

/-- Rule "byte total exceeded" on one scope: `max_bytes_total` is set and
`n + accumulated_bytes_total > max_bytes_total`, the sum being that of the two numbers. -/
def totalExceeded (l : Limits) (n : Nat) : Bool :=
  decide (l.dwlMaxBytesTotal ≠ INFINITE) && decide (n + l.dwlAccumulatedBytesTotal > l.dwlMaxBytesTotal)

/-- The test that `SampleLimitStatus` makes for the byte total of one scope
(GetThis_Run.cpp:444-447 and 452-455): `max_bytes_total` is set and the `DWORDLONG` sum
`DataSize + dwlAccumulatedBytesTotal` is above it. -/
def totalExceeded64 (l : Limits) (n : Nat) : Bool :=
  decide (l.dwlMaxBytesTotal ≠ INFINITE) && decide (add64 n l.dwlAccumulatedBytesTotal > l.dwlMaxBytesTotal)

/-- The status of the first rule of the list whose condition holds, `otherwise` if none
does. -/
def firstRule : List (Bool × LimitStatus) → LimitStatus → LimitStatus
  | [], otherwise => otherwise
  | (condition, status) :: rest, otherwise =>
    if condition then status else firstRule rest otherwise

/-- The rules (1) to (6) of `classify(global, local, data_size)` in their fixed order. -/
def classifyRules (G L : Limits) (n : Nat) : List (Bool × LimitStatus) :=
  [ (G.bIgnoreLimits, .NoLimits),
    (countReached G, .GlobalSampleCountLimitReached),
    (countReached L, .LocalSampleCountLimitReached),
    (perSampleExceeded G n, .GlobalMaxBytesPerSample),
    (totalExceeded G n, .GlobalMaxBytesTotal),
    (perSampleExceeded L n, .LocalMaxBytesPerSample),
    (totalExceeded L n, .LocalMaxBytesTotal) ]

/-- The same list with the two byte-total tests as `SampleLimitStatus` makes them, on
`DWORDLONG` sums. -/
def classifyRules64 (G L : Limits) (n : Nat) : List (Bool × LimitStatus) :=
  [ (G.bIgnoreLimits, .NoLimits),
    (countReached G, .GlobalSampleCountLimitReached),
    (countReached L, .LocalSampleCountLimitReached),
    (perSampleExceeded G n, .GlobalMaxBytesPerSample),
    (totalExceeded64 G n, .GlobalMaxBytesTotal),
    (perSampleExceeded L n, .LocalMaxBytesPerSample),
    (totalExceeded64 L n, .LocalMaxBytesTotal) ]

/-! ## Concrete inputs used by the witnesses -/

/-- NTFS sizes (`USHORT`, `USHORT`, `ULONG`) and the white space of the "C" locale. -/
def ntfsPlatform : Platform :=
  { iswspace := fun c => c == ' ' || (9 ≤ c.toNat && c.toNat ≤ 13)
    sizeofSequenceNumber := 2
    sizeofSegmentNumberHighPart := 2
    sizeofSegmentNumberLowPart := 4 }

/-- The size a pipeline reports: that of the attribute stream it reads. -/
def sizeOfStream : ByteStream → Nat
  | .source _ size => size
  | .strings up _ _ => sizeOfStream up
  | .cryptoHash _ up => sizeOfStream up
  | .fuzzyHash _ up => sizeOfStream up
  | .csvStream => 0
  | .logStream => 0

/-- Collaborators that always succeed; a stream reports the size of its source. -/
def okEnv : Env :=
  { platform := ntfsPlatform
    GetSize := sizeOfStream
    OpenForStrings := fun _ _ _ => .S_OK
    CryptoOpenToRead := fun _ _ => .S_OK
    FuzzyOpenToRead := fun _ _ => .S_OK
    GetMatchFullName := fun name attr =>
      if attr.AttrName.isEmpty then name.FullPathName else name.FullPathName ++ [':'] ++ attr.AttrName
    ComputerName := "HOST".toList
    AddStream := fun _ _ _ => .S_OK
    FlushQueue := .S_OK
    Complete := .S_OK
    WriteTo := fun _ _ => .S_OK
    CopyTo := fun _ => .S_OK
    GetMD5 := fun _ => []
    GetSHA1 := fun _ => []
    GetSHA256 := fun _ => []
    GetSSDeep := fun _ => []
    GetTLSH := fun _ => []
    BytesWritten := sizeOfStream
    InitializeYara := .S_OK
    Find := .S_OK }

/-- A scope without any limit, nothing accumulated, no flag set. -/
def noLimits : Limits :=
  { dwlMaxBytesTotal := INFINITE, dwlMaxBytesPerSample := INFINITE, dwMaxSampleCount := INFINITE,
    dwlAccumulatedBytesTotal := 0, dwAccumulatedSampleCount := 0, bIgnoreLimits := false,
    bMaxBytesTotalReached := false, bMaxBytesPerSampleReached := false,
    bMaxSampleCountReached := false }

/-- Content `DATA`. -/
def dataContent : ContentSpec := { Type_ := .DATA, MinChars := 0, MaxChars := 0 }

/-- The `$FILE_NAME` of `foo.txt` in the directory `(SeqNo 0x0001, SegHi 0x0000, SegLo 0x000A)`. -/
def fooName : FILE_NAME :=
  { ParentDirectory := { SegmentNumberLowPart := 10, SegmentNumberHighPart := 0, SequenceNumber := 1 }
    Info := { CreationTime := 0, LastModificationTime := 0, LastAccessTime := 0, LastChangeTime := 0 }
    FileName := "foo.txt".toList }

/-- A first search term. -/
def term1 : SearchTerm := { id := 1, Description := "foo".toList }

/-- A `$DATA` attribute with the given instance id, size and name. -/
def mkAttr (inst size : Nat) (name : String) : AttributeMatch :=
  { Type_ := 128, AttrName := name.toList, InstanceID := inst, DataStream := .source (2 * inst) size,
    RawStream := .source (2 * inst + 1) size, YaraRules := none }

/-- A match of the first term on volume 1: file record `frn`, one hard link `\foo.txt`, the
given matching attributes. -/
def mkMatch (frn : Nat) (attrs : List AttributeMatch) : Match :=
  { Term := term1, VolumeReader := { VolumeSerialNumber := 1, SnapshotID := none }, FRN := frn,
    StandardInformation := { CreationTime := 0, LastModificationTime := 0, LastAccessTime := 0,
                             LastChangeTime := 0 },
    MatchingNames := [{ FILENAME := some fooName, FullPathName := "\\foo.txt".toList }],
    MatchingAttributes := attrs }

/-- The unnamed spec of the first term, with limits `l`. -/
def spec1 (l : Limits) : SampleSpec :=
  { Name := [], Content := dataContent, PerSampleLimits := l, Terms := [term1] }

/-- The state at the start of a run: global limits `g`, one spec with limits `l`, empty
registries, no hash algorithm. -/
def mkMain (g l : Limits) : Main :=
  { config := { listofSpecs := [spec1 l], content := dataContent, CryptoHashAlgs := 0,
                FuzzyHashAlgs := 0, bReportAll := false }
    GlobalLimits := g, Samples := [], SampleNames := [], CollectionDate := 0 }

/-- The sample that `AddSamplesForMatch` builds for attribute `sIndex` of a match under
`status` when it is named `name` and its pipeline is the bare stream `stream`. -/
def builtSample (status : LimitStatus) (aMatch : Match) (anAttr : AttributeMatch) (sIndex : Nat)
    (name : String) (stream : ByteStream) : SampleRef :=
  { newSampleRef status aMatch anAttr sIndex with
    Content := dataContent
    SampleName := name.toList
    CopyStream := some stream
    SampleSize := sizeOfStream stream }

/-- A match on `\foo.txt` (file record 42) with its unnamed 10-byte data stream. -/
def fooMatch : Match := mkMatch 42 [mkAttr 0 10 ""]

/-- A second search term. -/
def term2 : SearchTerm := { id := 2, Description := "bar".toList }

/-- The state after `fooMatch` was registered within limits, starting from nothing. -/
def fooRegistered : Main :=
  { mkMain noLimits noLimits with
    Samples := [builtSample .SampleWithinLimits fooMatch (mkAttr 0 10 "") 0
      "000100000000000A_foo.txt_data" (.source 0 10)]
    SampleNames := ["000100000000000A_foo.txt_data".toList] }

/-- The same file matched through the second term, with its unnamed stream only. -/
def fooAgain : Match := { fooMatch with Term := term2 }

/-- The same file matched through the second term, with its unnamed stream and a named
one (`ads`, 1000 bytes). -/
def fooWithAds : Match := { mkMatch 42 [mkAttr 0 10 "", mkAttr 1 1000 "ads"] with Term := term2 }

/-- The state after the first round of the attribute loop of `FindMatchingSamples` on
`fooMatch`, starting from nothing: the sample is registered and 10 bytes, 1 sample are
accounted for in both scopes. -/
def fooIngested : Main :=
  { mkMain (noLimits.account 10) (noLimits.account 10) with
    Samples := fooRegistered.Samples
    SampleNames := fooRegistered.SampleNames }

/-- A match on `\foo.txt` through the first term with two matching attributes: the
unnamed stream (10 bytes) and the named stream `ads` (1000 bytes). -/
def fooTwoStreams : Match := mkMatch 42 [mkAttr 0 10 "", mkAttr 1 1000 "ads"]

/-- Both samples of `fooTwoStreams` as the first round of the attribute loop registers
them. -/
def fooTwoStreamsSamples : List SampleRef :=
  [ builtSample .SampleWithinLimits fooTwoStreams (mkAttr 0 10 "") 0
      "000100000000000A_foo.txt_data" (.source 0 10),
    builtSample .SampleWithinLimits fooTwoStreams (mkAttr 1 1000 "ads") 1
      "000100000000000A__foo.txt_ads_data" (.source 2 1000) ]

/-- The spec quota of scenario 4: `max_bytes_total = 1000`. -/
def quota1000 : Limits := { noLimits with dwlMaxBytesTotal := 1000 }

/-- A match on file record `frn` with one unnamed data stream of 400 bytes. -/
def match400 (frn : Nat) : Match := mkMatch frn [mkAttr 0 400 ""]

/-- The sample registered for `match400 frn` under `status` with the given name. -/
def sample400 (status : LimitStatus) (frn : Nat) (name : String) : SampleRef :=
  builtSample status (match400 frn) (mkAttr 0 400 "") 0 name (.source 0 400)

/-- Scenario 4 after the first two 400-byte matches. -/
def afterTwo400 : Main :=
  { mkMain (noLimits.account 400 |>.account 400) (quota1000.account 400 |>.account 400) with
    Samples := [sample400 .SampleWithinLimits 1 "000100000000000A_foo.txt_data",
      sample400 .SampleWithinLimits 2 "000100000000000A__foo.txt_1_data"]
    SampleNames := ["000100000000000A_foo.txt_data".toList,
      "000100000000000A__foo.txt_1_data".toList] }

/-- Scenario 4 after the third 400-byte match. -/
def afterThree400 : Main :=
  { mkMain (noLimits.account 400 |>.account 400)
      { (quota1000.account 400 |>.account 400) with bMaxBytesTotalReached := true } with
    Samples := afterTwo400.Samples ++
      [sample400 .LocalMaxBytesTotal 3 "000100000000000A__foo.txt_2_data"]
    SampleNames := afterTwo400.SampleNames ++ ["000100000000000A__foo.txt_2_data".toList] }

/-- A spec with a name: its samples go to `docs\...`. -/
def docsSpec : SampleSpec :=
  { Name := "docs".toList, Content := dataContent, PerSampleLimits := noLimits, Terms := [term1] }

/-- A match on a file whose only hard link is named `a*b?.txt`. -/
def starMatch : Match :=
  { mkMatch 7 [mkAttr 0 10 ""] with
    MatchingNames := [{ FILENAME := some { fooName with FileName := "a*b?.txt".toList },
                        FullPathName := "\\a*b?.txt".toList }] }

/-- Collaborators that succeed, except that the archive fails to flush its queue. -/
def flushFailsEnv : Env := { okEnv with FlushQueue := .E_FAIL }

/-- The sample registered for `fooMatch` within limits. -/
def fooSample : SampleRef :=
  builtSample .SampleWithinLimits fooMatch (mkAttr 0 10 "") 0 "000100000000000A_foo.txt_data"
    (.source 0 10)

/-- The manifest line of `fooSample` for its hard link `\foo.txt` on the computer `HOST`. -/
def fooRow : Row :=
  [ .WriteString "HOST".toList, .WriteInteger 1, .WriteInteger 281474976710666,
    .WriteInteger 42, .WriteString "\\foo.txt".toList,
    .WriteString "000100000000000A_foo.txt_data".toList, .WriteFileSize 10, .WriteBytes [],
    .WriteBytes [], .WriteString "foo".toList, .WriteString "data".toList, .WriteFileTime 0,
    .WriteFileTime 0, .WriteFileTime 0, .WriteFileTime 0, .WriteFileTime 0, .WriteFileTime 0,
    .WriteFileTime 0, .WriteFileTime 0, .WriteFileTime 0, .WriteExactFlags 128,
    .WriteString [], .WriteInteger 0, .WriteGUID 0, .WriteBytes [], .WriteBytes [],
    .WriteBytes [], .WriteNothing ]

/-- A state with both kinds of hash taps selected (crypto algorithms `1`, fuzzy
algorithms `2`), no limit, empty registries. -/
def hashingMain : Main :=
  { mkMain noLimits noLimits with
    config := { (mkMain noLimits noLimits).config with CryptoHashAlgs := 1, FuzzyHashAlgs := 2 } }

/-- The sample of `fooMatch` once named, before its streams are configured. -/
def namedFoo : SampleRef :=
  { newSampleRef .SampleWithinLimits fooMatch (mkAttr 0 10 "") 0 with
    Content := dataContent
    SampleName := "000100000000000A_foo.txt_data".toList }

/-- `namedFoo` with the pipeline built under `hashingMain`. -/
def hashedFoo : SampleRef :=
  { namedFoo with
    CopyStream := some (.fuzzyHash 2 (.cryptoHash 1 (.source 0 10)))
    HashStream := some (.cryptoHash 1 (.source 0 10))
    FuzzyHashStream := some (.fuzzyHash 2 (.cryptoHash 1 (.source 0 10)))
    SampleSize := 10 }

/-- Collaborators that succeed, except that the crypto-hash tap cannot be opened. -/
def cryptoFailsEnv : Env := { okEnv with CryptoOpenToRead := fun _ _ => .E_FAIL }

/-- The sample of `fooMatch` as registered under `hashingMain` when the crypto-hash tap
cannot be opened: within limits, no `CopyStream`. -/
def brokenFoo : SampleRef :=
  { namedFoo with HashStream := some (.cryptoHash 1 (.source 0 10)) }

/-- Collaborators that succeed, except that the output file of the sample named
`000100000000000A_foo.txt_data` cannot be created. -/
def writeFailsEnv : Env :=
  { okEnv with
    WriteTo := fun _ SampleName =>
      if SampleName = "000100000000000A_foo.txt_data".toList then .E_FAIL else .S_OK }

/-- Collaborators that succeed, except that the archive refuses the stream named
`000100000000000A_foo.txt_data`. -/
def addFailsEnv : Env :=
  { okEnv with
    AddStream := fun szName _ _ =>
      if szName = "000100000000000A_foo.txt_data".toList then .E_FAIL else .S_OK }

/-- Output collaborators that always succeed; the manifest stream holds a header and the
lines written, the log stream is not empty. -/
def okOut : OutputEnv :=
  { MakeCreate := true, InitArchive := .S_OK, PasswordEmpty := true, SetPassword := .S_OK,
    SetCompressionLevel := .S_OK, LogStreamOpen := .S_OK, LogToStream := .S_OK,
    CsvStreamOpen := .S_OK, CsvWriteToStream := .S_OK, CsvSetSchema := .S_OK,
    create_directories := none, IsLoggingToFile := false, LogToFile := .S_OK,
    CsvWriteToFile := .S_OK, CsvStreamSize := fun rows => 100 + rows.length,
    LogStreamSize := 1 }

/-- Output collaborators that succeed, with a logger that has written nothing. -/
def quietOut : OutputEnv := { okOut with LogStreamSize := 0 }

/-- Output collaborators that succeed, with a manifest stream that is empty as long as no
line was written. -/
def bareCsvOut : OutputEnv := { okOut with CsvStreamSize := fun rows => rows.length }

/-- Collaborators that succeed, except that the archive cannot be completed. -/
def completeFailsEnv : Env := { okEnv with Complete := .E_ABORT }

/-- Scenario 4 with off-limits samples reported and the crypto algorithms `1` selected:
the state at the start of the run. -/
def reportAll400 : Main :=
  { mkMain noLimits quota1000 with
    config := { (mkMain noLimits quota1000).config with bReportAll := true, CryptoHashAlgs := 1 } }

/-- The state `FindMatchingSamples` leaves when it starts from `reportAll400` and the
finder delivers three 400-byte matches. -/
def reportAllThree400 : Main :=
  match ingestMatches okEnv [some (match400 1), some (match400 2), some (match400 3)]
      reportAll400 with
  | .ok m => m
  | .error _ => reportAll400

/-- A match on file record 42 through the first term: two hard links, `\foo.txt` and
`\bar.txt`, and the unnamed 10-byte data stream. -/
def linkedMatch : Match :=
  { fooMatch with
    MatchingNames := [{ FILENAME := some fooName, FullPathName := "\\foo.txt".toList },
                      { FILENAME := some { fooName with FileName := "bar.txt".toList },
                        FullPathName := "\\bar.txt".toList }] }

/-- The same file matched through the second term, reported with one hard link only. -/
def linkedAgain : Match := { fooMatch with Term := term2 }

/-- The state after `linkedMatch` was registered within limits, starting from nothing. -/
def linkedRegistered : Main :=
  match AddSamplesForMatch okEnv .SampleWithinLimits (spec1 noLimits) linkedMatch
      (mkMain noLimits noLimits) with
  | .ok (_, m) => m
  | .error _ => mkMain noLimits noLimits

/-- A match on file record `frn` with two hard links, `\foo.txt` with its `$FILE_NAME`
and `\old.txt` without one, and the unnamed 10-byte data stream. -/
def halfNamed (frn : Nat) : Match :=
  { mkMatch frn [mkAttr 0 10 ""] with
    MatchingNames := [{ FILENAME := some fooName, FullPathName := "\\foo.txt".toList },
                      { FILENAME := none, FullPathName := "\\old.txt".toList }] }

/-- A global quota of 15 bytes in total. -/
def total15 : Limits := { noLimits with dwlMaxBytesTotal := 15 }

/-- A match on file record `frn` with one unnamed data stream of `2^63` bytes. -/
def hugeMatch (frn : Nat) : Match := mkMatch frn [mkAttr 0 9223372036854775808 ""]

/-- A match on file record 1 with one unnamed data stream of 500 bytes. -/
def match500 : Match := mkMatch 1 [mkAttr 0 500 ""]

/-- A match on file record 2 with one unnamed data stream whose size is `2^64 - 400`. -/
def wrapMatch : Match := mkMatch 2 [mkAttr 0 18446744073709551216 ""]

/-- A match on `\foo.txt` whose unnamed data stream matched the YARA rules `rule1` and
`rule2`. -/
def yaraMatch : Match :=
  mkMatch 42 [{ mkAttr 0 10 "" with YaraRules := some ["rule1".toList, "rule2".toList] }]

/-- Content `STRINGS` with the bounds left to the configuration. -/
def stringsContent : ContentSpec := { Type_ := .STRINGS, MinChars := 0, MaxChars := 0 }

/-- The state at the start of a run whose only spec asks for the strings of the first
term, without limits. -/
def stringsMain : Main :=
  { mkMain noLimits noLimits with
    config := { (mkMain noLimits noLimits).config with
      listofSpecs := [{ spec1 noLimits with Content := stringsContent }] } }

/-- Collaborators that succeed; a strings reader reports the size of the stream it reads
and produces 3 bytes when it is copied. -/
def stringsEnv : Env :=
  { okEnv with
    BytesWritten := fun stream =>
      match stream with
      | .strings _ _ _ => 3
      | other => sizeOfStream other }

/-- The state at the start of a run with two specs: the unnamed spec of the first term,
then the spec `docs`, which holds both terms; no limits. -/
def twoSpecsMain : Main :=
  { mkMain noLimits noLimits with
    config := { (mkMain noLimits noLimits).config with
      listofSpecs := [spec1 noLimits, { docsSpec with Terms := [term1, term2] }] } }

/-- Collaborators that succeed, except that no pipeline can be copied. -/
def copyFailsEnv : Env := { okEnv with CopyTo := fun _ => .E_FAIL }

/-- The state `FindMatchingSamples` leaves when it starts from `reportAll400` and the
finder delivers four 400-byte matches: two samples within limits, two off-limits. -/
def reportAllFour400 : Main :=
  match ingestMatches okEnv [some (match400 1), some (match400 2), some (match400 3),
      some (match400 4)] reportAll400 with
  | .ok m => m
  | .error _ => reportAll400

/-- A match on file record 42 with two hard links, neither of which has a `$FILE_NAME`,
and the unnamed 10-byte data stream. -/
def unnamedLinks : Match :=
  { fooMatch with
    MatchingNames := [{ FILENAME := none, FullPathName := "\\foo.txt".toList },
                      { FILENAME := none, FullPathName := "\\bar.txt".toList }] }

/-- Collaborators that succeed, except that the YARA scanner cannot be initialised and
that `Find` returns a failure after its callbacks. -/
def finderFailsEnv : Env := { okEnv with InitializeYara := .E_FAIL, Find := .E_ABORT }

/-- A scope with a quota of 1000 bytes in total, of which 500 are used. -/
def quotaHalfUsed : Limits :=
  { noLimits with dwlMaxBytesTotal := 1000, dwlAccumulatedBytesTotal := 500 }

/-- A match on file record 1 with one unnamed data stream of `2^64 - 1` bytes. -/
def maxSizeMatch : Match := mkMatch 1 [mkAttr 0 18446744073709551615 ""]

/-- A match on file record 2 with one unnamed data stream of 2 bytes. -/
def twoByteMatch : Match := mkMatch 2 [mkAttr 0 2 ""]

/-- A match on file record 1 with one unnamed data stream of 800 bytes. -/
def match800 : Match := mkMatch 1 [mkAttr 0 800 ""]

/-- A match on file record 2 with one unnamed data stream whose size is `2^64 - 700`. -/
def overMatch : Match := mkMatch 2 [mkAttr 0 18446744073709550916 ""]

/-! ## Theorems -/

/-- `SampleLimitStatus` written with the named rule conditions. -/
theorem SampleLimitStatus_eq_rules (G L : Limits) (n : Nat) :
    SampleLimitStatus G L n = firstRule (classifyRules64 G L n) .SampleWithinLimits := by
  simp only [SampleLimitStatus, classifyRules64, firstRule, countReached, perSampleExceeded,
    totalExceeded64, Bool.and_eq_true, decide_eq_true_eq]

/-- The status is `SampleWithinLimits` exactly when no rule fires. -/
theorem SampleLimitStatus_within_iff (G L : Limits) (n : Nat) :
    SampleLimitStatus G L n = .SampleWithinLimits ↔
      G.bIgnoreLimits = false ∧ countReached G = false ∧ countReached L = false
      ∧ perSampleExceeded G n = false ∧ totalExceeded64 G n = false
      ∧ perSampleExceeded L n = false ∧ totalExceeded64 L n = false := by
  rw [SampleLimitStatus_eq_rules]
  simp only [classifyRules64, firstRule]
  cases G.bIgnoreLimits <;> cases countReached G <;> cases countReached L
    <;> cases perSampleExceeded G n <;> cases totalExceeded64 G n
    <;> cases perSampleExceeded L n <;> cases totalExceeded64 L n <;> simp

/-- The byte-total rule on the exact sum, as long as the sum fits in 64 bits. -/
theorem totalExceeded_exact (l : Limits) (n : Nat)
    (h : n + l.dwlAccumulatedBytesTotal < 18446744073709551616) :
    totalExceeded64 l n = true ↔
      l.dwlMaxBytesTotal ≠ INFINITE ∧ n + l.dwlAccumulatedBytesTotal > l.dwlMaxBytesTotal := by
  simp only [totalExceeded64, Bool.and_eq_true, decide_eq_true_eq, add64, Nat.mod_eq_of_lt h]

/-- The rules as the code tests them: `SampleLimitStatus G L n` is the status of the first
rule that fires, the rules being taken in the fixed order (1) ignore_limits, (2) global count, (3) local count,
(4) global per-sample size, (5) global byte total, (6) local per-sample size then local
byte total, (7) otherwise `SampleWithinLimits`; in particular the result is
`SampleWithinLimits` exactly when `ignore_limits` is false and none of the six limit
conditions holds.  The sum of a byte-total rule is the 64-bit sum the code computes; it
is the exact sum `n + accumulated_bytes_total` whenever that sum fits in 64 bits. -/
theorem SampleLimitStatus_is_first_rule (G L : Limits) (n : Nat) :
    SampleLimitStatus G L n = firstRule (classifyRules64 G L n) .SampleWithinLimits
    ∧ (SampleLimitStatus G L n = .SampleWithinLimits ↔
        G.bIgnoreLimits = false ∧ countReached G = false ∧ countReached L = false
        ∧ perSampleExceeded G n = false ∧ totalExceeded64 G n = false
        ∧ perSampleExceeded L n = false ∧ totalExceeded64 L n = false)
    ∧ (∀ l : Limits, n + l.dwlAccumulatedBytesTotal < 18446744073709551616 →
        (totalExceeded64 l n = true ↔
          l.dwlMaxBytesTotal ≠ INFINITE
            ∧ n + l.dwlAccumulatedBytesTotal > l.dwlMaxBytesTotal)) := by
  exact ⟨SampleLimitStatus_eq_rules G L n, SampleLimitStatus_within_iff G L n,
    fun l h => totalExceeded_exact l n h⟩

/-! ### What the construction of a sample leaves alone -/

theorem SampleRef.sameIdentity_refl (a : SampleRef) : a.sameIdentity a :=
  ⟨rfl, rfl, rfl, rfl, rfl, rfl, rfl⟩

theorem SampleRef.sameIdentity_trans {a b c : SampleRef} (h1 : a.sameIdentity b)
    (h2 : b.sameIdentity c) : a.sameIdentity c := by
  obtain ⟨p1, p2, p3, p4, p5, p6, p7⟩ := h1
  obtain ⟨q1, q2, q3, q4, q5, q6, q7⟩ := h2
  exact ⟨q1.trans p1, q2.trans p2, q3.trans p3, q4.trans p4, q5.trans p5, q6.trans p6,
    q7.trans p7⟩

theorem cryptoLayer_frame (env : Env) (config : Configuration) (st : ByteStream) (s : SampleRef) :
    (∀ r, cryptoLayer env config st s = .error r → s.sameIdentity r.2 ∧ r.2.SampleName = s.SampleName) ∧
    (∀ r, cryptoLayer env config st s = .ok r → s.sameIdentity r.2 ∧ r.2.SampleName = s.SampleName) := by
  constructor <;> intro r h <;> simp only [cryptoLayer] at h <;> split_ifs at h <;> cases h <;>
    exact ⟨⟨rfl, rfl, rfl, rfl, rfl, rfl, rfl⟩, rfl⟩

theorem fuzzyLayer_frame (env : Env) (config : Configuration) (st : ByteStream) (s : SampleRef) :
    (∀ r, fuzzyLayer env config st s = .error r → s.sameIdentity r.2 ∧ r.2.SampleName = s.SampleName) ∧
    (∀ r, fuzzyLayer env config st s = .ok r → s.sameIdentity r.2 ∧ r.2.SampleName = s.SampleName) := by
  constructor <;> intro r h <;> simp only [fuzzyLayer] at h <;> split_ifs at h <;> cases h <;>
    exact ⟨⟨rfl, rfl, rfl, rfl, rfl, rfl, rfl⟩, rfl⟩

/-- `ConfigureSampleStreams` changes neither the identity nor the name of the sample. -/
theorem ConfigureSampleStreams_frame (env : Env) (config : Configuration) (s s1 : SampleRef)
    (hr : HRESULT) (h : ConfigureSampleStreams env config s = .ok (hr, s1)) :
    s.sameIdentity s1 ∧ s1.SampleName = s.SampleName := by
  unfold ConfigureSampleStreams at h
  split at h
  · cases h
  split at h
  · cases h
  split at h
  · cases h; exact ⟨s.sameIdentity_refl, rfl⟩
  split at h
  · cases h; exact ⟨s.sameIdentity_refl, rfl⟩
  rename_i stream hs
  split at h
  · rename_i r hc
    cases h
    exact (cryptoLayer_frame env config stream s).1 _ hc
  rename_i up s2 hc
  have h2 := (cryptoLayer_frame env config stream s).2 _ hc
  split at h
  · rename_i r hf
    cases h
    have h3 := (fuzzyLayer_frame env config up s2).1 _ hf
    exact ⟨SampleRef.sameIdentity_trans h2.1 h3.1, h3.2.trans h2.2⟩
  rename_i up2 s3 hf
  have h3 := (fuzzyLayer_frame env config up s2).2 _ hf
  cases h
  have h4 := SampleRef.sameIdentity_trans h2.1 h3.1
  exact ⟨h4, h3.2.trans h2.2⟩

/-- `insertName` extends the Name Registry at its end. -/
theorem insertName_append (N : List WString) (name : WString) :
    ∃ added, insertName N name = N ++ added := by
  unfold insertName
  split
  · exact ⟨[], by simp⟩
  · exact ⟨[name], rfl⟩

/-- The naming loop keeps the identity of the sample and only extends the Name Registry. -/
theorem nameSample_frame (env : Env) (aSpec : SampleSpec) (anAttr : AttributeMatch) (cd : Nat)
    (names : List NameMatch) :
    ∀ (s : SampleRef) (N : List WString) (s1 : SampleRef) (N1 : List WString),
      nameSample env aSpec anAttr cd names s N = .ok (s1, N1) →
      s.sameIdentity s1 ∧ ∃ added, N1 = N ++ added := by
  induction names with
  | nil =>
    intro s N s1 N1 h
    simp only [nameSample] at h
    cases h
    exact ⟨s.sameIdentity_refl, [], by simp⟩
  | cons name rest ih =>
    intro s N s1 N1 h
    simp only [nameSample] at h
    split at h
    · cases h
    rename_i cab hc
    obtain ⟨h1, added, h2⟩ := ih _ _ _ _ h
    obtain ⟨added0, h0⟩ := insertName_append N cab
    refine ⟨?_, added0 ++ added, ?_⟩
    · exact SampleRef.sameIdentity_trans ⟨rfl, rfl, rfl, rfl, rfl, rfl, rfl⟩ h1
    · rw [h2, h0, List.append_assoc]

/-- What the attribute loop of `AddSamplesForMatch` does to the state: limits and
configuration are untouched, both registries are extended at their end, and every
sample it appends was built from `aMatch` under `status`, with a key that was absent. -/
theorem addSamplesLoop_spec (env : Env) (status : LimitStatus) (aSpec : SampleSpec)
    (aMatch : Match) (attrs : List AttributeMatch) :
    ∀ (i : Nat) (hr0 : HRESULT) (m : Main) (hr : HRESULT) (m1 : Main),
      addSamplesLoop env status aSpec aMatch attrs i hr0 m = .ok (hr, m1) →
      m1.config = m.config ∧ m1.GlobalLimits = m.GlobalLimits
      ∧ m1.CollectionDate = m.CollectionDate
      ∧ (∃ names, m1.SampleNames = m.SampleNames ++ names)
      ∧ ∃ built, m1.Samples = m.Samples ++ built
          ∧ ∀ s ∈ built, s.OffLimits = OffLimitsOf status ∧ s.Matches = [aMatch]
              ∧ s.VolumeSerial = aMatch.VolumeReader.VolumeSerialNumber ∧ s.FRN = aMatch.FRN
              ∧ ∃ a ∈ attrs, s.InstanceID = a.InstanceID := by
  induction attrs with
  | nil =>
    intro i hr0 m hr m1 h
    simp only [addSamplesLoop] at h
    cases h
    exact ⟨rfl, rfl, rfl, ⟨[], by simp⟩, [], by simp, by simp⟩
  | cons anAttr rest ih =>
    intro i hr0 m hr m1 h
    simp only [addSamplesLoop] at h
    split at h
    · obtain ⟨c1, c2, c3, c4, built, c5, c6⟩ := ih _ _ _ _ _ h
      refine ⟨c1, c2, c3, c4, built, c5, ?_⟩
      intro s hs
      obtain ⟨d1, d2, d3, d4, a, ha, d5⟩ := c6 s hs
      exact ⟨d1, d2, d3, d4, a, List.mem_cons_of_mem _ ha, d5⟩
    · split at h
      · cases h
      rename_i named N hn
      split at h
      · cases h
      rename_i hr1 configured hcfg
      obtain ⟨c1, c2, c3, ⟨names, c4⟩, built, c5, c6⟩ := ih _ _ _ _ _ h
      obtain ⟨n1, addedN, n2⟩ := nameSample_frame env aSpec anAttr _ _ _ _ _ _ hn
      obtain ⟨f1, -⟩ := ConfigureSampleStreams_frame env _ _ _ _ hcfg
      have hid := SampleRef.sameIdentity_trans n1 f1
      refine ⟨c1, c2, c3, ⟨addedN ++ names, ?_⟩, configured :: built, ?_, ?_⟩
      · rw [c4]; simp only [n2, List.append_assoc]
      · rw [c5]; simp
      · intro s hs
        rcases List.mem_cons.1 hs with rfl | hs
        · obtain ⟨e1, e2, e3, e4, -, e6, -⟩ := hid
          refine ⟨e6, e1, e2, e3, anAttr, List.mem_cons_self _ _, e4⟩
        · obtain ⟨d1, d2, d3, d4, a, ha, d5⟩ := c6 s hs
          exact ⟨d1, d2, d3, d4, a, List.mem_cons_of_mem _ ha, d5⟩

/-- `AddSamplesForMatch` in terms of its attribute loop. -/
theorem AddSamplesForMatch_ok (env : Env) (status : LimitStatus) (aSpec : SampleSpec)
    (aMatch : Match) (m : Main) (hr : HRESULT) (m1 : Main)
    (h : AddSamplesForMatch env status aSpec aMatch m = .ok (hr, m1)) :
    ∃ hr0, addSamplesLoop env status aSpec aMatch aMatch.MatchingAttributes 0 .E_FAIL m
        = .ok (hr0, m1) ∧ (hr = .S_FALSE ↔ hr0 = .S_FALSE) ∧ (hr = .S_FALSE ∨ hr = .S_OK) := by
  unfold AddSamplesForMatch at h
  split at h
  · cases h
  rename_i hr0 m2 hl
  split at h
  · rename_i hs
    cases h
    exact ⟨_, hl, Iff.rfl, Or.inl hs⟩
  · rename_i hs
    cases h
    exact ⟨_, hl, by simp [hs], Or.inr rfl⟩

/-- C2. Every sample that `AddSamplesForMatch` builds (appends to the registry) under a
status `s` has `OffLimits = false` if and only if `s` is `NoLimits` or
`SampleWithinLimits`; every other status, `FailedToComputeLimits` included, gives
`OffLimits = true`. -/
theorem AddSamplesForMatch_OffLimits_iff (env : Env) (status : LimitStatus) (aSpec : SampleSpec)
    (aMatch : Match) (m : Main) (hr : HRESULT) (m1 : Main)
    (h : AddSamplesForMatch env status aSpec aMatch m = .ok (hr, m1)) :
    ∃ built, m1.Samples = m.Samples ++ built
      ∧ ∀ s ∈ built,
          (s.OffLimits = false ↔ status = .NoLimits ∨ status = .SampleWithinLimits)
          ∧ (s.OffLimits = true ↔ status ≠ .NoLimits ∧ status ≠ .SampleWithinLimits) := by
  obtain ⟨hr0, hl, -, -⟩ := AddSamplesForMatch_ok env status aSpec aMatch m hr m1 h
  obtain ⟨-, -, -, -, built, hb, hall⟩ := addSamplesLoop_spec env status aSpec aMatch _ _ _ _ _ _ hl
  refine ⟨built, hb, ?_⟩
  intro s hs
  obtain ⟨ho, -⟩ := hall s hs
  rw [ho]
  cases status <;> simp [OffLimitsOf]

/-- Under `FailedToComputeLimits` the sample built for `fooMatch` is off-limits. -/
theorem AddSamplesForMatch_OffLimits_iff_witness :
    AddSamplesForMatch okEnv .FailedToComputeLimits (spec1 noLimits) fooMatch
        (mkMain noLimits noLimits)
      = .ok (.S_OK, { mkMain noLimits noLimits with
          Samples := [builtSample .FailedToComputeLimits fooMatch (mkAttr 0 10 "") 0
            "000100000000000A_foo.txt_data" (.source 0 10)]
          SampleNames := ["000100000000000A_foo.txt_data".toList] })
    ∧ ∃ built, [builtSample .FailedToComputeLimits fooMatch (mkAttr 0 10 "") 0
            "000100000000000A_foo.txt_data" (.source 0 10)] = [] ++ built
      ∧ ∀ s ∈ built,
          (s.OffLimits = false ↔
            LimitStatus.FailedToComputeLimits = .NoLimits
              ∨ LimitStatus.FailedToComputeLimits = .SampleWithinLimits)
          ∧ (s.OffLimits = true ↔
            LimitStatus.FailedToComputeLimits ≠ .NoLimits
              ∧ LimitStatus.FailedToComputeLimits ≠ .SampleWithinLimits) :=
  ⟨by rfl, AddSamplesForMatch_OffLimits_iff okEnv .FailedToComputeLimits (spec1 noLimits) fooMatch
    (mkMain noLimits noLimits) .S_OK _ (by rfl)⟩

/-! ### The Sample Registry holds one entry per key -/

theorem sameKey_newSampleRef (s : SampleRef) (status : LimitStatus) (aMatch : Match)
    (a : AttributeMatch) (i : Nat) :
    s.sameKey (newSampleRef status aMatch a i) = true ↔
      s.VolumeSerial = aMatch.VolumeReader.VolumeSerialNumber ∧ s.FRN = aMatch.FRN
        ∧ s.InstanceID = a.InstanceID := by
  simp [SampleRef.sameKey, newSampleRef, and_assoc]

theorem sameKey_of_sameIdentity {a b : SampleRef} (s : SampleRef) (h : a.sameIdentity b) :
    s.sameKey b = s.sameKey a := by
  obtain ⟨-, h2, h3, h4, -, -, -⟩ := h
  simp [SampleRef.sameKey, h2, h3, h4]

/-- When every attribute of the match is registered, the attribute loop changes nothing
and ends on `S_FALSE` (on the `hr` it was given if there is no attribute at all). -/
theorem addSamplesLoop_all_registered (env : Env) (status : LimitStatus) (aSpec : SampleSpec)
    (aMatch : Match) (attrs : List AttributeMatch) :
    ∀ (i : Nat) (hr0 : HRESULT) (m : Main), (∀ a ∈ attrs, registered m.Samples aMatch a) →
      addSamplesLoop env status aSpec aMatch attrs i hr0 m
        = .ok (if attrs = [] then hr0 else .S_FALSE, m) := by
  induction attrs with
  | nil => intro i hr0 m _; simp [addSamplesLoop]
  | cons a rest ih =>
    intro i hr0 m hreg
    simp only [addSamplesLoop]
    obtain ⟨s, hs, hk⟩ := hreg a (List.mem_cons_self _ _)
    have hsome : (m.Samples.find? (fun s => s.sameKey (newSampleRef status aMatch a i))).isSome := by
      rw [List.find?_isSome]
      exact ⟨s, hs, (sameKey_newSampleRef s status aMatch a i).2 hk⟩
    split
    · rw [ih (i + 1) .S_FALSE m (fun b hb => hreg b (List.mem_cons_of_mem _ hb))]
      by_cases hrest : rest = [] <;> simp [hrest]
    · rename_i hnone
      rw [hnone] at hsome
      cases hsome

/-- The attribute loop keeps the keys of the registry distinct and leaves every
attribute of the match registered. -/
theorem addSamplesLoop_unique (env : Env) (status : LimitStatus) (aSpec : SampleSpec)
    (aMatch : Match) (attrs : List AttributeMatch) :
    ∀ (i : Nat) (hr0 : HRESULT) (m : Main) (hr : HRESULT) (m1 : Main),
      addSamplesLoop env status aSpec aMatch attrs i hr0 m = .ok (hr, m1) →
      uniqueKeys m.Samples →
      uniqueKeys m1.Samples ∧ ∀ a ∈ attrs, registered m1.Samples aMatch a := by
  induction attrs with
  | nil =>
    intro i hr0 m hr m1 h hu
    simp only [addSamplesLoop] at h
    cases h
    exact ⟨hu, by simp⟩
  | cons anAttr rest ih =>
    intro i hr0 m hr m1 h hu
    have hgrow := addSamplesLoop_spec env status aSpec aMatch (anAttr :: rest) i hr0 m hr m1 h
    simp only [addSamplesLoop] at h
    split at h
    · rename_i found hfound
      obtain ⟨u1, u2⟩ := ih _ _ _ _ _ h hu
      refine ⟨u1, ?_⟩
      intro a ha
      rcases List.mem_cons.1 ha with rfl | ha
      · have hmem := List.mem_of_find?_eq_some hfound
        have hkey := List.find?_some hfound
        obtain ⟨-, -, -, -, built, hb, -⟩ :=
          addSamplesLoop_spec env status aSpec aMatch rest _ _ _ _ _ h
        refine ⟨found, ?_, (sameKey_newSampleRef found status aMatch a i).1 hkey⟩
        rw [hb]
        exact List.mem_append_left _ hmem
      · exact u2 a ha
    · rename_i hnone
      split at h
      · cases h
      rename_i named N hn
      split at h
      · cases h
      rename_i hr1 configured hcfg
      obtain ⟨n1, -⟩ := nameSample_frame env aSpec anAttr _ _ _ _ _ _ hn
      obtain ⟨f1, -⟩ := ConfigureSampleStreams_frame env _ _ _ _ hcfg
      have hid := SampleRef.sameIdentity_trans n1 f1
      have hu1 : uniqueKeys (m.Samples ++ [configured]) := by
        unfold uniqueKeys
        rw [List.pairwise_append]
        refine ⟨hu, List.pairwise_singleton _ _, ?_⟩
        intro s hs b hb
        rw [List.mem_singleton] at hb
        subst hb
        rw [sameKey_of_sameIdentity s hid]
        have := List.find?_eq_none.1 hnone s hs
        simpa using this
      obtain ⟨u1, u2⟩ := ih _ _ _ _ _ h hu1
      refine ⟨u1, ?_⟩
      intro a ha
      rcases List.mem_cons.1 ha with rfl | ha
      · obtain ⟨-, -, -, -, built, hb, -⟩ :=
          addSamplesLoop_spec env status aSpec aMatch rest _ _ _ _ _ h
        obtain ⟨-, e2, e3, e4, -, -, -⟩ := hid
        refine ⟨configured, ?_, ?_⟩
        · rw [hb]
          simp
        · simpa [newSampleRef] using ⟨e2, e3, e4⟩
      · exact u2 a ha


/-- C3 (amended). The Sample Registry never holds two entries with the same key, and an
entry once registered is never changed: every call of `AddSamplesForMatch` only appends
entries.  For two matches `a` and `b` such that every attribute key of `b` is an
attribute key of `a` (same volume serial, same FRN, instance ids among those of `a`; in
particular two matches with the same single attribute), after `a` was ingested the call
for `b` returns `S_FALSE` and leaves the whole state unchanged: Sample Registry (entries,
their Match reference, SampleName and OffLimits) and Name Registry. -/
theorem AddSamplesForMatch_duplicate (env : Env) (st1 st2 : LimitStatus) (sp1 sp2 : SampleSpec)
    (a b : Match) (m0 m1 : Main) (hr1 : HRESULT)
    (hu : uniqueKeys m0.Samples)
    (h1 : AddSamplesForMatch env st1 sp1 a m0 = .ok (hr1, m1))
    (hne : b.MatchingAttributes ≠ [])
    (hvol : b.VolumeReader.VolumeSerialNumber = a.VolumeReader.VolumeSerialNumber)
    (hfrn : b.FRN = a.FRN)
    (hinst : ∀ x ∈ b.MatchingAttributes, ∃ y ∈ a.MatchingAttributes, x.InstanceID = y.InstanceID) :
    uniqueKeys m1.Samples
    ∧ (∃ built, m1.Samples = m0.Samples ++ built)
    ∧ AddSamplesForMatch env st2 sp2 b m1 = .ok (.S_FALSE, m1)
    ∧ ∀ (st : LimitStatus) (sp : SampleSpec) (c : Match) (hr : HRESULT) (m2 : Main),
        AddSamplesForMatch env st sp c m1 = .ok (hr, m2) →
        uniqueKeys m2.Samples ∧ ∃ built, m2.Samples = m1.Samples ++ built := by
  obtain ⟨hr0, hl, -, -⟩ := AddSamplesForMatch_ok env st1 sp1 a m0 hr1 m1 h1
  obtain ⟨u1, hreg⟩ := addSamplesLoop_unique env st1 sp1 a _ _ _ _ _ _ hl hu
  obtain ⟨-, -, -, -, built, hb, -⟩ := addSamplesLoop_spec env st1 sp1 a _ _ _ _ _ _ hl
  refine ⟨u1, ⟨built, hb⟩, ?_, ?_⟩
  · have hall : ∀ x ∈ b.MatchingAttributes, registered m1.Samples b x := by
      intro x hx
      obtain ⟨y, hy, hxy⟩ := hinst x hx
      obtain ⟨s, hs, k1, k2, k3⟩ := hreg y hy
      exact ⟨s, hs, by rw [k1, hvol], by rw [k2, hfrn], by rw [k3, hxy]⟩
    unfold AddSamplesForMatch
    rw [addSamplesLoop_all_registered env st2 sp2 b _ 0 .E_FAIL m1 hall]
    simp [hne]
  · intro st sp c hr m2 h2
    obtain ⟨hr2, hl2, -, -⟩ := AddSamplesForMatch_ok env st sp c m1 hr m2 h2
    obtain ⟨u2, -⟩ := addSamplesLoop_unique env st sp c _ _ _ _ _ _ hl2 u1
    obtain ⟨-, -, -, -, built2, hb2, -⟩ := addSamplesLoop_spec env st sp c _ _ _ _ _ _ hl2
    exact ⟨u2, built2, hb2⟩

/-- `\foo.txt` matched through the first term, then again through the second term: the
second call returns `S_FALSE` and changes nothing. -/
theorem AddSamplesForMatch_duplicate_witness :
    AddSamplesForMatch okEnv .SampleWithinLimits (spec1 noLimits) fooMatch
        (mkMain noLimits noLimits) = .ok (.S_OK, fooRegistered)
    ∧ uniqueKeys fooRegistered.Samples
    ∧ (∃ built, fooRegistered.Samples = (mkMain noLimits noLimits).Samples ++ built)
    ∧ AddSamplesForMatch okEnv .GlobalMaxBytesTotal (spec1 noLimits) fooAgain fooRegistered
        = .ok (.S_FALSE, fooRegistered)
    ∧ ∀ (st : LimitStatus) (sp : SampleSpec) (c : Match) (hr : HRESULT) (m2 : Main),
        AddSamplesForMatch okEnv st sp c fooRegistered = .ok (hr, m2) →
        uniqueKeys m2.Samples ∧ ∃ built, m2.Samples = fooRegistered.Samples ++ built :=
  ⟨by rfl, AddSamplesForMatch_duplicate okEnv .SampleWithinLimits .GlobalMaxBytesTotal
    (spec1 noLimits) (spec1 noLimits) fooMatch fooAgain (mkMain noLimits noLimits) fooRegistered
    .S_OK List.Pairwise.nil (by rfl) (by decide) (by rfl) (by rfl) (by decide)⟩

/-- C3 as stated fails: `fooMatch` and `fooWithAds` are two different matches that carry
the same key (volume 1, file record 42, instance 0); after `fooMatch` was ingested the
call for `fooWithAds` returns `S_OK`, not `S_FALSE`, and adds a name to the Name Registry
(its second attribute is new, and the value returned is the one left by the last
attribute). -/
theorem AddSamplesForMatch_duplicate_counterexample :
    AddSamplesForMatch okEnv .SampleWithinLimits (spec1 noLimits) fooMatch
        (mkMain noLimits noLimits) = .ok (.S_OK, fooRegistered)
    ∧ fooWithAds ≠ fooMatch
    ∧ registered fooRegistered.Samples fooWithAds (mkAttr 0 10 "")
    ∧ mkAttr 0 10 "" ∈ fooWithAds.MatchingAttributes
    ∧ AddSamplesForMatch okEnv .SampleWithinLimits (spec1 noLimits) fooWithAds fooRegistered
        = .ok (.S_OK, { fooRegistered with
            Samples := fooRegistered.Samples ++
              [builtSample .SampleWithinLimits fooWithAds (mkAttr 1 1000 "ads") 1
                "000100000000000A__foo.txt_ads_data" (.source 2 1000)]
            SampleNames := fooRegistered.SampleNames ++
              ["000100000000000A__foo.txt_ads_data".toList] }) := by
  refine ⟨by rfl, by decide, ?_, by decide, by rfl⟩
  exact ⟨_, List.mem_cons_self _ _, rfl, rfl, rfl⟩

/-! ### One round of the attribute loop of `FindMatchingSamples` -/

theorem setSpecLimits_same (specs : List SampleSpec) (i : Nat) (l : Limits) (aSpec : SampleSpec)
    (h : specs[i]? = some aSpec) :
    (setSpecLimits specs i l)[i]? = some { aSpec with PerSampleLimits := l } := by
  have hi : i < specs.length := by
    rcases Nat.lt_or_ge i specs.length with hlt | hge
    · exact hlt
    · rw [List.getElem?_eq_none hge] at h; cases h
  simp [setSpecLimits, h, List.getElem?_set, hi]

theorem setSpecLimits_other (specs : List SampleSpec) (i j : Nat) (l : Limits) (h : j ≠ i) :
    (setSpecLimits specs i l)[j]? = specs[j]? := by
  unfold setSpecLimits
  split
  · rfl
  · simp [List.getElem?_set, Ne.symm h]

/-- `AddSamplesForMatch` touches neither the limits nor the configuration. -/
theorem AddSamplesForMatch_frame (env : Env) (status : LimitStatus) (aSpec : SampleSpec)
    (aMatch : Match) (m : Main) (hr : HRESULT) (m1 : Main)
    (h : AddSamplesForMatch env status aSpec aMatch m = .ok (hr, m1)) :
    m1.config = m.config ∧ m1.GlobalLimits = m.GlobalLimits := by
  obtain ⟨hr0, hl, -, -⟩ := AddSamplesForMatch_ok env status aSpec aMatch m hr m1 h
  obtain ⟨c1, c2, -⟩ := addSamplesLoop_spec env status aSpec aMatch _ _ _ _ _ _ hl
  exact ⟨c1, c2⟩

/-- One round of the attribute loop, unfolded: the status is the classification of the
data size of the attribute, `hr` is what `AddSamplesForMatch` returned, and both limits
are the ones `applyStatus` gives. -/
theorem ingestAttribute_ok (env : Env) (aMatch : Match) (specIdx : Nat) (attr : AttributeMatch)
    (m : Main) (status : LimitStatus) (hr : HRESULT) (m1 : Main)
    (h : ingestAttribute env aMatch specIdx attr m = .ok (status, hr, m1)) :
    ∃ aSpec m0,
      m.config.listofSpecs[specIdx]? = some aSpec
      ∧ status = SampleLimitStatus m.GlobalLimits aSpec.PerSampleLimits (env.GetSize attr.DataStream)
      ∧ AddSamplesForMatch env status aSpec aMatch m = .ok (hr, m0)
      ∧ m1.Samples = m0.Samples ∧ m1.SampleNames = m0.SampleNames
      ∧ m1.GlobalLimits = (applyStatus status hr (env.GetSize attr.DataStream) m.GlobalLimits
          aSpec.PerSampleLimits).1
      ∧ m1.config.listofSpecs = setSpecLimits m.config.listofSpecs specIdx
          (applyStatus status hr (env.GetSize attr.DataStream) m.GlobalLimits
            aSpec.PerSampleLimits).2 := by
  unfold ingestAttribute at h
  split at h
  · cases h
  rename_i aSpec hs
  simp only at h
  split at h
  · cases h
  rename_i hr0 m0 ha
  obtain ⟨c1, c2⟩ := AddSamplesForMatch_frame env _ aSpec aMatch m hr0 m0 ha
  simp only [Except.ok.injEq, Prod.mk.injEq] at h
  obtain ⟨rfl, rfl, rfl⟩ := h
  exact ⟨aSpec, m0, hs, rfl, ha, rfl, rfl, by simp [c2], by simp [c1, c2]⟩

theorem add32_one_ne (c : Nat) : add32 c 1 ≠ c := by
  unfold add32
  omega

/-- The accumulators at machine width: in a round of the attribute loop of `FindMatchingSamples` with status `s` and data
size `n`, the four accumulators change if and only if `s` is `NoLimits` or
`SampleWithinLimits` and `AddSamplesForMatch` did not return `S_FALSE`; when they change,
both byte totals grow by `n` and both counts by `1` (at the width of the machine
integers, which is exactly `n` and `1` as long as the sums fit); otherwise, so under
every "reached" status and under `FailedToComputeLimits`, all four are unchanged. -/
theorem ingestAttribute_accumulators (env : Env) (aMatch : Match) (specIdx : Nat)
    (attr : AttributeMatch) (m : Main) (status : LimitStatus) (hr : HRESULT) (m1 : Main)
    (h : ingestAttribute env aMatch specIdx attr m = .ok (status, hr, m1)) :
    ∃ aSpec aSpec1 m0,
      m.config.listofSpecs[specIdx]? = some aSpec
      ∧ m1.config.listofSpecs[specIdx]? = some aSpec1
      ∧ status = SampleLimitStatus m.GlobalLimits aSpec.PerSampleLimits (env.GetSize attr.DataStream)
      ∧ AddSamplesForMatch env status aSpec aMatch m = .ok (hr, m0)
      ∧ (((status = .NoLimits ∨ status = .SampleWithinLimits) ∧ hr ≠ .S_FALSE) →
          m1.GlobalLimits.dwlAccumulatedBytesTotal
              = add64 m.GlobalLimits.dwlAccumulatedBytesTotal (env.GetSize attr.DataStream)
          ∧ aSpec1.PerSampleLimits.dwlAccumulatedBytesTotal
              = add64 aSpec.PerSampleLimits.dwlAccumulatedBytesTotal (env.GetSize attr.DataStream)
          ∧ m1.GlobalLimits.dwAccumulatedSampleCount
              = add32 m.GlobalLimits.dwAccumulatedSampleCount 1
          ∧ aSpec1.PerSampleLimits.dwAccumulatedSampleCount
              = add32 aSpec.PerSampleLimits.dwAccumulatedSampleCount 1
          ∧ (m.GlobalLimits.dwlAccumulatedBytesTotal + env.GetSize attr.DataStream
                < 18446744073709551616 →
              m1.GlobalLimits.dwlAccumulatedBytesTotal
                = m.GlobalLimits.dwlAccumulatedBytesTotal + env.GetSize attr.DataStream)
          ∧ (aSpec.PerSampleLimits.dwlAccumulatedBytesTotal + env.GetSize attr.DataStream
                < 18446744073709551616 →
              aSpec1.PerSampleLimits.dwlAccumulatedBytesTotal
                = aSpec.PerSampleLimits.dwlAccumulatedBytesTotal + env.GetSize attr.DataStream)
          ∧ (m.GlobalLimits.dwAccumulatedSampleCount + 1 < 4294967296 →
              m1.GlobalLimits.dwAccumulatedSampleCount
                = m.GlobalLimits.dwAccumulatedSampleCount + 1)
          ∧ (aSpec.PerSampleLimits.dwAccumulatedSampleCount + 1 < 4294967296 →
              aSpec1.PerSampleLimits.dwAccumulatedSampleCount
                = aSpec.PerSampleLimits.dwAccumulatedSampleCount + 1))
      ∧ (¬ ((status = .NoLimits ∨ status = .SampleWithinLimits) ∧ hr ≠ .S_FALSE) →
          m1.GlobalLimits.dwlAccumulatedBytesTotal = m.GlobalLimits.dwlAccumulatedBytesTotal
          ∧ aSpec1.PerSampleLimits.dwlAccumulatedBytesTotal
              = aSpec.PerSampleLimits.dwlAccumulatedBytesTotal
          ∧ m1.GlobalLimits.dwAccumulatedSampleCount = m.GlobalLimits.dwAccumulatedSampleCount
          ∧ aSpec1.PerSampleLimits.dwAccumulatedSampleCount
              = aSpec.PerSampleLimits.dwAccumulatedSampleCount)
      ∧ (((m1.GlobalLimits.dwlAccumulatedBytesTotal, m1.GlobalLimits.dwAccumulatedSampleCount,
            aSpec1.PerSampleLimits.dwlAccumulatedBytesTotal,
            aSpec1.PerSampleLimits.dwAccumulatedSampleCount)
          ≠ (m.GlobalLimits.dwlAccumulatedBytesTotal, m.GlobalLimits.dwAccumulatedSampleCount,
            aSpec.PerSampleLimits.dwlAccumulatedBytesTotal,
            aSpec.PerSampleLimits.dwAccumulatedSampleCount))
          ↔ ((status = .NoLimits ∨ status = .SampleWithinLimits) ∧ hr ≠ .S_FALSE)) := by
  obtain ⟨aSpec, m0, hs, hst, ha, -, -, hg, hl⟩ :=
    ingestAttribute_ok env aMatch specIdx attr m status hr m1 h
  have hl1 := setSpecLimits_same m.config.listofSpecs specIdx
    (applyStatus status hr (env.GetSize attr.DataStream) m.GlobalLimits aSpec.PerSampleLimits).2
    aSpec hs
  rw [← hl] at hl1
  refine ⟨aSpec, _, m0, hs, hl1, hst, ha, ?_, ?_, ?_⟩
  · rintro ⟨hok, hne⟩
    rw [hg]
    have hmod64 : ∀ a b : Nat, a + b < 18446744073709551616 → add64 a b = a + b :=
      fun a b hab => Nat.mod_eq_of_lt hab
    have hmod32 : ∀ a : Nat, a + 1 < 4294967296 → add32 a 1 = a + 1 :=
      fun a hab => Nat.mod_eq_of_lt hab
    have e : applyStatus status hr (env.GetSize attr.DataStream) m.GlobalLimits
        aSpec.PerSampleLimits
        = (m.GlobalLimits.account (env.GetSize attr.DataStream),
            aSpec.PerSampleLimits.account (env.GetSize attr.DataStream)) := by
      rcases hok with hok | hok <;> simp [hok, applyStatus, hne]
    rw [e]
    exact ⟨rfl, rfl, rfl, rfl, hmod64 _ _, hmod64 _ _, hmod32 _, hmod32 _⟩
  · intro hno
    rw [hg]
    by_cases hf : hr = .S_FALSE
    · cases status <;> simp [applyStatus, hf]
    · cases status <;> simp_all [applyStatus]
  · rw [hg]
    by_cases hf : hr = .S_FALSE
    · cases status <;> simp [applyStatus, hf]
    · have := add32_one_ne m.GlobalLimits.dwAccumulatedSampleCount
      cases status <;> simp [applyStatus, hf, Limits.account, this]


/-- The first round on `fooMatch` (10 bytes, within limits, not a duplicate): both byte
totals become 10 and both counts 1. -/
theorem ingestAttribute_accumulators_witness :
    ingestAttribute okEnv fooMatch 0 (mkAttr 0 10 "") (mkMain noLimits noLimits)
      = .ok (.SampleWithinLimits, .S_OK, fooIngested)
    ∧ fooIngested.GlobalLimits.dwlAccumulatedBytesTotal = 10
    ∧ fooIngested.GlobalLimits.dwAccumulatedSampleCount = 1
    ∧
    ∃ aSpec aSpec1 m0,
      (mkMain noLimits noLimits).config.listofSpecs[0]? = some aSpec
      ∧ fooIngested.config.listofSpecs[0]? = some aSpec1
      ∧ LimitStatus.SampleWithinLimits = SampleLimitStatus (mkMain noLimits noLimits).GlobalLimits aSpec.PerSampleLimits (okEnv.GetSize (mkAttr 0 10 "").DataStream)
      ∧ AddSamplesForMatch okEnv LimitStatus.SampleWithinLimits aSpec fooMatch (mkMain noLimits noLimits) = .ok (HRESULT.S_OK, m0)
      ∧ (((LimitStatus.SampleWithinLimits = .NoLimits ∨ LimitStatus.SampleWithinLimits = .SampleWithinLimits) ∧ HRESULT.S_OK ≠ .S_FALSE) →
          fooIngested.GlobalLimits.dwlAccumulatedBytesTotal
              = add64 (mkMain noLimits noLimits).GlobalLimits.dwlAccumulatedBytesTotal (okEnv.GetSize (mkAttr 0 10 "").DataStream)
          ∧ aSpec1.PerSampleLimits.dwlAccumulatedBytesTotal
              = add64 aSpec.PerSampleLimits.dwlAccumulatedBytesTotal (okEnv.GetSize (mkAttr 0 10 "").DataStream)
          ∧ fooIngested.GlobalLimits.dwAccumulatedSampleCount
              = add32 (mkMain noLimits noLimits).GlobalLimits.dwAccumulatedSampleCount 1
          ∧ aSpec1.PerSampleLimits.dwAccumulatedSampleCount
              = add32 aSpec.PerSampleLimits.dwAccumulatedSampleCount 1
          ∧ ((mkMain noLimits noLimits).GlobalLimits.dwlAccumulatedBytesTotal + okEnv.GetSize (mkAttr 0 10 "").DataStream
                < 18446744073709551616 →
              fooIngested.GlobalLimits.dwlAccumulatedBytesTotal
                = (mkMain noLimits noLimits).GlobalLimits.dwlAccumulatedBytesTotal + okEnv.GetSize (mkAttr 0 10 "").DataStream)
          ∧ (aSpec.PerSampleLimits.dwlAccumulatedBytesTotal + okEnv.GetSize (mkAttr 0 10 "").DataStream
                < 18446744073709551616 →
              aSpec1.PerSampleLimits.dwlAccumulatedBytesTotal
                = aSpec.PerSampleLimits.dwlAccumulatedBytesTotal + okEnv.GetSize (mkAttr 0 10 "").DataStream)
          ∧ ((mkMain noLimits noLimits).GlobalLimits.dwAccumulatedSampleCount + 1 < 4294967296 →
              fooIngested.GlobalLimits.dwAccumulatedSampleCount
                = (mkMain noLimits noLimits).GlobalLimits.dwAccumulatedSampleCount + 1)
          ∧ (aSpec.PerSampleLimits.dwAccumulatedSampleCount + 1 < 4294967296 →
              aSpec1.PerSampleLimits.dwAccumulatedSampleCount
                = aSpec.PerSampleLimits.dwAccumulatedSampleCount + 1))
      ∧ (¬ ((LimitStatus.SampleWithinLimits = .NoLimits ∨ LimitStatus.SampleWithinLimits = .SampleWithinLimits) ∧ HRESULT.S_OK ≠ .S_FALSE) →
          fooIngested.GlobalLimits.dwlAccumulatedBytesTotal = (mkMain noLimits noLimits).GlobalLimits.dwlAccumulatedBytesTotal
          ∧ aSpec1.PerSampleLimits.dwlAccumulatedBytesTotal
              = aSpec.PerSampleLimits.dwlAccumulatedBytesTotal
          ∧ fooIngested.GlobalLimits.dwAccumulatedSampleCount = (mkMain noLimits noLimits).GlobalLimits.dwAccumulatedSampleCount
          ∧ aSpec1.PerSampleLimits.dwAccumulatedSampleCount
              = aSpec.PerSampleLimits.dwAccumulatedSampleCount)
      ∧ (((fooIngested.GlobalLimits.dwlAccumulatedBytesTotal, fooIngested.GlobalLimits.dwAccumulatedSampleCount,
            aSpec1.PerSampleLimits.dwlAccumulatedBytesTotal,
            aSpec1.PerSampleLimits.dwAccumulatedSampleCount)
          ≠ ((mkMain noLimits noLimits).GlobalLimits.dwlAccumulatedBytesTotal, (mkMain noLimits noLimits).GlobalLimits.dwAccumulatedSampleCount,
            aSpec.PerSampleLimits.dwlAccumulatedBytesTotal,
            aSpec.PerSampleLimits.dwAccumulatedSampleCount))
          ↔ ((LimitStatus.SampleWithinLimits = .NoLimits ∨ LimitStatus.SampleWithinLimits = .SampleWithinLimits) ∧ HRESULT.S_OK ≠ .S_FALSE)) :=
  ⟨by rfl, by rfl, by rfl,
    ingestAttribute_accumulators okEnv fooMatch 0 (mkAttr 0 10 "") (mkMain noLimits noLimits)
      .SampleWithinLimits .S_OK fooIngested (by rfl)⟩

/-! ### Matches with several matching attributes -/

/-- C5 (the code at the failing input). Global `max_bytes_per_sample = 100`; one match with
two matching attributes of 10 and 1000 bytes.  The first round of the attribute loop
classifies the 10-byte attribute `SampleWithinLimits`, and `AddSamplesForMatch`, which
loops over all attributes of the match itself, registers both samples under that status:
the 1000-byte sample is registered with `OffLimits = false`, although `SampleLimitStatus`
on its own size, with the accumulators as they stand in its round, is
`GlobalMaxBytesPerSample`. -/
theorem FindMatchingSamples_status_of_other_attribute :
    ingestMatches okEnv [some fooTwoStreams]
        (mkMain { noLimits with dwlMaxBytesPerSample := 100 } noLimits)
      = .ok { mkMain { ({ noLimits with dwlMaxBytesPerSample := 100 } : Limits).account 10 with
                       bMaxBytesPerSampleReached := true } (noLimits.account 10) with
              Samples := fooTwoStreamsSamples
              SampleNames := ["000100000000000A_foo.txt_data".toList,
                "000100000000000A__foo.txt_ads_data".toList] }
    ∧ fooTwoStreamsSamples.map (fun s => (s.InstanceID, s.SampleSize, s.OffLimits))
        = [(0, 10, false), (1, 1000, false)]
    ∧ SampleLimitStatus (({ noLimits with dwlMaxBytesPerSample := 100 } : Limits).account 10)
        (noLimits.account 10) 1000 = .GlobalMaxBytesPerSample
    ∧ SampleLimitStatus { noLimits with dwlMaxBytesPerSample := 100 } noLimits 1000
        = .GlobalMaxBytesPerSample
    ∧ OffLimitsOf .GlobalMaxBytesPerSample = true := by
  refine ⟨by rfl, by rfl, by decide, by decide, rfl⟩

/-- C6 (the code at the failing input). Global `max_sample_count = 1`, empty registry,
counts at zero; one match with two matching attributes.  Both samples are registered
with `OffLimits = false`: two collected samples against a limit of one. -/
theorem FindMatchingSamples_count_limit_exceeded :
    ingestMatches okEnv [some fooTwoStreams]
        (mkMain { noLimits with dwMaxSampleCount := 1 } noLimits)
      = .ok { mkMain { ({ noLimits with dwMaxSampleCount := 1 } : Limits).account 10 with
                       bMaxSampleCountReached := true } (noLimits.account 10) with
              Samples := fooTwoStreamsSamples
              SampleNames := ["000100000000000A_foo.txt_data".toList,
                "000100000000000A__foo.txt_ads_data".toList] }
    ∧ (fooTwoStreamsSamples.filter (fun s => !s.OffLimits)).length = 2 := by
  refine ⟨by rfl, by rfl⟩

/-! ### The byte total of a spec stays under its quota -/

/-- The switch of `FindMatchingSamples` changes no configured maximum and no
`bIgnoreLimits`. -/
theorem applyStatus_frame (status : LimitStatus) (hr : HRESULT) (n : Nat) (G L : Limits) :
    (applyStatus status hr n G L).1.bIgnoreLimits = G.bIgnoreLimits
    ∧ (applyStatus status hr n G L).2.dwlMaxBytesTotal = L.dwlMaxBytesTotal := by
  by_cases hf : hr = .S_FALSE <;> cases status <;> simp [applyStatus, hf, Limits.account]

/-- The byte total of the spec after the switch: the 64-bit sum when the sample is
accounted for, the old value otherwise. -/
theorem applyStatus_local_total (status : LimitStatus) (hr : HRESULT) (n : Nat) (G L : Limits) :
    (applyStatus status hr n G L).2.dwlAccumulatedBytesTotal
      = if (status = .NoLimits ∨ status = .SampleWithinLimits) ∧ hr ≠ .S_FALSE
        then add64 L.dwlAccumulatedBytesTotal n else L.dwlAccumulatedBytesTotal := by
  by_cases hf : hr = .S_FALSE <;> cases status <;> simp [applyStatus, hf, Limits.account]

theorem add64_comm (a b : Nat) : add64 a b = add64 b a := by
  unfold add64
  rw [Nat.add_comm]

/-- With `bIgnoreLimits` false the status is never `NoLimits`. -/
theorem SampleLimitStatus_ne_NoLimits (G L : Limits) (n : Nat) (h : G.bIgnoreLimits = false) :
    SampleLimitStatus G L n ≠ .NoLimits := by
  rw [SampleLimitStatus_eq_rules]
  simp only [classifyRules64, firstRule, h]
  cases countReached G <;> cases countReached L
    <;> cases perSampleExceeded G n <;> cases totalExceeded64 G n
    <;> cases perSampleExceeded L n <;> cases totalExceeded64 L n <;> simp

/-- A sample within limits fits the byte total of the spec, when that total is set. -/
theorem SampleLimitStatus_within_total (G L : Limits) (n : Nat)
    (h : SampleLimitStatus G L n = .SampleWithinLimits) (hM : L.dwlMaxBytesTotal ≠ INFINITE) :
    add64 n L.dwlAccumulatedBytesTotal ≤ L.dwlMaxBytesTotal := by
  have h7 := ((SampleLimitStatus_within_iff G L n).1 h).2.2.2.2.2.2
  simp only [totalExceeded64, Bool.and_eq_false_iff, decide_eq_false_iff_not] at h7
  rcases h7 with h7 | h7
  · exact absurd hM h7
  · omega

/-- A round of the attribute loop, for whichever spec, keeps `bIgnoreLimits`, keeps the
quota of every spec and keeps every byte total under its quota. -/
theorem ingestAttribute_total_invariant (env : Env) (aMatch : Match) (j : Nat)
    (attr : AttributeMatch) (m : Main) (status : LimitStatus) (hr : HRESULT) (m1 : Main)
    (h : ingestAttribute env aMatch j attr m = .ok (status, hr, m1))
    (hig : m.GlobalLimits.bIgnoreLimits = false) (i : Nat) (aSpec : SampleSpec)
    (hs : m.config.listofSpecs[i]? = some aSpec)
    (hM : aSpec.PerSampleLimits.dwlMaxBytesTotal ≠ INFINITE)
    (hacc : aSpec.PerSampleLimits.dwlAccumulatedBytesTotal
      ≤ aSpec.PerSampleLimits.dwlMaxBytesTotal) :
    m1.GlobalLimits.bIgnoreLimits = false
    ∧ ∃ aSpec1, m1.config.listofSpecs[i]? = some aSpec1
      ∧ aSpec1.PerSampleLimits.dwlMaxBytesTotal = aSpec.PerSampleLimits.dwlMaxBytesTotal
      ∧ aSpec1.PerSampleLimits.dwlAccumulatedBytesTotal
          ≤ aSpec.PerSampleLimits.dwlMaxBytesTotal := by
  obtain ⟨aSpecJ, m0, hsj, hst, -, -, -, hg, hl⟩ :=
    ingestAttribute_ok env aMatch j attr m status hr m1 h
  refine ⟨by rw [hg, (applyStatus_frame _ _ _ _ _).1, hig], ?_⟩
  by_cases hij : i = j
  · subst hij
    rw [hs] at hsj
    cases hsj
    refine ⟨_, by rw [hl]; exact setSpecLimits_same _ _ _ _ hs, ?_, ?_⟩
    · exact (applyStatus_frame _ _ _ _ _).2
    · show (applyStatus status hr (env.GetSize attr.DataStream) m.GlobalLimits
        aSpec.PerSampleLimits).2.dwlAccumulatedBytesTotal ≤ _
      rw [applyStatus_local_total]
      split
      · rename_i hc
        rcases hc.1 with h1 | h1
        · exact absurd (hst ▸ h1) (SampleLimitStatus_ne_NoLimits _ _ _ hig)
        · rw [add64_comm]
          exact SampleLimitStatus_within_total _ _ _ (hst ▸ h1) hM
      · exact hacc
  · refine ⟨aSpec, by rw [hl, setSpecLimits_other _ _ _ _ hij]; exact hs, rfl, hacc⟩

/-- The invariant along the attribute loop of one match. -/
theorem ingestAttributes_total_invariant (env : Env) (aMatch : Match) (j : Nat)
    (attrs : List AttributeMatch) :
    ∀ (m m1 : Main), ingestAttributes env aMatch j attrs m = .ok m1 →
      m.GlobalLimits.bIgnoreLimits = false → ∀ (i : Nat) (aSpec : SampleSpec),
      m.config.listofSpecs[i]? = some aSpec →
      aSpec.PerSampleLimits.dwlMaxBytesTotal ≠ INFINITE →
      aSpec.PerSampleLimits.dwlAccumulatedBytesTotal ≤ aSpec.PerSampleLimits.dwlMaxBytesTotal →
      m1.GlobalLimits.bIgnoreLimits = false
      ∧ ∃ aSpec1, m1.config.listofSpecs[i]? = some aSpec1
        ∧ aSpec1.PerSampleLimits.dwlMaxBytesTotal = aSpec.PerSampleLimits.dwlMaxBytesTotal
        ∧ aSpec1.PerSampleLimits.dwlAccumulatedBytesTotal
            ≤ aSpec.PerSampleLimits.dwlMaxBytesTotal := by
  induction attrs with
  | nil =>
    intro m m1 h hig i aSpec hs _ hacc
    simp only [ingestAttributes] at h
    cases h
    exact ⟨hig, aSpec, hs, rfl, hacc⟩
  | cons attr rest ih =>
    intro m m1 h hig i aSpec hs hM hacc
    simp only [ingestAttributes] at h
    split at h
    · cases h
    rename_i st hr m2 hstep
    obtain ⟨g2, aSpec2, hs2, hM2, hacc2⟩ :=
      ingestAttribute_total_invariant env aMatch j attr m st hr m2 hstep hig i aSpec hs hM hacc
    obtain ⟨g3, aSpec3, hs3, hM3, hacc3⟩ :=
      ih m2 m1 h g2 i aSpec2 hs2 (by rw [hM2]; exact hM) (by rw [hM2]; exact hacc2)
    exact ⟨g3, aSpec3, hs3, hM3.trans hM2, by rw [← hM2]; exact hacc3⟩

/-- The invariant along any sequence of matches delivered by the finder. -/
theorem ingestMatches_total_invariant (env : Env) (found : List (Option Match)) :
    ∀ (m m1 : Main), ingestMatches env found m = .ok m1 →
      m.GlobalLimits.bIgnoreLimits = false → ∀ (i : Nat) (aSpec : SampleSpec),
      m.config.listofSpecs[i]? = some aSpec →
      aSpec.PerSampleLimits.dwlMaxBytesTotal ≠ INFINITE →
      aSpec.PerSampleLimits.dwlAccumulatedBytesTotal ≤ aSpec.PerSampleLimits.dwlMaxBytesTotal →
      m1.GlobalLimits.bIgnoreLimits = false
      ∧ ∃ aSpec1, m1.config.listofSpecs[i]? = some aSpec1
        ∧ aSpec1.PerSampleLimits.dwlMaxBytesTotal = aSpec.PerSampleLimits.dwlMaxBytesTotal
        ∧ aSpec1.PerSampleLimits.dwlAccumulatedBytesTotal
            ≤ aSpec.PerSampleLimits.dwlMaxBytesTotal := by
  induction found with
  | nil =>
    intro m m1 h hig i aSpec hs _ hacc
    simp only [ingestMatches] at h
    cases h
    exact ⟨hig, aSpec, hs, rfl, hacc⟩
  | cons aMatch rest ih =>
    intro m m1 h hig i aSpec hs hM hacc
    simp only [ingestMatches] at h
    split at h
    · cases h
    rename_i m2 hone
    have hstep : m2.GlobalLimits.bIgnoreLimits = false
        ∧ ∃ aSpec2, m2.config.listofSpecs[i]? = some aSpec2
          ∧ aSpec2.PerSampleLimits.dwlMaxBytesTotal = aSpec.PerSampleLimits.dwlMaxBytesTotal
          ∧ aSpec2.PerSampleLimits.dwlAccumulatedBytesTotal
              ≤ aSpec.PerSampleLimits.dwlMaxBytesTotal := by
      unfold onMatch at hone
      split at hone
      · cases hone; exact ⟨hig, aSpec, hs, rfl, hacc⟩
      split at hone
      · cases hone; exact ⟨hig, aSpec, hs, rfl, hacc⟩
      split at hone
      · cases hone
      split at hone
      · cases hone; exact ⟨hig, aSpec, hs, rfl, hacc⟩
      · exact ingestAttributes_total_invariant env _ _ _ m m2 hone hig i aSpec hs hM hacc
    obtain ⟨g2, aSpec2, hs2, hM2, hacc2⟩ := hstep
    obtain ⟨g3, aSpec3, hs3, hM3, hacc3⟩ :=
      ih m2 m1 h g2 i aSpec2 hs2 (by rw [hM2]; exact hM) (by rw [hM2]; exact hacc2)
    exact ⟨g3, aSpec3, hs3, hM3.trans hM2, by rw [← hM2]; exact hacc3⟩


/-- The status is `LocalMaxBytesTotal` exactly when the last rule is the first to fire. -/
theorem SampleLimitStatus_local_total_iff (G L : Limits) (n : Nat) :
    SampleLimitStatus G L n = .LocalMaxBytesTotal ↔
      G.bIgnoreLimits = false ∧ countReached G = false ∧ countReached L = false
      ∧ perSampleExceeded G n = false ∧ totalExceeded64 G n = false
      ∧ perSampleExceeded L n = false ∧ totalExceeded64 L n = true := by
  rw [SampleLimitStatus_eq_rules]
  simp only [classifyRules64, firstRule]
  cases G.bIgnoreLimits <;> cases countReached G <;> cases countReached L
    <;> cases perSampleExceeded G n <;> cases totalExceeded64 G n
    <;> cases perSampleExceeded L n <;> cases totalExceeded64 L n <;> simp

/-- The quota of a spec at machine width: let `global.ignore_limits` be false and let spec `i` have `max_bytes_total = M`
set, with `accumulated_bytes_total ≤ M` (as it is at the start, where it is `0`).  Then
after any sequence of matches the spec still has quota `M` and
`accumulated_bytes_total ≤ M`; and in a round of the attribute loop for that spec on an
attribute of size `n`: the byte total stays `≤ M`; if `n` would push the total over `M`
(64-bit sum) and no earlier rule fires, the status is `LocalMaxBytesTotal`; and under
`LocalMaxBytesTotal` the spec's `total_reached` flag is set and the accumulator is
unchanged. -/
theorem spec_byte_total_bounded (env : Env) (m : Main) (i : Nat) (aSpec : SampleSpec)
    (hig : m.GlobalLimits.bIgnoreLimits = false)
    (hs : m.config.listofSpecs[i]? = some aSpec)
    (hM : aSpec.PerSampleLimits.dwlMaxBytesTotal ≠ INFINITE)
    (hacc : aSpec.PerSampleLimits.dwlAccumulatedBytesTotal
      ≤ aSpec.PerSampleLimits.dwlMaxBytesTotal) :
    (∀ (found : List (Option Match)) (m1 : Main), ingestMatches env found m = .ok m1 →
      ∃ aSpec1, m1.config.listofSpecs[i]? = some aSpec1
        ∧ aSpec1.PerSampleLimits.dwlMaxBytesTotal = aSpec.PerSampleLimits.dwlMaxBytesTotal
        ∧ aSpec1.PerSampleLimits.dwlAccumulatedBytesTotal
            ≤ aSpec.PerSampleLimits.dwlMaxBytesTotal)
    ∧ (∀ (aMatch : Match) (attr : AttributeMatch) (status : LimitStatus) (hr : HRESULT)
        (m1 : Main), ingestAttribute env aMatch i attr m = .ok (status, hr, m1) →
      ∃ aSpec1, m1.config.listofSpecs[i]? = some aSpec1
        ∧ aSpec1.PerSampleLimits.dwlMaxBytesTotal = aSpec.PerSampleLimits.dwlMaxBytesTotal
        ∧ aSpec1.PerSampleLimits.dwlAccumulatedBytesTotal
            ≤ aSpec.PerSampleLimits.dwlMaxBytesTotal
        ∧ (add64 (env.GetSize attr.DataStream) aSpec.PerSampleLimits.dwlAccumulatedBytesTotal
              > aSpec.PerSampleLimits.dwlMaxBytesTotal →
            countReached m.GlobalLimits = false → countReached aSpec.PerSampleLimits = false →
            perSampleExceeded m.GlobalLimits (env.GetSize attr.DataStream) = false →
            totalExceeded64 m.GlobalLimits (env.GetSize attr.DataStream) = false →
            perSampleExceeded aSpec.PerSampleLimits (env.GetSize attr.DataStream) = false →
            status = .LocalMaxBytesTotal)
        ∧ (status = .LocalMaxBytesTotal →
            add64 (env.GetSize attr.DataStream) aSpec.PerSampleLimits.dwlAccumulatedBytesTotal
              > aSpec.PerSampleLimits.dwlMaxBytesTotal
            ∧ aSpec1.PerSampleLimits.bMaxBytesTotalReached = true
            ∧ aSpec1.PerSampleLimits.dwlAccumulatedBytesTotal
                = aSpec.PerSampleLimits.dwlAccumulatedBytesTotal)) := by
  constructor
  · intro found m1 h
    exact (ingestMatches_total_invariant env found m m1 h hig i aSpec hs hM hacc).2
  · intro aMatch attr status hr m1 h
    obtain ⟨-, aSpec1, hs1, hM1, hacc1⟩ :=
      ingestAttribute_total_invariant env aMatch i attr m status hr m1 h hig i aSpec hs hM hacc
    obtain ⟨aSpecJ, m0, hsj, hst, -, -, -, -, hl⟩ :=
      ingestAttribute_ok env aMatch i attr m status hr m1 h
    rw [hs] at hsj
    cases hsj
    have hs1' := setSpecLimits_same m.config.listofSpecs i
      (applyStatus status hr (env.GetSize attr.DataStream) m.GlobalLimits
        aSpec.PerSampleLimits).2 aSpec hs
    rw [← hl, hs1] at hs1'
    cases hs1'
    refine ⟨_, hs1, hM1, hacc1, ?_, ?_⟩
    · intro hover c2 c3 c4 c5 c6
      rw [hst]
      refine (SampleLimitStatus_local_total_iff _ _ _).2 ⟨hig, c2, c3, c4, c5, c6, ?_⟩
      simp only [totalExceeded64, Bool.and_eq_true, decide_eq_true_eq]
      exact ⟨hM, hover⟩
    · intro hloc
      have hrule := (SampleLimitStatus_local_total_iff _ _ _).1 (hst ▸ hloc)
      have h7 := hrule.2.2.2.2.2.2
      simp only [totalExceeded64, Bool.and_eq_true, decide_eq_true_eq] at h7
      refine ⟨h7.2, ?_, ?_⟩ <;> simp [hloc, applyStatus]

/-- Scenario 4: quota 1000, three distinct 400-byte matches; the third is
`LocalMaxBytesTotal` and the byte total of the spec ends at 800. -/
theorem spec_byte_total_bounded_witness :
    ingestMatches okEnv [some (match400 1), some (match400 2), some (match400 3)]
        (mkMain noLimits quota1000) = .ok afterThree400
    ∧ afterThree400.config.listofSpecs.map
        (fun aSpec => aSpec.PerSampleLimits.dwlAccumulatedBytesTotal) = [800]
    ∧ ingestAttribute okEnv (match400 3) 0 (mkAttr 0 400 "") afterTwo400
        = .ok (.LocalMaxBytesTotal, .S_OK, afterThree400)
    ∧ (∃ aSpec1, afterThree400.config.listofSpecs[0]? = some aSpec1
        ∧ aSpec1.PerSampleLimits.dwlMaxBytesTotal = (spec1 quota1000).PerSampleLimits.dwlMaxBytesTotal
        ∧ aSpec1.PerSampleLimits.dwlAccumulatedBytesTotal
            ≤ (spec1 quota1000).PerSampleLimits.dwlMaxBytesTotal) :=
  ⟨by rfl, by rfl, by rfl,
    (spec_byte_total_bounded okEnv (mkMain noLimits quota1000) 0 (spec1 quota1000) rfl rfl
      (by decide) (by decide)).1 [some (match400 1), some (match400 2), some (match400 3)]
      afterThree400 (by rfl)⟩

/-! ### Off-limits samples: manifest only -/

theorem archivePayload_trace (env : Env) (Samples : List SampleRef) :
    (∃ handled : List SampleRef, handled.Sublist Samples ∧ (∀ s ∈ handled, s.OffLimits = false)
      ∧ (archivePayload env Samples).1.filterMap SinkEvent.payloadOf
          = handled.map (fun s => (s.SampleName, s.CopyStream)))
    ∧ (archivePayload env Samples).1.filterMap SinkEvent.fileOf = []
    ∧ (archivePayload env Samples).1.filterMap SinkEvent.rowOf = [] := by
  induction Samples with
  | nil => exact ⟨⟨[], List.Sublist.slnil, by simp, rfl⟩, rfl, rfl⟩
  | cons s rest ih =>
    obtain ⟨⟨handled, h1, h2, h3⟩, h4, h5⟩ := ih
    unfold archivePayload
    split
    · rename_i hoff
      have hoff' : s.OffLimits = false := by simpa using hoff
      split
      · exact ⟨⟨[], List.nil_sublist _, by simp, rfl⟩, rfl, rfl⟩
      · split
        · refine ⟨⟨s :: handled, h1.cons₂ s, ?_, ?_⟩, ?_, ?_⟩
          · intro x hx
            rcases List.mem_cons.1 hx with rfl | hx
            · exact hoff'
            · exact h2 x hx
          · simp [SinkEvent.payloadOf, h3]
          · simpa [SinkEvent.fileOf] using h4
          · simpa [SinkEvent.rowOf] using h5
        · exact ⟨⟨[], List.nil_sublist _, by simp, rfl⟩, rfl, rfl⟩
    · exact ⟨⟨handled, h1.cons s, h2, h3⟩, h4, h5⟩

theorem directoryPayload_trace (env : Env) (outputdir : WString) (Samples : List SampleRef) :
    (∃ handled : List SampleRef, handled.Sublist Samples ∧ (∀ s ∈ handled, s.OffLimits = false)
      ∧ (directoryPayload env outputdir Samples).1.filterMap SinkEvent.payloadOf
          = handled.map (fun s => (s.SampleName, s.CopyStream)))
    ∧ (∃ opened : List SampleRef, opened.Sublist Samples ∧ (∀ s ∈ opened, s.OffLimits = false)
      ∧ (directoryPayload env outputdir Samples).1.filterMap SinkEvent.fileOf
          = opened.map (fun s => s.SampleName))
    ∧ (directoryPayload env outputdir Samples).1.filterMap SinkEvent.rowOf = [] := by
  induction Samples with
  | nil => exact ⟨⟨[], List.Sublist.slnil, by simp, rfl⟩, ⟨[], List.Sublist.slnil, by simp, rfl⟩, rfl⟩
  | cons s rest ih =>
    obtain ⟨⟨handled, h1, h2, h3⟩, ⟨opened, o1, o2, o3⟩, h5⟩ := ih
    unfold directoryPayload
    split
    · rename_i hoff
      have hoff' : s.OffLimits = false := by simpa using hoff
      have hone : ∀ x ∈ [s], x.OffLimits = false := by
        intro x hx
        rw [List.mem_singleton] at hx
        rw [hx]
        exact hoff'
      have hsub : [s].Sublist (s :: rest) := (List.nil_sublist rest).cons₂ s
      split
      · exact ⟨⟨[], List.nil_sublist _, by simp, rfl⟩, ⟨[s], hsub, hone, rfl⟩, rfl⟩
      · split
        · exact ⟨⟨[], List.nil_sublist _, by simp, rfl⟩, ⟨[s], hsub, hone, rfl⟩, rfl⟩
        · rename_i stream hstream
          split
          · refine ⟨⟨[s], hsub, hone, ?_⟩, ⟨[s], hsub, hone, rfl⟩, rfl⟩
            simp [SinkEvent.payloadOf, hstream]
          · refine ⟨⟨s :: handled, h1.cons₂ s, ?_, ?_⟩, ⟨s :: opened, o1.cons₂ s, ?_, ?_⟩, ?_⟩
            · intro x hx
              rcases List.mem_cons.1 hx with rfl | hx
              · exact hoff'
              · exact h2 x hx
            · simp [SinkEvent.payloadOf, h3, hstream]
            · intro x hx
              rcases List.mem_cons.1 hx with rfl | hx
              · exact hoff'
              · exact o2 x hx
            · simp [SinkEvent.fileOf, o3]
            · simpa [SinkEvent.rowOf] using h5
    · exact ⟨⟨handled, h1.cons s, h2, h3⟩, ⟨opened, o1.cons s, o2, o3⟩, h5⟩

theorem writeRows_ok {α : Type} (f : α → Except Stop Row) (l : List α) (u : Unit)
    (h : (writeRows f l).2 = .ok u) :
    (writeRows f l).1.length = l.length ∧ ∀ r ∈ (writeRows f l).1, ∃ a ∈ l, f a = .ok r := by
  induction l with
  | nil => simp [writeRows]
  | cons a rest ih =>
    unfold writeRows at h ⊢
    split at h
    · cases h
    rename_i row hrow
    obtain ⟨i1, i2⟩ := ih h
    refine ⟨by simp [i1], ?_⟩
    intro r hr
    rcases List.mem_cons.1 hr with rfl | hr
    · exact ⟨a, List.mem_cons_self _ _, hrow⟩
    · obtain ⟨b, hb, hfb⟩ := i2 r hr
      exact ⟨b, List.mem_cons_of_mem _ hb, hfb⟩

theorem writeAll_ok {α : Type} (f : α → List Row × Except Stop Unit) (l : List α) (u : Unit)
    (h : (writeAll f l).2 = .ok u) :
    (writeAll f l).1 = l.flatMap (fun a => (f a).1) ∧ ∀ a ∈ l, (f a).2 = .ok () := by
  induction l with
  | nil => simp [writeAll]
  | cons a rest ih =>
    unfold writeAll at h ⊢
    split at h
    · cases h
    rename_i v hv
    obtain ⟨i1, i2⟩ := ih h
    refine ⟨by simp [i1], ?_⟩
    intro b hb
    rcases List.mem_cons.1 hb with rfl | hb
    · exact hv
    · exact i2 b hb

theorem csvRow_offLimits (n : WString) (s : SampleRef) (aMatch : Match) (name : NameMatch)
    (r : Row) (h : csvRow n s aMatch name = .ok r) (hoff : s.OffLimits = true) :
    r.length = 28 ∧ r[5]? = some Cell.WriteNothing := by
  unfold csvRow at h
  split at h
  · cases h
    simp [hoff]
  · cases h

theorem readDigests_frame (env : Env) (s : SampleRef) :
    (readDigests env s).OffLimits = s.OffLimits ∧ (readDigests env s).Matches = s.Matches := by
  unfold readDigests
  cases s.HashStream <;> cases hf : s.FuzzyHashStream <;> simp [hf]

/-- The lines of one sample, when all of them could be written: one per hard link, and
for an off-limits sample each with nothing in the SampleName column. -/
theorem rowsOf_ok (env : Env) (s : SampleRef)
    (h : (AddSampleRefToCSV env.ComputerName (readDigests env s)).2 = .ok .S_OK) :
    (rowsOf env s).length = (s.Matches.flatMap (fun aMatch => aMatch.MatchingNames)).length
    ∧ (s.OffLimits = true → ∀ r ∈ rowsOf env s, r.length = 28 ∧ r[5]? = some Cell.WriteNothing) := by
  obtain ⟨f1, f2⟩ := readDigests_frame env s
  unfold AddSampleRefToCSV at h
  simp only at h
  have hall : (writeAll (fun aMatch => writeRows (csvRow env.ComputerName (readDigests env s) aMatch)
      aMatch.MatchingNames) (readDigests env s).Matches).2 = .ok () := by
    revert h
    cases (writeAll (fun aMatch => writeRows (csvRow env.ComputerName (readDigests env s) aMatch)
      aMatch.MatchingNames) (readDigests env s).Matches).2 <;> simp [Except.map]
  obtain ⟨w1, w2⟩ := writeAll_ok _ _ _ hall
  have hrows : rowsOf env s = (readDigests env s).Matches.flatMap (fun aMatch =>
      (writeRows (csvRow env.ComputerName (readDigests env s) aMatch) aMatch.MatchingNames).1) := by
    unfold rowsOf AddSampleRefToCSV
    exact w1
  rw [hrows, f2] at *
  constructor
  · rw [List.length_flatMap, List.length_flatMap]
    congr 1
    apply List.map_congr_left
    intro aMatch ha
    exact (writeRows_ok _ _ _ (w2 aMatch ha)).1
  · intro hoff r hr
    rw [List.mem_flatMap] at hr
    obtain ⟨aMatch, ha, hr⟩ := hr
    obtain ⟨name, -, hrow⟩ := (writeRows_ok _ _ _ (w2 aMatch ha)).2 r hr
    exact csvRow_offLimits _ _ _ _ _ hrow (f1.trans hoff)

theorem writeManifest_ok (env : Env) (Samples : List SampleRef) (u : Unit)
    (h : (writeManifest env Samples).2 = .ok u) :
    (writeManifest env Samples).1 = Samples.flatMap (rowsOf env)
    ∧ ∀ s ∈ Samples, (AddSampleRefToCSV env.ComputerName (readDigests env s)).2 = .ok .S_OK := by
  unfold writeManifest at h ⊢
  obtain ⟨w1, w2⟩ := writeAll_ok _ _ _ h
  refine ⟨w1, ?_⟩
  intro s hs
  have := w2 s hs
  simp only at this
  revert this
  unfold AddSampleRefToCSV
  simp only
  cases (writeAll (fun aMatch => writeRows (csvRow env.ComputerName (readDigests env s) aMatch)
      aMatch.MatchingNames) (readDigests env s).Matches).2 <;> simp [Except.map]


/-- The lines of the manifest once a sink has returned `S_OK`. -/
theorem manifest_of_ok (env : Env) (Samples : List SampleRef) (u : Unit)
    (h : (writeManifest env Samples).2 = .ok u) :
    (writeManifest env Samples).1 = Samples.flatMap (rowsOf env)
    ∧ ∀ s ∈ Samples, s.OffLimits = true →
        (rowsOf env s).length = (s.Matches.flatMap (fun aMatch => aMatch.MatchingNames)).length
        ∧ ∀ r ∈ rowsOf env s, r.length = 28 ∧ r[5]? = some Cell.WriteNothing := by
  obtain ⟨w1, w2⟩ := writeManifest_ok env Samples u h
  refine ⟨w1, ?_⟩
  intro s hs hoff
  obtain ⟨r1, r2⟩ := rowsOf_ok env s (w2 s hs)
  exact ⟨r1, r2 hoff⟩

/-- C8 (amended). In both sinks and for every registry content, the payload handed to the
sink (streams given to `AddStream`, output files created, streams copied into them)
comes, in order, from samples with `OffLimits = false` only; and whenever the sink
returns `S_OK` the manifest holds the lines of every sample of the registry, those of an
off-limits sample being exactly one per hard-link name of its match(es), each of 28
cells with nothing in the SampleName column (the sixth). -/
theorem off_limits_samples_manifest_only (env : Env) (outputdir : WString)
    (Samples : List SampleRef) :
    ((∃ handled : List SampleRef, handled.Sublist Samples ∧ (∀ s ∈ handled, s.OffLimits = false)
        ∧ (CollectMatchingSamples_archive env Samples).1.filterMap SinkEvent.payloadOf
            = handled.map (fun s => (s.SampleName, s.CopyStream)))
      ∧ (CollectMatchingSamples_archive env Samples).1.filterMap SinkEvent.fileOf = [])
    ∧ ((∃ handled : List SampleRef, handled.Sublist Samples ∧ (∀ s ∈ handled, s.OffLimits = false)
        ∧ (CollectMatchingSamples_directory env outputdir Samples).1.filterMap SinkEvent.payloadOf
            = handled.map (fun s => (s.SampleName, s.CopyStream)))
      ∧ (∃ opened : List SampleRef, opened.Sublist Samples ∧ (∀ s ∈ opened, s.OffLimits = false)
        ∧ (CollectMatchingSamples_directory env outputdir Samples).1.filterMap SinkEvent.fileOf
            = opened.map (fun s => s.SampleName)))
    ∧ ((CollectMatchingSamples_archive env Samples).2 = .ok .S_OK →
        (CollectMatchingSamples_archive env Samples).1.filterMap SinkEvent.rowOf
          = Samples.flatMap (rowsOf env)
        ∧ ∀ s ∈ Samples, s.OffLimits = true →
            (rowsOf env s).length
              = (s.Matches.flatMap (fun aMatch => aMatch.MatchingNames)).length
            ∧ ∀ r ∈ rowsOf env s, r.length = 28 ∧ r[5]? = some Cell.WriteNothing)
    ∧ ((CollectMatchingSamples_directory env outputdir Samples).2 = .ok .S_OK →
        (CollectMatchingSamples_directory env outputdir Samples).1.filterMap SinkEvent.rowOf
          = Samples.flatMap (rowsOf env)
        ∧ ∀ s ∈ Samples, s.OffLimits = true →
            (rowsOf env s).length
              = (s.Matches.flatMap (fun aMatch => aMatch.MatchingNames)).length
            ∧ ∀ r ∈ rowsOf env s, r.length = 28 ∧ r[5]? = some Cell.WriteNothing) := by
  obtain ⟨a1, a2, a3⟩ := archivePayload_trace env Samples
  obtain ⟨d1, d2, d3⟩ := directoryPayload_trace env outputdir Samples
  have rowsNone : ∀ rows : List Row,
      (rows.map SinkEvent.WriteRow).filterMap SinkEvent.payloadOf = []
      ∧ (rows.map SinkEvent.WriteRow).filterMap SinkEvent.fileOf = []
      ∧ (rows.map SinkEvent.WriteRow).filterMap SinkEvent.rowOf = rows := by
    intro rows
    induction rows with
    | nil => exact ⟨rfl, rfl, rfl⟩
    | cons r rest ih =>
      obtain ⟨i1, i2, i3⟩ := ih
      exact ⟨by simp [SinkEvent.payloadOf], by simp [SinkEvent.fileOf],
        by simpa [SinkEvent.rowOf] using i3⟩
  refine ⟨?_, ?_, ?_, ?_⟩
  · unfold CollectMatchingSamples_archive
    simp only
    split
    · exact ⟨a1, a2⟩
    · split
      · simp only [List.filterMap_append, a2]
        obtain ⟨handled, h1, h2, h3⟩ := a1
        exact ⟨⟨handled, h1, h2, by simp [h3, SinkEvent.payloadOf]⟩, by simp [SinkEvent.fileOf]⟩
      · simp only [List.filterMap_append, a2, (rowsNone _).1, (rowsNone _).2.1]
        obtain ⟨handled, h1, h2, h3⟩ := a1
        exact ⟨⟨handled, h1, h2, by simp [h3, SinkEvent.payloadOf]⟩, by simp [SinkEvent.fileOf]⟩
  · unfold CollectMatchingSamples_directory
    split
    · rename_i hempty
      have : Samples = [] := by simpa using hempty
      subst this
      exact ⟨⟨[], List.Sublist.slnil, by simp, rfl⟩, ⟨[], List.Sublist.slnil, by simp, rfl⟩⟩
    · simp only
      split
      · exact ⟨d1, d2⟩
      · simp only [List.filterMap_append, (rowsNone _).1, (rowsNone _).2.1, List.append_nil]
        exact ⟨d1, d2⟩
  · unfold CollectMatchingSamples_archive
    simp only
    split
    · intro h; cases h
    · split
      · rename_i hfail
        intro h
        simp only [Except.ok.injEq] at h
        rw [h] at hfail
        cases hfail
      · intro h
        have hm : (writeManifest env Samples).2 = .ok () := by
          revert h
          cases (writeManifest env Samples).2 <;> simp [Except.map]
        obtain ⟨m1, m2⟩ := manifest_of_ok env Samples () hm
        refine ⟨?_, m2⟩
        simp only [List.filterMap_append, a3, (rowsNone _).2.2, m1]
        simp [SinkEvent.rowOf]
  · unfold CollectMatchingSamples_directory
    split
    · rename_i hempty
      have : Samples = [] := by simpa using hempty
      subst this
      intro _
      exact ⟨rfl, by simp⟩
    · simp only
      split
      · intro h; cases h
      · intro h
        have hm : (writeManifest env Samples).2 = .ok () := by
          revert h
          cases (writeManifest env Samples).2 <;> simp [Except.map]
        obtain ⟨m1, m2⟩ := manifest_of_ok env Samples () hm
        refine ⟨?_, m2⟩
        simp only [List.filterMap_append, d3, (rowsNone _).2.2, m1, List.nil_append]

/-- Scenario 4 in both sinks: the two samples within limits are the payload, the third
(off-limits) appears in the manifest only, with one line for its one hard link. -/
theorem off_limits_samples_manifest_only_witness :
    (CollectMatchingSamples_archive okEnv afterThree400.Samples).2 = .ok .S_OK
    ∧ (CollectMatchingSamples_directory okEnv "out".toList afterThree400.Samples).2 = .ok .S_OK
    ∧ (CollectMatchingSamples_archive okEnv afterThree400.Samples).1.filterMap SinkEvent.payloadOf
        = [("000100000000000A_foo.txt_data".toList, some (.source 0 400)),
           ("000100000000000A__foo.txt_1_data".toList, some (.source 0 400))]
    ∧ ((CollectMatchingSamples_archive okEnv afterThree400.Samples).1.filterMap
          SinkEvent.rowOf).map (fun r => r[5]?)
        = [some (.WriteString "000100000000000A_foo.txt_data".toList),
           some (.WriteString "000100000000000A__foo.txt_1_data".toList),
           some .WriteNothing]
    ∧ ((CollectMatchingSamples_archive okEnv afterThree400.Samples).1.filterMap SinkEvent.rowOf
          = afterThree400.Samples.flatMap (rowsOf okEnv)
        ∧ ∀ s ∈ afterThree400.Samples, s.OffLimits = true →
            (rowsOf okEnv s).length
              = (s.Matches.flatMap (fun aMatch => aMatch.MatchingNames)).length
            ∧ ∀ r ∈ rowsOf okEnv s, r.length = 28 ∧ r[5]? = some Cell.WriteNothing) :=
  ⟨by rfl, by rfl, by rfl, by rfl,
    (off_limits_samples_manifest_only okEnv "out".toList afterThree400.Samples).2.2.1 (by rfl)⟩

/-! ### The format of sample file names -/

/-- C9 (amended). For every non-null file-name attribute `FN`, stream name `D`, index `i`
and content type `T` whose formatted text fits in `MAX_PATH - 1` characters,
`CreateSampleFileName` returns `S_OK` and produces, before sanitization: the parent
sequence number, segment high part and segment low part in upper-case hexadecimal padded
to twice their byte size, then `SEP1`, then the name of `FN`, then `'_'`, then `D` and
`'_'` when `D` is non-empty, then the decimal `i` and `'_'` when `i` is not `0`, then the
tag (names being read up to their first NUL).  `SEP1` is one or two underscores; for
`i = 0` it is `'_'` when `D` is empty and `"__"` when `D` is non-empty. -/
theorem CreateSampleFileName_format (p : Platform) (content : ContentSpec) (fn : FILE_NAME)
    (DataName : WString) (idx : Nat) (SampleFileName : WString)
    (hfit : (formatSampleFileName p content fn DataName idx).length < MAX_PATH) :
    ∃ SEP1 : WString,
      (SEP1 = "_".toList ∨ SEP1 = "__".toList)
      ∧ (idx = 0 → SEP1 = if DataName.isEmpty then "_".toList else "__".toList)
      ∧ formatSampleFileName p content fn DataName idx
          = fmtHex (p.sizeofSequenceNumber * 2) fn.ParentDirectory.SequenceNumber
            ++ fmtHex (p.sizeofSegmentNumberHighPart * 2) fn.ParentDirectory.SegmentNumberHighPart
            ++ fmtHex (p.sizeofSegmentNumberLowPart * 2) fn.ParentDirectory.SegmentNumberLowPart
            ++ SEP1 ++ cstr fn.FileName ++ "_".toList
            ++ (if DataName.isEmpty then [] else cstr DataName ++ "_".toList)
            ++ (if idx = 0 then [] else fmtDec idx ++ "_".toList)
            ++ (match content.Type_ with
                | .DATA => "data".toList
                | .STRINGS => "strings".toList
                | .RAW => "raw".toList
                | .INVALID => [])
      ∧ CreateSampleFileName p content (some fn) DataName idx SampleFileName
          = .ok (.S_OK, sanitize p (formatSampleFileName p content fn DataName idx)) := by
  have hres : CreateSampleFileName p content (some fn) DataName idx SampleFileName
      = .ok (.S_OK, sanitize p (formatSampleFileName p content fn DataName idx)) := by
    unfold CreateSampleFileName
    simp only
    rw [if_neg (by omega)]
  have htag : pContentOf content.Type_ = (match content.Type_ with
      | .DATA => "data".toList
      | .STRINGS => "strings".toList
      | .RAW => "raw".toList
      | .INVALID => []) := by
    cases content.Type_ <;> rfl
  by_cases hi : idx = 0 <;> by_cases hd : DataName = []
  · refine ⟨"_".toList, Or.inl rfl, fun _ => by simp [hd], ?_, hres⟩
    simp [formatSampleFileName, fmtParent, hi, hd, htag]
  · refine ⟨"__".toList, Or.inr rfl, fun _ => by simp [hd], ?_, hres⟩
    simp [formatSampleFileName, fmtParent, hi, hd, htag]
  · refine ⟨"__".toList, Or.inr rfl, fun h => absurd h hi, ?_, hres⟩
    simp [formatSampleFileName, fmtParent, hi, hd, htag]
  · refine ⟨"_".toList, Or.inl rfl, fun h => absurd h hi, ?_, hres⟩
    simp [formatSampleFileName, fmtParent, hi, hd, htag]

/-- With the NTFS sizes, parent `(SeqNo 0x0001, SegHi 0x0000, SegLo 0x000A)`, name
`foo.txt`, no stream name, index `0` and `DATA`: `000100000000000A_foo.txt_data`. -/
theorem CreateSampleFileName_format_witness :
    formatSampleFileName ntfsPlatform dataContent fooName [] 0
      = "000100000000000A_foo.txt_data".toList
    ∧ ∃ SEP1 : WString,
      (SEP1 = "_".toList ∨ SEP1 = "__".toList)
      ∧ ((0 : Nat) = 0 → SEP1 = if ([] : WString).isEmpty then "_".toList else "__".toList)
      ∧ formatSampleFileName ntfsPlatform dataContent fooName [] 0
          = fmtHex (ntfsPlatform.sizeofSequenceNumber * 2) fooName.ParentDirectory.SequenceNumber
            ++ fmtHex (ntfsPlatform.sizeofSegmentNumberHighPart * 2)
                fooName.ParentDirectory.SegmentNumberHighPart
            ++ fmtHex (ntfsPlatform.sizeofSegmentNumberLowPart * 2)
                fooName.ParentDirectory.SegmentNumberLowPart
            ++ SEP1 ++ cstr fooName.FileName ++ "_".toList
            ++ (if ([] : WString).isEmpty then [] else cstr [] ++ "_".toList)
            ++ (if (0 : Nat) = 0 then [] else fmtDec 0 ++ "_".toList)
            ++ (match dataContent.Type_ with
                | .DATA => "data".toList
                | .STRINGS => "strings".toList
                | .RAW => "raw".toList
                | .INVALID => [])
      ∧ CreateSampleFileName ntfsPlatform dataContent (some fooName) [] 0 []
          = .ok (.S_OK, sanitize ntfsPlatform (formatSampleFileName ntfsPlatform dataContent
              fooName [] 0)) :=
  ⟨by rfl, CreateSampleFileName_format ntfsPlatform dataContent fooName [] 0 [] (by decide)⟩

/-- C9 as stated fails.  With index `1` and no stream name the code writes two
underscores after the parent identifiers where the stated format has one; with index `1`
and a stream name it writes one where the stated format has two; and on the input of the
stated witness (no stream name, index `0`, `DATA`) the code gives
`000100000000000A_foo.txt_data`, not `0001000000000000000A__foo.txt_data`. -/
theorem CreateSampleFileName_format_counterexample :
    CreateSampleFileName ntfsPlatform dataContent (some fooName) [] 1 []
      = .ok (.S_OK, "000100000000000A__foo.txt_1_data".toList)
    ∧ formatSampleFileName ntfsPlatform dataContent fooName [] 1
      = "000100000000000A__foo.txt_1_data".toList
    ∧ specSampleFileName ntfsPlatform dataContent fooName [] 1
      = "000100000000000A_foo.txt_1_data".toList
    ∧ formatSampleFileName ntfsPlatform dataContent fooName [] 1
      ≠ specSampleFileName ntfsPlatform dataContent fooName [] 1
    ∧ formatSampleFileName ntfsPlatform dataContent fooName "ads".toList 1
      = "000100000000000A_foo.txt_ads_1_data".toList
    ∧ specSampleFileName ntfsPlatform dataContent fooName "ads".toList 1
      = "000100000000000A__foo.txt_ads_1_data".toList
    ∧ CreateSampleFileName ntfsPlatform dataContent (some fooName) [] 0 []
      = .ok (.S_OK, "000100000000000A_foo.txt_data".toList)
    ∧ formatSampleFileName ntfsPlatform dataContent fooName [] 0
      ≠ "0001000000000000000A__foo.txt_data".toList := by
  refine ⟨by rfl, by rfl, by rfl, by decide, by rfl, by rfl, by rfl, by decide⟩

/-! ### Characters of stored sample names -/

theorem sanitize_clean (p : Platform) (hus : p.iswspace '_' = false) (s : WString) :
    ∀ c ∈ sanitize p s, p.iswspace c = false ∧ c ≠ ':' ∧ c ≠ '#' := by
  intro c hc
  unfold sanitize at hc
  rw [List.mem_map] at hc
  obtain ⟨x, -, hx⟩ := hc
  split at hx
  · subst hx
    exact ⟨hus, by decide, by decide⟩
  · rename_i hno
    subst hx
    simp only [Bool.or_eq_true, beq_iff_eq, not_or] at hno
    exact ⟨by simpa using hno.1.1, hno.1.2, hno.2⟩

theorem CreateSampleFileName_result (p : Platform) (hus : p.iswspace '_' = false)
    (content : ContentSpec) (pFileName : Option FILE_NAME) (D : WString) (idx : Nat)
    (cab : WString) (hr : HRESULT) (created : WString)
    (h : CreateSampleFileName p content pFileName D idx cab = .ok (hr, created)) :
    (FAILED hr = true ∧ created = cab)
    ∨ (FAILED hr = false ∧ ∀ c ∈ created, p.iswspace c = false ∧ c ≠ ':' ∧ c ≠ '#') := by
  unfold CreateSampleFileName at h
  split at h
  · cases h
    exact Or.inl ⟨rfl, rfl⟩
  · simp only at h
    split at h
    · cases h
    · cases h
      exact Or.inr ⟨rfl, sanitize_clean p hus _⟩

theorem uniqueNameLoop_shape (env : Env) (hus : env.platform.iswspace '_' = false)
    (N : List WString) (aSpec : SampleSpec) (content : ContentSpec)
    (pFileName : Option FILE_NAME) (D : WString) (fuel : Nat) :
    ∀ (idx : Nat) (cab r : WString),
      uniqueNameLoop env N aSpec content pFileName D fuel idx cab = .ok r →
      r = cab ∨ storedNameShape env.platform aSpec r := by
  induction fuel with
  | zero =>
    intro idx cab r h
    simp only [uniqueNameLoop] at h
    cases h
  | succ fuel ih =>
    intro idx cab r h
    simp only [uniqueNameLoop] at h
    split at h
    · cases h
    rename_i hr created hc
    rcases CreateSampleFileName_result env.platform hus content pFileName D idx cab hr created hc
      with ⟨hf, hcab⟩ | ⟨hf, hclean⟩
    · rw [if_pos hf] at h
      cases h
      exact Or.inl hcab
    · rw [if_neg (by simp [hf])] at h
      have hshape : storedNameShape env.platform aSpec
          (if !aSpec.Name.isEmpty then aSpec.Name ++ ['\\'] ++ created else created) :=
        Or.inr ⟨created, rfl, hclean⟩
      generalize (if !aSpec.Name.isEmpty then aSpec.Name ++ ['\\'] ++ created else created)
        = candidate at h hshape
      by_cases hm : candidate ∈ N
      · rw [if_pos hm] at h
        rcases ih _ _ _ h with h1 | h1
        · rw [h1]; exact Or.inr hshape
        · exact Or.inr h1
      · rw [if_neg hm] at h
        cases h
        exact Or.inr hshape

theorem nameSample_shape (env : Env) (hus : env.platform.iswspace '_' = false)
    (aSpec : SampleSpec) (anAttr : AttributeMatch) (cd : Nat) (names : List NameMatch) :
    ∀ (s : SampleRef) (N : List WString) (s1 : SampleRef) (N1 : List WString),
      nameSample env aSpec anAttr cd names s N = .ok (s1, N1) →
      storedNameShape env.platform aSpec s.SampleName →
      storedNameShape env.platform aSpec s1.SampleName := by
  induction names with
  | nil =>
    intro s N s1 N1 h hq
    simp only [nameSample] at h
    cases h
    exact hq
  | cons name rest ih =>
    intro s N s1 N1 h _
    simp only [nameSample] at h
    split at h
    · cases h
    rename_i cab hc
    refine ih _ _ _ _ h ?_
    rcases uniqueNameLoop_shape env hus N aSpec _ _ _ _ _ _ _ hc with h1 | h1
    · exact Or.inl h1
    · exact h1

theorem addSamplesLoop_names (env : Env) (hus : env.platform.iswspace '_' = false)
    (status : LimitStatus) (aSpec : SampleSpec) (aMatch : Match) (attrs : List AttributeMatch) :
    ∀ (i : Nat) (hr0 : HRESULT) (m : Main) (hr : HRESULT) (m1 : Main),
      addSamplesLoop env status aSpec aMatch attrs i hr0 m = .ok (hr, m1) →
      ∃ built, m1.Samples = m.Samples ++ built
        ∧ ∀ s ∈ built, storedNameShape env.platform aSpec s.SampleName := by
  induction attrs with
  | nil =>
    intro i hr0 m hr m1 h
    simp only [addSamplesLoop] at h
    cases h
    exact ⟨[], by simp, by simp⟩
  | cons anAttr rest ih =>
    intro i hr0 m hr m1 h
    simp only [addSamplesLoop] at h
    split at h
    · exact ih _ _ _ _ _ h
    · split at h
      · cases h
      rename_i named N hn
      split at h
      · cases h
      rename_i hr1 configured hcfg
      obtain ⟨built, c5, c6⟩ := ih _ _ _ _ _ h
      have hnamed := nameSample_shape env hus aSpec anAttr _ _ _ _ _ _ hn (Or.inl rfl)
      obtain ⟨-, hsame⟩ := ConfigureSampleStreams_frame env _ _ _ _ hcfg
      refine ⟨configured :: built, by rw [c5]; simp, ?_⟩
      intro s hs
      rcases List.mem_cons.1 hs with rfl | hs
      · rw [hsame]; exact hnamed
      · exact c6 s hs

/-- C10 (amended). For every sample registered by `AddSamplesForMatch`, the stored
SampleName is either empty (the match has no hard-link name, or the last one has a null
`$FILE_NAME`), or it is the name of the spec followed by a backslash, when the spec has a
name, followed by a synthesized part that contains no whitespace character, no `':'` and
no `'#'`.  (`'_'` is not a whitespace character of the platform.) -/
theorem AddSamplesForMatch_stored_names (env : Env) (hus : env.platform.iswspace '_' = false)
    (status : LimitStatus) (aSpec : SampleSpec) (aMatch : Match) (m : Main) (hr : HRESULT)
    (m1 : Main) (h : AddSamplesForMatch env status aSpec aMatch m = .ok (hr, m1)) :
    ∃ built, m1.Samples = m.Samples ++ built
      ∧ ∀ s ∈ built, s.SampleName = [] ∨ ∃ synth : WString,
          s.SampleName = (if !aSpec.Name.isEmpty then aSpec.Name ++ ['\\'] ++ synth else synth)
          ∧ ∀ c ∈ synth, env.platform.iswspace c = false ∧ c ≠ ':' ∧ c ≠ '#' := by
  obtain ⟨hr0, hl, -, -⟩ := AddSamplesForMatch_ok env status aSpec aMatch m hr m1 h
  exact addSamplesLoop_names env hus status aSpec aMatch _ _ _ _ _ _ hl

/-- The file `a*b?.txt` under the spec `docs`: the stored name is `docs`, a backslash and
a synthesized part without white space, `':'` and `'#'`. -/
theorem AddSamplesForMatch_stored_names_witness :
    AddSamplesForMatch okEnv .SampleWithinLimits docsSpec starMatch (mkMain noLimits noLimits)
      = .ok (.S_OK, { mkMain noLimits noLimits with
          Samples := [builtSample .SampleWithinLimits starMatch (mkAttr 0 10 "") 0
            "docs\\000100000000000A_a*b?.txt_data" (.source 0 10)]
          SampleNames := ["docs\\000100000000000A_a*b?.txt_data".toList] })
    ∧ ∃ built, [builtSample .SampleWithinLimits starMatch (mkAttr 0 10 "") 0
            "docs\\000100000000000A_a*b?.txt_data" (.source 0 10)]
          = (mkMain noLimits noLimits).Samples ++ built
      ∧ ∀ s ∈ built, s.SampleName = [] ∨ ∃ synth : WString,
          s.SampleName
            = (if !docsSpec.Name.isEmpty then docsSpec.Name ++ ['\\'] ++ synth else synth)
          ∧ ∀ c ∈ synth, okEnv.platform.iswspace c = false ∧ c ≠ ':' ∧ c ≠ '#' :=
  ⟨by rfl, AddSamplesForMatch_stored_names okEnv (by rfl) .SampleWithinLimits docsSpec starMatch
    (mkMain noLimits noLimits) .S_OK _ (by rfl)⟩

/-- C10 as stated fails: the sample registered for a file named `a*b?.txt` under the spec
named `docs` is stored as `docs\000100000000000A_a*b?.txt_data`, which contains `'\'`,
`'*'` and `'?'`. -/
theorem AddSamplesForMatch_stored_names_counterexample :
    AddSamplesForMatch okEnv .SampleWithinLimits docsSpec starMatch (mkMain noLimits noLimits)
      = .ok (.S_OK, { mkMain noLimits noLimits with
          Samples := [builtSample .SampleWithinLimits starMatch (mkAttr 0 10 "") 0
            "docs\\000100000000000A_a*b?.txt_data" (.source 0 10)]
          SampleNames := ["docs\\000100000000000A_a*b?.txt_data".toList] })
    ∧ (builtSample .SampleWithinLimits starMatch (mkAttr 0 10 "") 0
        "docs\\000100000000000A_a*b?.txt_data" (.source 0 10)).SampleName
        = "docs\\000100000000000A_a*b?.txt_data".toList
    ∧ '\\' ∈ "docs\\000100000000000A_a*b?.txt_data".toList
    ∧ '*' ∈ "docs\\000100000000000A_a*b?.txt_data".toList
    ∧ '?' ∈ "docs\\000100000000000A_a*b?.txt_data".toList := by
  refine ⟨by rfl, by rfl, by decide, by decide, by decide⟩

/-- C8 as stated fails in the archive sink when `FlushQueue` fails: the sink returns the
error before the manifest loop, so the off-limits sample of scenario 4, which has one
hard link, gets no manifest line at all. -/
theorem off_limits_samples_manifest_only_counterexample :
    (CollectMatchingSamples_archive flushFailsEnv afterThree400.Samples).2 = .ok .E_FAIL
    ∧ (CollectMatchingSamples_archive flushFailsEnv afterThree400.Samples).1.filterMap
        SinkEvent.rowOf = []
    ∧ afterThree400.Samples.map (fun s =>
          (s.OffLimits, (s.Matches.flatMap (fun aMatch => aMatch.MatchingNames)).length))
        = [(false, 1), (false, 1), (true, 1)] := by
  refine ⟨by rfl, by rfl, by rfl⟩

/-! ### The columns of a manifest line -/

theorem writeRows_mem {α : Type} (f : α → Except Stop Row) (l : List α) :
    ∀ r ∈ (writeRows f l).1, ∃ a ∈ l, f a = .ok r := by
  induction l with
  | nil => simp [writeRows]
  | cons a rest ih =>
    intro r hr
    unfold writeRows at hr
    split at hr
    · simp at hr
    · rename_i row hrow
      rcases List.mem_cons.1 hr with rfl | hr
      · exact ⟨a, List.mem_cons_self _ _, hrow⟩
      · obtain ⟨b, hb, hfb⟩ := ih r hr
        exact ⟨b, List.mem_cons_of_mem _ hb, hfb⟩

theorem writeAll_mem {α : Type} (f : α → List Row × Except Stop Unit) (l : List α) :
    ∀ r ∈ (writeAll f l).1, ∃ a ∈ l, r ∈ (f a).1 := by
  induction l with
  | nil => simp [writeAll]
  | cons a rest ih =>
    intro r hr
    unfold writeAll at hr
    split at hr
    · exact ⟨a, List.mem_cons_self _ _, hr⟩
    · rcases List.mem_append.1 hr with hr | hr
      · exact ⟨a, List.mem_cons_self _ _, hr⟩
      · obtain ⟨b, hb, hfb⟩ := ih r hr
        exact ⟨b, List.mem_cons_of_mem _ hb, hfb⟩

/-- Every line `AddSampleRefToCSV` writes is the line of one hard link of one match of the
sample. -/
theorem AddSampleRefToCSV_mem (strComputerName : WString) (sample : SampleRef) :
    ∀ r ∈ (AddSampleRefToCSV strComputerName sample).1,
      ∃ aMatch ∈ sample.Matches, ∃ name ∈ aMatch.MatchingNames,
        csvRow strComputerName sample aMatch name = .ok r := by
  intro r hr
  unfold AddSampleRefToCSV at hr
  obtain ⟨aMatch, ha, hr1⟩ := writeAll_mem _ _ r hr
  obtain ⟨name, hn, hrow⟩ := writeRows_mem _ _ r hr1
  exact ⟨aMatch, ha, name, hn, hrow⟩

/-- C14. Every row written by `AddSampleRefToCSV` (a row being the cells written before
one `WriteEndOfLine`) is the row of one hard link `name` of one match of the sample and
has exactly 28 cells, in this order: ComputerName, VolumeSerialNumber, ParentFRN, FRN,
FullPath, SampleName, SampleSize, MD5, SHA1, Description, ContentType, CollectionDate,
the four StandardInfo times (creation, last write, last access, last change), the four
FileName times in the same order, AttributeType, AttributeName, InstanceID, SnapshotID,
SHA256, SSDeep, TLSH, YaraRules; the SampleName cell is empty exactly when the sample is
OffLimits, and the ContentType cell is "data" for DATA, "strings" for STRINGS and empty
for every other type. -/
theorem AddSampleRefToCSV_columns (strComputerName : WString) (sample : SampleRef) (r : Row)
    (hr : r ∈ (AddSampleRefToCSV strComputerName sample).1) :
    ∃ aMatch ∈ sample.Matches, ∃ name ∈ aMatch.MatchingNames, ∃ fn attr,
      name.FILENAME = some fn
      ∧ aMatch.MatchingAttributes[sample.AttributeIndex]? = some attr
      ∧ r.length = 28
      ∧ r[0]? = some (.WriteString strComputerName)
      ∧ r[1]? = some (.WriteInteger aMatch.VolumeReader.VolumeSerialNumber)
      ∧ r[2]? = some (.WriteInteger (quadPart fn.ParentDirectory))
      ∧ r[3]? = some (.WriteInteger aMatch.FRN)
      ∧ r[4]? = some (.WriteString name.FullPathName)
      ∧ (r[5]? = some .WriteNothing ↔ sample.OffLimits = true)
      ∧ (sample.OffLimits = false → r[5]? = some (.WriteString sample.SampleName))
      ∧ r[6]? = some (.WriteFileSize sample.SampleSize)
      ∧ r[7]? = some (.WriteBytes sample.MD5)
      ∧ r[8]? = some (.WriteBytes sample.SHA1)
      ∧ r[9]? = some (.WriteString aMatch.Term.Description)
      ∧ (sample.Content.Type_ = .DATA → r[10]? = some (.WriteString "data".toList))
      ∧ (sample.Content.Type_ = .STRINGS → r[10]? = some (.WriteString "strings".toList))
      ∧ (sample.Content.Type_ ≠ .DATA → sample.Content.Type_ ≠ .STRINGS →
          r[10]? = some .WriteNothing)
      ∧ r[11]? = some (.WriteFileTime sample.CollectionDate)
      ∧ r[12]? = some (.WriteFileTime aMatch.StandardInformation.CreationTime)
      ∧ r[13]? = some (.WriteFileTime aMatch.StandardInformation.LastModificationTime)
      ∧ r[14]? = some (.WriteFileTime aMatch.StandardInformation.LastAccessTime)
      ∧ r[15]? = some (.WriteFileTime aMatch.StandardInformation.LastChangeTime)
      ∧ r[16]? = some (.WriteFileTime fn.Info.CreationTime)
      ∧ r[17]? = some (.WriteFileTime fn.Info.LastModificationTime)
      ∧ r[18]? = some (.WriteFileTime fn.Info.LastAccessTime)
      ∧ r[19]? = some (.WriteFileTime fn.Info.LastChangeTime)
      ∧ r[20]? = some (.WriteExactFlags attr.Type_)
      ∧ r[21]? = some (.WriteString attr.AttrName)
      ∧ r[22]? = some (.WriteInteger (sample.InstanceID % 4294967296))
      ∧ r[23]? = some (.WriteGUID sample.SnapshotID)
      ∧ r[24]? = some (.WriteBytes sample.SHA256)
      ∧ r[25]? = some (.WriteBytes sample.SSDeep)
      ∧ r[26]? = some (.WriteBytes sample.TLSH)
      ∧ (attr.YaraRules = none → r[27]? = some .WriteNothing)
      ∧ (∀ rules, attr.YaraRules = some rules →
          r[27]? = some (.WriteString (joinRules rules))) := by
  obtain ⟨aMatch, ha, name, hn, hrow⟩ := AddSampleRefToCSV_mem strComputerName sample r hr
  refine ⟨aMatch, ha, name, hn, ?_⟩
  unfold csvRow at hrow
  split at hrow
  · rename_i fn attr hfn hattr
    cases hrow
    refine ⟨fn, attr, hfn, hattr, rfl, rfl, rfl, rfl, rfl, rfl, ?_, ?_, rfl, rfl, rfl, rfl,
      ?_, ?_, ?_, rfl, rfl, rfl, rfl, rfl, rfl, rfl, rfl, rfl, rfl, rfl, rfl, rfl, rfl, rfl, rfl,
      ?_, ?_⟩
    · cases sample.OffLimits <;> simp
    · intro h; simp [h]
    · intro h; simp [h]
    · intro h; simp [h]
    · intro h1 h2
      cases hc : sample.Content.Type_ <;> simp_all
    · intro h; simp [h]
    · intro rules h; simp [h]
  · cases hrow


/-- The one line written for `fooSample`, a `DATA` sample within limits with one hard
link. -/
theorem AddSampleRefToCSV_columns_witness :
    (AddSampleRefToCSV "HOST".toList fooSample).1 = [fooRow]
    ∧
    ∃ aMatch ∈ fooSample.Matches, ∃ name ∈ aMatch.MatchingNames, ∃ fn attr,
      name.FILENAME = some fn
      ∧ aMatch.MatchingAttributes[fooSample.AttributeIndex]? = some attr
      ∧ fooRow.length = 28
      ∧ fooRow[0]? = some (.WriteString "HOST".toList)
      ∧ fooRow[1]? = some (.WriteInteger aMatch.VolumeReader.VolumeSerialNumber)
      ∧ fooRow[2]? = some (.WriteInteger (quadPart fn.ParentDirectory))
      ∧ fooRow[3]? = some (.WriteInteger aMatch.FRN)
      ∧ fooRow[4]? = some (.WriteString name.FullPathName)
      ∧ (fooRow[5]? = some .WriteNothing ↔ fooSample.OffLimits = true)
      ∧ (fooSample.OffLimits = false → fooRow[5]? = some (.WriteString fooSample.SampleName))
      ∧ fooRow[6]? = some (.WriteFileSize fooSample.SampleSize)
      ∧ fooRow[7]? = some (.WriteBytes fooSample.MD5)
      ∧ fooRow[8]? = some (.WriteBytes fooSample.SHA1)
      ∧ fooRow[9]? = some (.WriteString aMatch.Term.Description)
      ∧ (fooSample.Content.Type_ = .DATA → fooRow[10]? = some (.WriteString "data".toList))
      ∧ (fooSample.Content.Type_ = .STRINGS → fooRow[10]? = some (.WriteString "strings".toList))
      ∧ (fooSample.Content.Type_ ≠ .DATA → fooSample.Content.Type_ ≠ .STRINGS →
          fooRow[10]? = some .WriteNothing)
      ∧ fooRow[11]? = some (.WriteFileTime fooSample.CollectionDate)
      ∧ fooRow[12]? = some (.WriteFileTime aMatch.StandardInformation.CreationTime)
      ∧ fooRow[13]? = some (.WriteFileTime aMatch.StandardInformation.LastModificationTime)
      ∧ fooRow[14]? = some (.WriteFileTime aMatch.StandardInformation.LastAccessTime)
      ∧ fooRow[15]? = some (.WriteFileTime aMatch.StandardInformation.LastChangeTime)
      ∧ fooRow[16]? = some (.WriteFileTime fn.Info.CreationTime)
      ∧ fooRow[17]? = some (.WriteFileTime fn.Info.LastModificationTime)
      ∧ fooRow[18]? = some (.WriteFileTime fn.Info.LastAccessTime)
      ∧ fooRow[19]? = some (.WriteFileTime fn.Info.LastChangeTime)
      ∧ fooRow[20]? = some (.WriteExactFlags attr.Type_)
      ∧ fooRow[21]? = some (.WriteString attr.AttrName)
      ∧ fooRow[22]? = some (.WriteInteger (fooSample.InstanceID % 4294967296))
      ∧ fooRow[23]? = some (.WriteGUID fooSample.SnapshotID)
      ∧ fooRow[24]? = some (.WriteBytes fooSample.SHA256)
      ∧ fooRow[25]? = some (.WriteBytes fooSample.SSDeep)
      ∧ fooRow[26]? = some (.WriteBytes fooSample.TLSH)
      ∧ (attr.YaraRules = none → fooRow[27]? = some .WriteNothing)
      ∧ (∀ rules, attr.YaraRules = some rules →
          fooRow[27]? = some (.WriteString (joinRules rules))) :=
  ⟨by rfl, AddSampleRefToCSV_columns "HOST".toList fooSample fooRow (List.mem_singleton.2 rfl)⟩

/-! ### The pipeline built by `ConfigureSampleStreams` -/

theorem sourceStream_ok (env : Env) (config : Configuration) (s : SampleRef)
    (attr : AttributeMatch) (stream : ByteStream)
    (h : sourceStream env config s attr = .ok stream) :
    stream = specSource config s.Content attr := by
  unfold sourceStream at h
  unfold specSource
  split at h
  · rename_i hc; cases h; simp [hc]
  · rename_i hc
    simp only [hc]
    split at h
    · rename_i hz
      simp only at h
      split at h
      · cases h
      · cases h
        rw [if_pos ⟨hz.2, hz.1⟩]
    · rename_i hz
      simp only at h
      split at h
      · cases h
      · cases h
        rw [if_neg (fun hh => hz ⟨hh.2, hh.1⟩)]
  · rename_i hc; cases h; simp [hc]
  · rename_i hc; cases h; simp [hc]

theorem cryptoLayer_ok (env : Env) (config : Configuration) (stream up : ByteStream)
    (s s1 : SampleRef) (h : cryptoLayer env config stream s = .ok (up, s1)) :
    up = (if config.CryptoHashAlgs ≠ 0 then .cryptoHash config.CryptoHashAlgs stream else stream)
    ∧ s1.HashStream = (if config.CryptoHashAlgs ≠ 0
        then some (.cryptoHash config.CryptoHashAlgs stream) else s.HashStream)
    ∧ s1.FuzzyHashStream = s.FuzzyHashStream := by
  simp only [cryptoLayer] at h
  split_ifs at h with h1 h2
  · cases h
    simp [h1]
  · cases h
    simp [h1]

theorem fuzzyLayer_ok (env : Env) (config : Configuration) (stream up : ByteStream)
    (s s1 : SampleRef) (h : fuzzyLayer env config stream s = .ok (up, s1)) :
    up = (if config.FuzzyHashAlgs ≠ 0 then .fuzzyHash config.FuzzyHashAlgs stream else stream)
    ∧ s1.FuzzyHashStream = (if config.FuzzyHashAlgs ≠ 0
        then some (.fuzzyHash config.FuzzyHashAlgs stream) else s.FuzzyHashStream)
    ∧ s1.HashStream = s.HashStream := by
  simp only [fuzzyLayer] at h
  split_ifs at h with h1 h2
  · cases h
    simp [h1]
  · cases h
    simp [h1]

/-- C16. When `ConfigureSampleStreams` succeeds, the head `CopyStream` is
`fuzzy(crypto(source))`: the source is the attribute's `DataStream` for `DATA` and for
any unrecognised type, its `RawStream` for `RAW`, a strings reader over the `DataStream`
for `STRINGS`; the crypto-hash layer is present exactly when `config.CryptoHashAlgs` is
not `Undefined`, the fuzzy-hash layer exactly when `config.FuzzyHashAlgs` is not
`Undefined`, the fuzzy layer is outermost, the `HashStream` / `FuzzyHashStream` handle of
the sample is set (to its layer) exactly when the layer is present, and with both
undefined the head is the source itself. -/
theorem ConfigureSampleStreams_pipeline (env : Env) (config : Configuration)
    (s s1 : SampleRef) (h : ConfigureSampleStreams env config s = .ok (.S_OK, s1)) :
    ∃ front attr,
      s.Matches.head? = some front
      ∧ front.MatchingAttributes[s.AttributeIndex]? = some attr
      ∧ s1.CopyStream = some (specPipeline config.CryptoHashAlgs config.FuzzyHashAlgs
          (specSource config s.Content attr))
      ∧ s1.SampleSize = env.GetSize (specPipeline config.CryptoHashAlgs config.FuzzyHashAlgs
          (specSource config s.Content attr))
      ∧ s1.HashStream = (if config.CryptoHashAlgs ≠ 0
          then some (.cryptoHash config.CryptoHashAlgs (specSource config s.Content attr))
          else s.HashStream)
      ∧ s1.FuzzyHashStream = (if config.FuzzyHashAlgs ≠ 0
          then some (specPipeline config.CryptoHashAlgs config.FuzzyHashAlgs
            (specSource config s.Content attr))
          else s.FuzzyHashStream)
      ∧ (s.HashStream = none → (s1.HashStream.isSome = true ↔ config.CryptoHashAlgs ≠ 0))
      ∧ (s.FuzzyHashStream = none →
          (s1.FuzzyHashStream.isSome = true ↔ config.FuzzyHashAlgs ≠ 0))
      ∧ (config.CryptoHashAlgs = 0 → config.FuzzyHashAlgs = 0 →
          s1.CopyStream = some (specSource config s.Content attr))
      ∧ (config.FuzzyHashAlgs ≠ 0 →
          ∃ inner, s1.CopyStream = some (.fuzzyHash config.FuzzyHashAlgs inner)) := by
  unfold ConfigureSampleStreams at h
  split at h
  · cases h
  rename_i front hfront
  split at h
  · cases h
  rename_i attr hattr
  split at h
  · cases h
  split at h
  · rename_i hr hs
    simp only [Except.ok.injEq, Prod.mk.injEq] at h
    have hfail : FAILED hr = true := by
      unfold sourceStream at hs
      split at hs
      · cases hs
      · split at hs <;> simp only at hs <;> split at hs
        · rename_i hf; cases hs; exact hf
        · cases hs
        · rename_i hf; cases hs; exact hf
        · cases hs
      · cases hs
      · cases hs
    rw [h.1] at hfail
    cases hfail
  rename_i stream hs
  have hsrc := sourceStream_ok env config s attr stream hs
  split at h
  · rename_i r hc
    cases h
    simp only [cryptoLayer] at hc
    split_ifs at hc with h1 h2
    simp only [Except.error.injEq, Prod.mk.injEq] at hc
    rw [hc.1] at h2
    cases h2
  rename_i up s2 hc
  obtain ⟨c1, c2, c3⟩ := cryptoLayer_ok env config stream up s s2 hc
  split at h
  · rename_i r hf
    cases h
    simp only [fuzzyLayer] at hf
    split_ifs at hf with h1 h2
    simp only [Except.error.injEq, Prod.mk.injEq] at hf
    rw [hf.1] at h2
    cases h2
  rename_i up2 s3 hf
  obtain ⟨f1, f2, f3⟩ := fuzzyLayer_ok env config up up2 s2 s3 hf
  cases h
  have hhead : up2 = specPipeline config.CryptoHashAlgs config.FuzzyHashAlgs
      (specSource config s.Content attr) := by
    rw [f1, c1, hsrc]
    rfl
  refine ⟨front, attr, hfront, hattr, ?_, ?_, ?_, ?_, ?_, ?_, ?_, ?_⟩
  · simp [hhead]
  · simp [hhead]
  · show s3.HashStream = _
    rw [f3, c2, hsrc]
  · show s3.FuzzyHashStream = _
    rw [f2, c3, ← hhead, f1]
    split_ifs <;> rfl
  · intro hnone
    show s3.HashStream.isSome = true ↔ _
    rw [f3, c2, hnone]
    split_ifs with hz <;> simp [hz]
  · intro hnone
    show s3.FuzzyHashStream.isSome = true ↔ _
    rw [f2, c3, hnone]
    split_ifs with hz <;> simp [hz]
  · intro hc0 hf0
    simp [hhead, specPipeline, hc0, hf0]
  · intro hf0
    refine ⟨up, ?_⟩
    show some up2 = _
    rw [f1, if_pos hf0]


/-- `DATA` content with crypto algorithms `1` and fuzzy algorithms `2`: the head is
`fuzzy(crypto(DataStream))`. -/
theorem ConfigureSampleStreams_pipeline_witness :
    ConfigureSampleStreams okEnv hashingMain.config namedFoo = .ok (.S_OK, hashedFoo)
    ∧ hashedFoo.CopyStream = some (.fuzzyHash 2 (.cryptoHash 1 (.source 0 10)))
    ∧
    ∃ front attr,
      namedFoo.Matches.head? = some front
      ∧ front.MatchingAttributes[namedFoo.AttributeIndex]? = some attr
      ∧ hashedFoo.CopyStream = some (specPipeline hashingMain.config.CryptoHashAlgs hashingMain.config.FuzzyHashAlgs
          (specSource hashingMain.config namedFoo.Content attr))
      ∧ hashedFoo.SampleSize = okEnv.GetSize (specPipeline hashingMain.config.CryptoHashAlgs hashingMain.config.FuzzyHashAlgs
          (specSource hashingMain.config namedFoo.Content attr))
      ∧ hashedFoo.HashStream = (if hashingMain.config.CryptoHashAlgs ≠ 0
          then some (.cryptoHash hashingMain.config.CryptoHashAlgs (specSource hashingMain.config namedFoo.Content attr))
          else namedFoo.HashStream)
      ∧ hashedFoo.FuzzyHashStream = (if hashingMain.config.FuzzyHashAlgs ≠ 0
          then some (specPipeline hashingMain.config.CryptoHashAlgs hashingMain.config.FuzzyHashAlgs
            (specSource hashingMain.config namedFoo.Content attr))
          else namedFoo.FuzzyHashStream)
      ∧ (namedFoo.HashStream = none → (hashedFoo.HashStream.isSome = true ↔ hashingMain.config.CryptoHashAlgs ≠ 0))
      ∧ (namedFoo.FuzzyHashStream = none →
          (hashedFoo.FuzzyHashStream.isSome = true ↔ hashingMain.config.FuzzyHashAlgs ≠ 0))
      ∧ (hashingMain.config.CryptoHashAlgs = 0 → hashingMain.config.FuzzyHashAlgs = 0 →
          hashedFoo.CopyStream = some (specSource hashingMain.config namedFoo.Content attr))
      ∧ (hashingMain.config.FuzzyHashAlgs ≠ 0 →
          ∃ inner, hashedFoo.CopyStream = some (.fuzzyHash hashingMain.config.FuzzyHashAlgs inner)) :=
  ⟨by rfl, by rfl,
    ConfigureSampleStreams_pipeline okEnv hashingMain.config namedFoo hashedFoo (by rfl)⟩

/-! ### Samples whose pipeline could not be built, and failures in the sinks -/

/-- C17 (the code at the failing input). One match within limits, crypto algorithms
selected, and a crypto-hash tap that cannot be opened: `ConfigureSampleStreams` fails and
the sample is registered without `CopyStream`, but with `OffLimits = false`.  The archive
sink therefore passes the nil stream to `AddStream`, and the directory sink creates the
output file and then dereferences the nil stream, before any manifest row is written. -/
theorem failed_pipeline_is_not_off_limits :
    ConfigureSampleStreams cryptoFailsEnv hashingMain.config namedFoo = .ok (.E_FAIL, brokenFoo)
    ∧ AddSamplesForMatch cryptoFailsEnv .SampleWithinLimits (spec1 noLimits) fooMatch hashingMain
      = .ok (.S_OK, { hashingMain with
          Samples := [brokenFoo]
          SampleNames := ["000100000000000A_foo.txt_data".toList] })
    ∧ brokenFoo.CopyStream = none
    ∧ brokenFoo.OffLimits = false
    ∧ (CollectMatchingSamples_archive cryptoFailsEnv [brokenFoo]).1.filterMap SinkEvent.payloadOf
      = [("000100000000000A_foo.txt_data".toList, none)]
    ∧ CollectMatchingSamples_directory cryptoFailsEnv "out".toList [brokenFoo]
      = ([.WriteTo "out".toList "000100000000000A_foo.txt_data".toList], .error .fault) := by
  refine ⟨by rfl, by rfl, by rfl, by rfl, by rfl, by rfl⟩

/-- C19 (the code at the failing input). Directory sink, two samples within limits, the
output file of the first cannot be created: the loop is left, the second sample is never
written (no file, no copy), the manifest rows of both are written and the sink returns
`S_OK`.  In the archive sink a refused `AddStream` does not stop the loop: the second
sample is still added. -/
theorem directory_sink_stops_at_first_failure :
    afterTwo400.Samples.map (fun s => (s.SampleName, s.OffLimits))
      = [("000100000000000A_foo.txt_data".toList, false),
         ("000100000000000A__foo.txt_1_data".toList, false)]
    ∧ (CollectMatchingSamples_directory writeFailsEnv "out".toList afterTwo400.Samples).2
      = .ok .S_OK
    ∧ (CollectMatchingSamples_directory writeFailsEnv "out".toList afterTwo400.Samples).1.filterMap
        SinkEvent.fileOf = ["000100000000000A_foo.txt_data".toList]
    ∧ (CollectMatchingSamples_directory writeFailsEnv "out".toList afterTwo400.Samples).1.filterMap
        SinkEvent.payloadOf = []
    ∧ ((CollectMatchingSamples_directory writeFailsEnv "out".toList afterTwo400.Samples).1.filterMap
        SinkEvent.rowOf).length = 2
    ∧ (CollectMatchingSamples_archive addFailsEnv afterTwo400.Samples).1.filterMap
        SinkEvent.payloadOf
      = [("000100000000000A_foo.txt_data".toList, some (.source 0 400)),
         ("000100000000000A__foo.txt_1_data".toList, some (.source 0 400))] := by
  refine ⟨by rfl, by rfl, by rfl, by rfl, by rfl, by rfl⟩

/-! ### The archive sink: order of operations and finalization failures -/

theorem filterMap_rowOf_rows (rows : List Row) :
    (rows.map SinkEvent.WriteRow).filterMap SinkEvent.rowOf = rows := by
  induction rows with
  | nil => rfl
  | cons r rest ih => simpa [SinkEvent.rowOf] using ih

theorem archivePayload_ok_aux (env : Env) (u : Unit) (Samples : List SampleRef) :
    ∀ r : List SinkEvent × Except Stop Unit, archivePayload env Samples = r → r.2 = .ok u →
      r.1.filterMap SinkEvent.payloadOf
          = (Samples.filter (fun s => !s.OffLimits)).map (fun s => (s.SampleName, s.CopyStream))
      ∧ ∀ e ∈ r.1, ∃ szName szDisplay stream,
          e = SinkEvent.AddStream szName szDisplay stream := by
  induction Samples with
  | nil =>
    intro r hr _
    simp only [archivePayload] at hr
    subst hr
    simp
  | cons s rest ih =>
    intro r hr h
    unfold archivePayload at hr
    split at hr
    · rename_i hoff
      split at hr
      · subst hr; cases h
      · split at hr
        · subst hr
          obtain ⟨i1, i2⟩ := ih _ rfl h
          refine ⟨?_, ?_⟩
          · simp [SinkEvent.payloadOf, i1, hoff]
          · intro e he
            rcases List.mem_cons.1 he with rfl | he
            · exact ⟨_, _, _, rfl⟩
            · exact i2 e he
        · subst hr; cases h
    · rename_i hoff
      obtain ⟨i1, i2⟩ := ih _ hr h
      exact ⟨by simp [i1, hoff], i2⟩

/-- The first loop of the archive sink, when it runs to its end: one `AddStream` per
sample within limits, in registry order. -/
theorem archivePayload_ok (env : Env) (Samples : List SampleRef) (u : Unit)
    (h : (archivePayload env Samples).2 = .ok u) :
    (archivePayload env Samples).1.filterMap SinkEvent.payloadOf
        = (Samples.filter (fun s => !s.OffLimits)).map (fun s => (s.SampleName, s.CopyStream))
    ∧ ∀ e ∈ (archivePayload env Samples).1, ∃ szName szDisplay stream,
        e = SinkEvent.AddStream szName szDisplay stream :=
  archivePayload_ok_aux env u Samples _ rfl h

/-- The archive sink, when it returns a value that is not a failure: both loops ran to
their end, the queue was flushed, and the trace is payload, `FlushQueue`, manifest. -/
theorem archive_sink_ok (env : Env) (Samples : List SampleRef) (hr : HRESULT)
    (h : (CollectMatchingSamples_archive env Samples).2 = .ok hr) (hok : FAILED hr = false) :
    (archivePayload env Samples).2 = .ok ()
    ∧ FAILED env.FlushQueue = false
    ∧ (writeManifest env Samples).2 = .ok ()
    ∧ hr = .S_OK
    ∧ (CollectMatchingSamples_archive env Samples).1
        = (archivePayload env Samples).1 ++ [.FlushQueue]
          ++ (writeManifest env Samples).1.map .WriteRow := by
  unfold CollectMatchingSamples_archive at h ⊢
  simp only at h ⊢
  split at h
  · cases h
  · rename_i u hp
    split at h
    · rename_i hfail
      simp only [Except.ok.injEq] at h
      rw [h, hok] at hfail
      cases hfail
    · rename_i hflush
      have hm : (writeManifest env Samples).2 = .ok () ∧ hr = .S_OK := by
        revert h
        cases (writeManifest env Samples).2 <;> simp [Except.map]
        intro h; exact h.symm
      refine ⟨hp, by simpa using hflush, hm.1, hm.2, ?_⟩
      rw [if_neg hflush]

/-- C13 (amended). In every successful run of the archive sink, the operations are, in
this order: one `AddStream` per sample that is not off-limits (in registry order), then
`FlushQueue`, then the manifest rows of every sample, then `AddStream` of `GetThis.csv`
when the manifest stream is not empty, then `AddStream` of `GetThis.log` when the log
stream is not empty, then `Complete`: no sample payload is added after the manifest, the
manifest precedes the log, and every manifest row is written after `FlushQueue`. -/
theorem archive_sink_order (env : Env) (out : OutputEnv) (outputPath : WString)
    (Samples : List SampleRef)
    (h : (CollectMatchingSamples env out .Archive outputPath Samples).2 = .ok .S_OK) :
    ∃ payload : List SinkEvent,
      (CollectMatchingSamples env out .Archive outputPath Samples).1
        = payload ++ [.FlushQueue]
          ++ (Samples.flatMap (rowsOf env)).map .WriteRow
          ++ (if out.CsvStreamSize (Samples.flatMap (rowsOf env)) ≠ 0 then
                [.AddStream "GetThis.csv".toList "GetThis.csv".toList (some .csvStream)]
              else [])
          ++ (if out.LogStreamSize > 0 then
                [.AddStream "GetThis.log".toList "GetThis.log".toList (some .logStream)]
              else [])
          ++ [.Complete]
      ∧ payload.filterMap SinkEvent.payloadOf
          = (Samples.filter (fun s => !s.OffLimits)).map (fun s => (s.SampleName, s.CopyStream))
      ∧ ∀ e ∈ payload, ∃ szName szDisplay stream,
          e = SinkEvent.AddStream szName szDisplay stream := by
  have aux : ∀ r : List SinkEvent × Except Stop HRESULT,
      CollectMatchingSamples env out .Archive outputPath Samples = r → r.2 = .ok .S_OK →
      ∃ payload : List SinkEvent,
        r.1 = payload ++ [.FlushQueue]
          ++ (Samples.flatMap (rowsOf env)).map .WriteRow
          ++ (if out.CsvStreamSize (Samples.flatMap (rowsOf env)) ≠ 0 then
                [.AddStream "GetThis.csv".toList "GetThis.csv".toList (some .csvStream)]
              else [])
          ++ (if out.LogStreamSize > 0 then
                [.AddStream "GetThis.log".toList "GetThis.log".toList (some .logStream)]
              else [])
          ++ [.Complete]
        ∧ payload.filterMap SinkEvent.payloadOf
            = (Samples.filter (fun s => !s.OffLimits)).map (fun s => (s.SampleName, s.CopyStream))
        ∧ ∀ e ∈ payload, ∃ szName szDisplay stream,
            e = SinkEvent.AddStream szName szDisplay stream := by
    intro r hr h
    unfold CollectMatchingSamples at hr
    simp only at hr
    split at hr
    · rename_i hr0 hc
      subst hr
      simp only [Except.ok.injEq] at h
      exfalso
      unfold CreateCompressor at hc
      split_ifs at hc <;> cases hc <;> simp_all [FAILED]
    split at hr
    · rename_i hr0 hc
      subst hr
      simp only [Except.ok.injEq] at h
      exfalso
      unfold CreateLogStream at hc
      split_ifs at hc <;> cases hc <;> simp_all [FAILED]
    split at hr
    · rename_i hr0 hc
      subst hr
      simp only [Except.ok.injEq] at h
      exfalso
      unfold CreateCsvWriter at hc
      split_ifs at hc <;> cases hc <;> simp_all [FAILED]
    split at hr
    · subst hr; cases h
    rename_i hr0 hin
    split at hr
    · rename_i hfail
      subst hr
      simp only [Except.ok.injEq] at h
      rw [h] at hfail
      cases hfail
    rename_i hnf
    obtain ⟨hp, -, hm, -, htrace⟩ := archive_sink_ok env Samples hr0 hin (by simpa using hnf)
    obtain ⟨m1, -⟩ := writeManifest_ok env Samples () hm
    obtain ⟨p1, p2⟩ := archivePayload_ok env Samples () hp
    have hrows : (CollectMatchingSamples_archive env Samples).1.filterMap SinkEvent.rowOf
        = Samples.flatMap (rowsOf env) := by
      rw [htrace]
      simp only [List.filterMap_append, (archivePayload_trace env Samples).2.2,
        filterMap_rowOf_rows, m1]
      simp [SinkEvent.rowOf]
    refine ⟨(archivePayload env Samples).1, ?_, p1, p2⟩
    have hr1 : r.1 = (CollectMatchingSamples_archive env Samples).1
        ++ (finalizeArchive env out
            ((CollectMatchingSamples_archive env Samples).1.filterMap SinkEvent.rowOf)).1 := by
      split at hr <;> subst hr <;> rfl
    rw [hr1, hrows, htrace, m1]
    simp only [finalizeArchive, List.append_assoc]
  exact aux _ rfl h


/-- Two samples within limits: the members of the archive are, in order, the first
sample, the second sample, `GetThis.csv`, `GetThis.log`. -/
theorem archive_sink_order_witness :
    (CollectMatchingSamples okEnv okOut .Archive "out.7z".toList afterTwo400.Samples).2
      = .ok .S_OK
    ∧ (CollectMatchingSamples okEnv okOut .Archive "out.7z".toList afterTwo400.Samples).1.filterMap
        SinkEvent.memberOf
      = ["000100000000000A_foo.txt_data".toList, "000100000000000A__foo.txt_1_data".toList,
         "GetThis.csv".toList, "GetThis.log".toList]
    ∧
    ∃ payload : List SinkEvent,
      (CollectMatchingSamples okEnv okOut .Archive "out.7z".toList afterTwo400.Samples).1
        = payload ++ [.FlushQueue]
          ++ (afterTwo400.Samples.flatMap (rowsOf okEnv)).map .WriteRow
          ++ (if okOut.CsvStreamSize (afterTwo400.Samples.flatMap (rowsOf okEnv)) ≠ 0 then
                [.AddStream "GetThis.csv".toList "GetThis.csv".toList (some .csvStream)]
              else [])
          ++ (if okOut.LogStreamSize > 0 then
                [.AddStream "GetThis.log".toList "GetThis.log".toList (some .logStream)]
              else [])
          ++ [.Complete]
      ∧ payload.filterMap SinkEvent.payloadOf
          = (afterTwo400.Samples.filter (fun s => !s.OffLimits)).map (fun s => (s.SampleName, s.CopyStream))
      ∧ ∀ e ∈ payload, ∃ szName szDisplay stream,
          e = SinkEvent.AddStream szName szDisplay stream :=
  ⟨by rfl, by rfl,
    archive_sink_order okEnv okOut "out.7z".toList afterTwo400.Samples (by rfl)⟩

/-- C13 as stated fails when one of the two closing streams is empty: with a logger that
has written nothing the run succeeds and no `GetThis.log` is added; with an empty registry
and a manifest stream that is empty as long as no line was written, the run succeeds and
no `GetThis.csv` is added. -/
theorem archive_sink_order_counterexample :
    (CollectMatchingSamples okEnv quietOut .Archive "out.7z".toList afterTwo400.Samples).2
      = .ok .S_OK
    ∧ (CollectMatchingSamples okEnv quietOut .Archive "out.7z".toList
        afterTwo400.Samples).1.filterMap SinkEvent.memberOf
      = ["000100000000000A_foo.txt_data".toList, "000100000000000A__foo.txt_1_data".toList,
         "GetThis.csv".toList]
    ∧ CollectMatchingSamples okEnv bareCsvOut .Archive "out.7z".toList []
      = ([.FlushQueue,
          .AddStream "GetThis.log".toList "GetThis.log".toList (some .logStream),
          .Complete], .ok .S_OK) := by
  refine ⟨by rfl, by rfl, by rfl⟩

/-- `HashOffLimitSamples` returns `S_OK` whenever it returns. -/
theorem HashOffLimitSamples_result (env : Env) (Samples : List SampleRef) (hr : HRESULT)
    (h : (HashOffLimitSamples env Samples).2 = .ok hr) : hr = .S_OK := by
  induction Samples with
  | nil =>
    simp only [HashOffLimitSamples, Except.ok.injEq] at h
    exact h.symm
  | cons s rest ih =>
    unfold HashOffLimitSamples at h
    split at h
    · exact ih h
    · split at h
      · cases h
      · split at h
        · simp only [Except.ok.injEq] at h
          exact h.symm
        · exact ih h

/-- The `Archive` case of `CollectMatchingSamples` when the output could be set up: the
archive sink, then the finalization unless the sink failed. -/
theorem CollectMatchingSamples_archive_case (env : Env) (out : OutputEnv) (outputPath : WString)
    (Samples : List SampleRef)
    (hc : CreateCompressor out = .ok ()) (hl : CreateLogStream out = .ok ())
    (hw : CreateCsvWriter out = .ok ()) :
    CollectMatchingSamples env out .Archive outputPath Samples
      = match (CollectMatchingSamples_archive env Samples).2 with
        | .error e => ((CollectMatchingSamples_archive env Samples).1, .error e)
        | .ok hr =>
          if FAILED hr then ((CollectMatchingSamples_archive env Samples).1, .ok hr)
          else
            let final := finalizeArchive env out
              ((CollectMatchingSamples_archive env Samples).1.filterMap SinkEvent.rowOf)
            if FAILED final.2 then
              ((CollectMatchingSamples_archive env Samples).1 ++ final.1, .ok final.2)
            else ((CollectMatchingSamples_archive env Samples).1 ++ final.1, .ok .S_OK) := by
  unfold CollectMatchingSamples
  simp only [hc, hl, hw]

/-- The hasher phase of `Run` returns `S_OK` whenever it returns. -/
theorem hashPhase_result (env : Env) (m : Main) (hr : HRESULT)
    (h : (hashPhase env m).2 = .ok hr) : hr = .S_OK := by
  unfold hashPhase at h
  split at h
  · exact HashOffLimitSamples_result env _ hr h
  · simp only [Except.ok.injEq] at h
    exact h.symm

/-- `Run` once the matches were ingested and the hasher phase returned: the trace is that
of the hasher followed by that of the sink, and the value is the value of the sink when
that is a failure, `S_OK` otherwise. -/
theorem Run_after_hasher (env : Env) (out : OutputEnv) (outputType : OutputType)
    (outputPath : WString) (found : List (Option Match)) (m m1 : Main) (hr : HRESULT)
    (hi : ingestMatches env found m = .ok m1)
    (hh : (hashPhase env m1).2 = .ok hr) :
    (Run env out outputType outputPath found m).1
      = (hashPhase env m1).1 ++ (CollectMatchingSamples env out outputType outputPath m1.Samples).1
    ∧ (Run env out outputType outputPath found m).2
      = match (CollectMatchingSamples env out outputType outputPath m1.Samples).2 with
        | .error e => .error e
        | .ok hr2 => if FAILED hr2 then .ok hr2 else .ok .S_OK := by
  have hok := hashPhase_result env m1 hr hh
  subst hok
  unfold Run FindMatchingSamples
  simp only [hi, hh]
  rw [if_neg (by decide), if_neg (by decide)]
  cases (CollectMatchingSamples env out outputType outputPath m1.Samples).2 with
  | error e => exact ⟨rfl, rfl⟩
  | ok hr2 =>
    simp only
    split_ifs <;> exact ⟨rfl, rfl⟩

/-- C20. Let the archive output be set up and the first loop of the archive sink run to
its end.  If `FlushQueue` fails with error `e`, the archive sink returns `e` having
written no manifest row, and `CollectMatchingSamples` returns `e` having added neither
`GetThis.csv` nor `GetThis.log` and without calling `Complete` (its operations are the
`AddStream` of the samples and `FlushQueue`, nothing else); if `Complete` fails with
error `e`, `CollectMatchingSamples` returns `e`; and whenever the sink returns a failure
`e`, `Run` returns that same `e`. -/
theorem archive_finalization_failure (env : Env) (out : OutputEnv) (outputPath : WString)
    (Samples : List SampleRef)
    (hc : CreateCompressor out = .ok ()) (hl : CreateLogStream out = .ok ())
    (hw : CreateCsvWriter out = .ok ())
    (hp : (archivePayload env Samples).2 = .ok ()) :
    (FAILED env.FlushQueue = true →
      CollectMatchingSamples_archive env Samples
        = ((archivePayload env Samples).1 ++ [.FlushQueue], .ok env.FlushQueue)
      ∧ CollectMatchingSamples env out .Archive outputPath Samples
        = ((archivePayload env Samples).1 ++ [.FlushQueue], .ok env.FlushQueue)
      ∧ (CollectMatchingSamples env out .Archive outputPath Samples).1.filterMap SinkEvent.rowOf
        = []
      ∧ SinkEvent.Complete ∉ (CollectMatchingSamples env out .Archive outputPath Samples).1
      ∧ (∀ e ∈ (archivePayload env Samples).1, ∃ szName szDisplay stream,
          e = SinkEvent.AddStream szName szDisplay stream)
      ∧ (archivePayload env Samples).1.filterMap SinkEvent.payloadOf
        = (Samples.filter (fun s => !s.OffLimits)).map (fun s => (s.SampleName, s.CopyStream)))
    ∧ (FAILED env.FlushQueue = false → (writeManifest env Samples).2 = .ok () →
        FAILED env.Complete = true →
        (CollectMatchingSamples env out .Archive outputPath Samples).2 = .ok env.Complete)
    ∧ (∀ (found : List (Option Match)) (m m1 : Main) (hr e : HRESULT),
        ingestMatches env found m = .ok m1 → m1.Samples = Samples →
        (hashPhase env m1).2 = .ok hr →
        (CollectMatchingSamples env out .Archive outputPath Samples).2 = .ok e →
        FAILED e = true →
        (Run env out .Archive outputPath found m).2 = .ok e) := by
  obtain ⟨p1, p2⟩ := archivePayload_ok env Samples () hp
  have hcase := CollectMatchingSamples_archive_case env out outputPath Samples hc hl hw
  refine ⟨?_, ?_, ?_⟩
  · intro hf
    have hinner : CollectMatchingSamples_archive env Samples
        = ((archivePayload env Samples).1 ++ [.FlushQueue], .ok env.FlushQueue) := by
      unfold CollectMatchingSamples_archive
      simp only [hp, hf, if_true]
    have houter : CollectMatchingSamples env out .Archive outputPath Samples
        = ((archivePayload env Samples).1 ++ [.FlushQueue], .ok env.FlushQueue) := by
      rw [hcase, hinner]
      simp only [hf, if_true]
    refine ⟨hinner, houter, ?_, ?_, p2, p1⟩
    · rw [houter]
      simp only [List.filterMap_append, (archivePayload_trace env Samples).2.2]
      rfl
    · rw [houter]
      intro hmem
      rcases List.mem_append.1 hmem with hmem | hmem
      · obtain ⟨a, b, c, habc⟩ := p2 _ hmem
        cases habc
      · simp at hmem
  · intro hf hm hcomp
    have hinner : (CollectMatchingSamples_archive env Samples).2 = .ok .S_OK := by
      unfold CollectMatchingSamples_archive
      simp only [hp, hf, hm]
      rfl
    rw [hcase, hinner]
    simp only [finalizeArchive, hcomp, if_true]
    rw [if_neg (by decide)]
  · intro found m m1 hr e hi hsame hh hs he
    have hrun := (Run_after_hasher env out .Archive outputPath found m m1 hr hi hh).2
    rw [hrun, hsame, hs]
    simp only [he, if_true]

/-- Scenario-4 registry of two collected samples, archive output set up: with `FlushQueue`
failing the run returns `E_FAIL`, with `Complete` failing it returns `E_ABORT`. -/
theorem archive_finalization_failure_witness :
    (CreateCompressor okOut = .ok () ∧ CreateLogStream okOut = .ok ()
      ∧ CreateCsvWriter okOut = .ok ()
      ∧ (archivePayload flushFailsEnv afterTwo400.Samples).2 = .ok ()
      ∧ FAILED flushFailsEnv.FlushQueue = true
      ∧ FAILED completeFailsEnv.FlushQueue = false ∧ FAILED completeFailsEnv.Complete = true
      ∧ (Run flushFailsEnv okOut .Archive "out.7z".toList [] afterTwo400).2 = .ok .E_FAIL
      ∧ (Run completeFailsEnv okOut .Archive "out.7z".toList [] afterTwo400).2 = .ok .E_ABORT)
    ∧ (
    (FAILED flushFailsEnv.FlushQueue = true →
      CollectMatchingSamples_archive flushFailsEnv afterTwo400.Samples
        = ((archivePayload flushFailsEnv afterTwo400.Samples).1 ++ [.FlushQueue], .ok flushFailsEnv.FlushQueue)
      ∧ CollectMatchingSamples flushFailsEnv okOut .Archive "out.7z".toList afterTwo400.Samples
        = ((archivePayload flushFailsEnv afterTwo400.Samples).1 ++ [.FlushQueue], .ok flushFailsEnv.FlushQueue)
      ∧ (CollectMatchingSamples flushFailsEnv okOut .Archive "out.7z".toList afterTwo400.Samples).1.filterMap SinkEvent.rowOf
        = []
      ∧ SinkEvent.Complete ∉ (CollectMatchingSamples flushFailsEnv okOut .Archive "out.7z".toList afterTwo400.Samples).1
      ∧ (∀ e ∈ (archivePayload flushFailsEnv afterTwo400.Samples).1, ∃ szName szDisplay stream,
          e = SinkEvent.AddStream szName szDisplay stream)
      ∧ (archivePayload flushFailsEnv afterTwo400.Samples).1.filterMap SinkEvent.payloadOf
        = (afterTwo400.Samples.filter (fun s => !s.OffLimits)).map (fun s => (s.SampleName, s.CopyStream)))
    ∧ (FAILED flushFailsEnv.FlushQueue = false → (writeManifest flushFailsEnv afterTwo400.Samples).2 = .ok () →
        FAILED flushFailsEnv.Complete = true →
        (CollectMatchingSamples flushFailsEnv okOut .Archive "out.7z".toList afterTwo400.Samples).2 = .ok flushFailsEnv.Complete)
    ∧ (∀ (found : List (Option Match)) (m m1 : Main) (hr e : HRESULT),
        ingestMatches flushFailsEnv found m = .ok m1 → m1.Samples = afterTwo400.Samples →
        (hashPhase flushFailsEnv m1).2 = .ok hr →
        (CollectMatchingSamples flushFailsEnv okOut .Archive "out.7z".toList afterTwo400.Samples).2 = .ok e →
        FAILED e = true →
        (Run flushFailsEnv okOut .Archive "out.7z".toList found m).2 = .ok e))
    ∧ (
    (FAILED completeFailsEnv.FlushQueue = true →
      CollectMatchingSamples_archive completeFailsEnv afterTwo400.Samples
        = ((archivePayload completeFailsEnv afterTwo400.Samples).1 ++ [.FlushQueue], .ok completeFailsEnv.FlushQueue)
      ∧ CollectMatchingSamples completeFailsEnv okOut .Archive "out.7z".toList afterTwo400.Samples
        = ((archivePayload completeFailsEnv afterTwo400.Samples).1 ++ [.FlushQueue], .ok completeFailsEnv.FlushQueue)
      ∧ (CollectMatchingSamples completeFailsEnv okOut .Archive "out.7z".toList afterTwo400.Samples).1.filterMap SinkEvent.rowOf
        = []
      ∧ SinkEvent.Complete ∉ (CollectMatchingSamples completeFailsEnv okOut .Archive "out.7z".toList afterTwo400.Samples).1
      ∧ (∀ e ∈ (archivePayload completeFailsEnv afterTwo400.Samples).1, ∃ szName szDisplay stream,
          e = SinkEvent.AddStream szName szDisplay stream)
      ∧ (archivePayload completeFailsEnv afterTwo400.Samples).1.filterMap SinkEvent.payloadOf
        = (afterTwo400.Samples.filter (fun s => !s.OffLimits)).map (fun s => (s.SampleName, s.CopyStream)))
    ∧ (FAILED completeFailsEnv.FlushQueue = false → (writeManifest completeFailsEnv afterTwo400.Samples).2 = .ok () →
        FAILED completeFailsEnv.Complete = true →
        (CollectMatchingSamples completeFailsEnv okOut .Archive "out.7z".toList afterTwo400.Samples).2 = .ok completeFailsEnv.Complete)
    ∧ (∀ (found : List (Option Match)) (m m1 : Main) (hr e : HRESULT),
        ingestMatches completeFailsEnv found m = .ok m1 → m1.Samples = afterTwo400.Samples →
        (hashPhase completeFailsEnv m1).2 = .ok hr →
        (CollectMatchingSamples completeFailsEnv okOut .Archive "out.7z".toList afterTwo400.Samples).2 = .ok e →
        FAILED e = true →
        (Run completeFailsEnv okOut .Archive "out.7z".toList found m).2 = .ok e)) :=
  ⟨⟨by rfl, by rfl, by rfl, by rfl, by rfl, by rfl, by rfl, by rfl, by rfl⟩,
    archive_finalization_failure flushFailsEnv okOut "out.7z".toList afterTwo400.Samples
      (by rfl) (by rfl) (by rfl) (by rfl),
    archive_finalization_failure completeFailsEnv okOut "out.7z".toList afterTwo400.Samples
      (by rfl) (by rfl) (by rfl) (by rfl)⟩

/-- What the off-limits hasher reads: samples with `OffLimits = true`, each at most once
and in registry order; it hands nothing to a sink. -/
theorem HashOffLimitSamples_trace (env : Env) (Samples : List SampleRef) :
    (∃ hashed : List SampleRef, hashed.Sublist (Samples.filter (fun s => s.OffLimits))
      ∧ (HashOffLimitSamples env Samples).1.filterMap SinkEvent.hashedOf
          = hashed.map (fun s => (s.SampleName, s.CopyStream)))
    ∧ (HashOffLimitSamples env Samples).1.filterMap SinkEvent.payloadOf = [] := by
  induction Samples with
  | nil => exact ⟨⟨[], List.Sublist.slnil, rfl⟩, rfl⟩
  | cons s rest ih =>
    obtain ⟨⟨hashed, hsub, hmap⟩, hpay⟩ := ih
    unfold HashOffLimitSamples
    cases hoff : s.OffLimits with
    | false =>
      simp only [Bool.not_false, if_true]
      refine ⟨⟨hashed, ?_, hmap⟩, hpay⟩
      rw [List.filter_cons_of_neg (by simp [hoff])]
      exact hsub
    | true =>
      simp only [Bool.not_true, Bool.false_eq_true, if_false]
      rw [List.filter_cons_of_pos (by simp [hoff])]
      cases hcs : s.CopyStream with
      | none => exact ⟨⟨[], List.nil_sublist _, rfl⟩, rfl⟩
      | some stream =>
        simp only
        by_cases hf : FAILED (env.CopyTo stream) = true
        · rw [if_pos hf]
          refine ⟨⟨[s], ?_, ?_⟩, rfl⟩
          · exact List.Sublist.cons₂ _ (List.nil_sublist _)
          · simp [SinkEvent.hashedOf, hcs]
        · rw [if_neg hf]
          refine ⟨⟨s :: hashed, List.Sublist.cons₂ _ hsub, ?_⟩, ?_⟩
          · simp only [List.filterMap_cons, SinkEvent.hashedOf, List.map_cons, hcs, hmap]
          · simp only [List.filterMap_cons, SinkEvent.payloadOf, hpay]

/-- When every off-limits sample has a pipeline that can be read to its end, the
off-limits hasher reads each of them once, in registry order, and returns `S_OK`. -/
theorem HashOffLimitSamples_all (env : Env) (Samples : List SampleRef)
    (hcopy : ∀ s ∈ Samples, s.OffLimits = true →
      ∃ stream, s.CopyStream = some stream ∧ FAILED (env.CopyTo stream) = false) :
    (HashOffLimitSamples env Samples).1.filterMap SinkEvent.hashedOf
        = (Samples.filter (fun s => s.OffLimits)).map (fun s => (s.SampleName, s.CopyStream))
    ∧ (HashOffLimitSamples env Samples).2 = .ok .S_OK := by
  induction Samples with
  | nil => exact ⟨rfl, rfl⟩
  | cons s rest ih =>
    have ih1 := ih (fun x hx => hcopy x (List.mem_cons_of_mem _ hx))
    unfold HashOffLimitSamples
    cases hoff : s.OffLimits with
    | false =>
      simp only [Bool.not_false, if_true]
      rw [List.filter_cons_of_neg (by simp [hoff])]
      exact ih1
    | true =>
      simp only [Bool.not_true, Bool.false_eq_true, if_false]
      rw [List.filter_cons_of_pos (by simp [hoff])]
      obtain ⟨stream, hcs, hf⟩ := hcopy s (List.mem_cons_self _ _) hoff
      simp only [hcs, hf, Bool.false_eq_true, if_false]
      refine ⟨?_, ih1.2⟩
      simp only [List.filterMap_cons, SinkEvent.hashedOf, List.map_cons, hcs, ih1.1]

/-- The first loop of the archive sink reads nothing the way the off-limits hasher
does. -/
theorem archivePayload_no_hash (env : Env) (Samples : List SampleRef) :
    (archivePayload env Samples).1.filterMap SinkEvent.hashedOf = [] := by
  induction Samples with
  | nil => rfl
  | cons s rest ih =>
    unfold archivePayload
    split
    · split
      · rfl
      · split
        · simp only [List.filterMap_cons, SinkEvent.hashedOf, ih]
        · rfl
    · exact ih

/-- Reading the digests back leaves the index of the attribute untouched. -/
theorem readDigests_index (env : Env) (s : SampleRef) :
    (readDigests env s).AttributeIndex = s.AttributeIndex := by
  unfold readDigests
  cases s.HashStream <;> cases hf : s.FuzzyHashStream <;> simp [hf]

/-- The samples that the attribute loop adds, started at attribute number `i` with `i`
plus the attributes left not exceeding `n`, hold the match as their only match and the
number of one of its attributes below `n`. -/
theorem addSamplesLoop_index (env : Env) (status : LimitStatus) (aSpec : SampleSpec)
    (aMatch : Match) (n : Nat) (attrs : List AttributeMatch) :
    ∀ (i : Nat) (hr0 : HRESULT) (m : Main) (hr : HRESULT) (m1 : Main),
      i + attrs.length ≤ n →
      addSamplesLoop env status aSpec aMatch attrs i hr0 m = .ok (hr, m1) →
      ∀ s ∈ m1.Samples, s ∈ m.Samples ∨ (s.Matches = [aMatch] ∧ s.AttributeIndex < n) := by
  induction attrs with
  | nil =>
    intro i hr0 m hr m1 _ h s hs
    simp only [addSamplesLoop] at h
    cases h
    exact Or.inl hs
  | cons anAttr rest ih =>
    intro i hr0 m hr m1 hlen h s hs
    simp only [List.length_cons] at hlen
    simp only [addSamplesLoop] at h
    split at h
    · exact ih _ _ _ _ _ (by omega) h s hs
    · split at h
      · cases h
      rename_i named N hn
      split at h
      · cases h
      rename_i hr1 configured hcfg
      obtain ⟨n1, -⟩ := nameSample_frame env aSpec anAttr _ _ _ _ _ _ hn
      obtain ⟨f1, -⟩ := ConfigureSampleStreams_frame env _ _ _ _ hcfg
      obtain ⟨e1, -, -, -, e5, -, -⟩ := SampleRef.sameIdentity_trans n1 f1
      rcases ih _ _ _ _ _ (by omega) h s hs with hin | hnew
      · simp only [List.mem_append, List.mem_singleton] at hin
        rcases hin with hin | rfl
        · exact Or.inl hin
        · refine Or.inr ⟨e1, ?_⟩
          rw [e5]
          simp only [newSampleRef]
          omega
      · exact Or.inr hnew

/-- A row writer that succeeds on every element writes one row per element, in order. -/
theorem writeRows_total {α : Type} (f : α → Except Stop Row) (l : List α)
    (h : ∀ a ∈ l, ∃ r, f a = .ok r) :
    (writeRows f l).2 = .ok () ∧ List.Forall₂ (fun a r => f a = .ok r) l (writeRows f l).1 := by
  induction l with
  | nil => exact ⟨rfl, List.Forall₂.nil⟩
  | cons a rest ih =>
    obtain ⟨r, hr⟩ := h a (List.mem_cons_self _ _)
    obtain ⟨i1, i2⟩ := ih (fun x hx => h x (List.mem_cons_of_mem _ hx))
    unfold writeRows
    simp only [hr]
    exact ⟨i1, List.Forall₂.cons hr i2⟩

/-- The manifest lines of a sample that holds one match, the number of one of its
attributes, and hard links that all have a `$FILE_NAME`: `AddSampleRefToCSV` returns
`S_OK` and writes one line per hard link, in order, each with the full path of its hard
link. -/
theorem AddSampleRefToCSV_single (strComputerName : WString) (sample : SampleRef) (first : Match)
    (hm : sample.Matches = [first])
    (hidx : sample.AttributeIndex < first.MatchingAttributes.length)
    (hfn : ∀ name ∈ first.MatchingNames, name.FILENAME ≠ none) :
    (AddSampleRefToCSV strComputerName sample).2 = .ok .S_OK
    ∧ (AddSampleRefToCSV strComputerName sample).1.length = first.MatchingNames.length
    ∧ (AddSampleRefToCSV strComputerName sample).1.map (fun r => r[4]?)
        = first.MatchingNames.map (fun name => some (Cell.WriteString name.FullPathName)) := by
  have hrow : ∀ name ∈ first.MatchingNames, ∃ r, csvRow strComputerName sample first name = .ok r
      ∧ r[4]? = some (Cell.WriteString name.FullPathName) := by
    intro name hname
    obtain ⟨fn, hfn1⟩ := Option.ne_none_iff_exists'.1 (hfn name hname)
    obtain ⟨attr, hattr⟩ : ∃ attr, first.MatchingAttributes[sample.AttributeIndex]? = some attr :=
      ⟨_, List.getElem?_eq_getElem hidx⟩
    unfold csvRow
    simp only [hfn1, hattr]
    exact ⟨_, rfl, rfl⟩
  obtain ⟨t1, t2⟩ := writeRows_total (csvRow strComputerName sample first) first.MatchingNames
    (fun a ha => (hrow a ha).elim (fun r hr => ⟨r, hr.1⟩))
  have hrows : (AddSampleRefToCSV strComputerName sample).1
      = (writeRows (csvRow strComputerName sample first) first.MatchingNames).1 := by
    unfold AddSampleRefToCSV
    simp only [hm, writeAll, t1, List.append_nil]
  refine ⟨?_, ?_, ?_⟩
  · unfold AddSampleRefToCSV
    simp only [hm, writeAll, t1]
    rfl
  · rw [hrows]
    exact t2.length_eq.symm
  · rw [hrows]
    have key : ∀ (l : List NameMatch) (rows : List Row),
        (∀ name ∈ l, ∃ r, csvRow strComputerName sample first name = .ok r
          ∧ r[4]? = some (Cell.WriteString name.FullPathName)) →
        List.Forall₂ (fun a r => csvRow strComputerName sample first a = .ok r) l rows →
        rows.map (fun r => r[4]?)
          = l.map (fun name => some (Cell.WriteString name.FullPathName)) := by
      intro l rows hl hf
      induction hf with
      | nil => rfl
      | cons hab _ ih =>
        rename_i a b l1 l2 _
        obtain ⟨r, hr1, hr2⟩ := hl a (List.mem_cons_self _ _)
        rw [hab] at hr1
        cases hr1
        simp only [List.map_cons, hr2]
        rw [ih (fun x hx => hl x (List.mem_cons_of_mem _ hx))]
    exact key _ _ hrow t2

/-- The manifest lines of a match with well-formed hard links: let a match `a`, whose hard
links all have a `$FILE_NAME`, be handed to
`AddSamplesForMatch`, and let `b` be a later match with the same volume, file record and
attribute instances (arriving through any term).  The call on `b` leaves the registry as
it is, and for every sample that the call on `a` registered, `a` is the only match the
sample holds, `AddSampleRefToCSV` returns `S_OK` and writes exactly one line per hard
link of `a`, in order, each with the full path of its hard link: none for `b`. -/
theorem manifest_rows_of_first_match (env : Env) (st1 st2 : LimitStatus) (sp1 sp2 : SampleSpec)
    (a b : Match) (m0 m1 : Main) (hr1 : HRESULT)
    (hu : uniqueKeys m0.Samples)
    (h1 : AddSamplesForMatch env st1 sp1 a m0 = .ok (hr1, m1))
    (hfn : ∀ name ∈ a.MatchingNames, name.FILENAME ≠ none)
    (hvol : b.VolumeReader.VolumeSerialNumber = a.VolumeReader.VolumeSerialNumber)
    (hfrn : b.FRN = a.FRN)
    (hinst : ∀ x ∈ b.MatchingAttributes, ∃ y ∈ a.MatchingAttributes, x.InstanceID = y.InstanceID) :
    AddSamplesForMatch env st2 sp2 b m1
        = .ok (if b.MatchingAttributes = [] then .S_OK else .S_FALSE, m1)
    ∧ ∀ s ∈ m1.Samples, s ∉ m0.Samples →
        s.Matches = [a]
        ∧ (AddSampleRefToCSV env.ComputerName (readDigests env s)).2 = .ok .S_OK
        ∧ (rowsOf env s).length = a.MatchingNames.length
        ∧ (rowsOf env s).map (fun r => r[4]?)
            = a.MatchingNames.map (fun name => some (Cell.WriteString name.FullPathName)) := by
  obtain ⟨hr0, hl, -, -⟩ := AddSamplesForMatch_ok env st1 sp1 a m0 hr1 m1 h1
  obtain ⟨-, hreg⟩ := addSamplesLoop_unique env st1 sp1 a _ _ _ _ _ _ hl hu
  refine ⟨?_, ?_⟩
  · have hall : ∀ x ∈ b.MatchingAttributes, registered m1.Samples b x := by
      intro x hx
      obtain ⟨y, hy, hxy⟩ := hinst x hx
      obtain ⟨s, hs, k1, k2, k3⟩ := hreg y hy
      exact ⟨s, hs, by rw [k1, hvol], by rw [k2, hfrn], by rw [k3, hxy]⟩
    unfold AddSamplesForMatch
    rw [addSamplesLoop_all_registered env st2 sp2 b _ 0 .E_FAIL m1 hall]
    by_cases hne : b.MatchingAttributes = []
    · simp [hne]
    · simp [hne]
  · intro s hs hnew
    rcases addSamplesLoop_index env st1 sp1 a a.MatchingAttributes.length _ 0 _ _ _ _
      (by omega) hl s hs with hold | ⟨hm, hidx⟩
    · exact absurd hold hnew
    · obtain ⟨-, f2⟩ := readDigests_frame env s
      have f3 := readDigests_index env s
      obtain ⟨r1, r2, r3⟩ := AddSampleRefToCSV_single env.ComputerName (readDigests env s) a
        (by rw [f2, hm]) (by rw [f3]; exact hidx) hfn
      exact ⟨hm, r1, r2, r3⟩

/-- A file with two hard links matched through the first term, then again through the
second term: one registry entry, two manifest lines, one per hard link of the first
match. -/
theorem manifest_rows_of_first_match_witness :
    (uniqueKeys (mkMain noLimits noLimits).Samples
      ∧ AddSamplesForMatch okEnv .SampleWithinLimits (spec1 noLimits) linkedMatch
          (mkMain noLimits noLimits) = .ok (.S_OK, linkedRegistered)
      ∧ (∀ name ∈ linkedMatch.MatchingNames, name.FILENAME ≠ none)
      ∧ linkedMatch.MatchingNames.length = 2
      ∧ linkedRegistered.Samples.length = 1
      ∧ linkedRegistered.Samples.flatMap (rowsOf okEnv)
          = [fooRow.set 4 (.WriteString "\\foo.txt".toList)
              |>.set 5 (.WriteString "000100000000000A_bar.txt_data".toList),
             fooRow.set 4 (.WriteString "\\bar.txt".toList)
              |>.set 5 (.WriteString "000100000000000A_bar.txt_data".toList)])
    ∧ (
    AddSamplesForMatch okEnv .GlobalMaxBytesTotal (spec1 noLimits) linkedAgain linkedRegistered
        = .ok (if linkedAgain.MatchingAttributes = [] then .S_OK else .S_FALSE, linkedRegistered)
    ∧ ∀ s ∈ linkedRegistered.Samples, s ∉ (mkMain noLimits noLimits).Samples →
        s.Matches = [linkedMatch]
        ∧ (AddSampleRefToCSV okEnv.ComputerName (readDigests okEnv s)).2 = .ok .S_OK
        ∧ (rowsOf okEnv s).length = linkedMatch.MatchingNames.length
        ∧ (rowsOf okEnv s).map (fun r => r[4]?)
            = linkedMatch.MatchingNames.map (fun name => some (Cell.WriteString name.FullPathName))) :=
  ⟨⟨List.Pairwise.nil, by rfl, by decide, by rfl, by rfl, by rfl⟩,
    manifest_rows_of_first_match okEnv .SampleWithinLimits .GlobalMaxBytesTotal
      (spec1 noLimits) (spec1 noLimits) linkedMatch linkedAgain (mkMain noLimits noLimits)
      linkedRegistered .S_OK List.Pairwise.nil (by rfl) (by decide) (by rfl) (by rfl)
      (by decide)⟩

/-- The `do ... while` on a non-null `$FILE_NAME`, as long as the index does not wrap:
the name it leaves with is the candidate of an index not yet tried, absent from the Name
Registry, and the candidates of all indices tried before are in the Name Registry. -/
theorem uniqueNameLoop_least (env : Env) (N : List WString) (aSpec : SampleSpec)
    (content : ContentSpec) (fn : FILE_NAME) (D : WString) (fuel : Nat) :
    ∀ (idx : Nat) (cab r : WString), idx + fuel ≤ 4294967296 →
      uniqueNameLoop env N aSpec content (some fn) D fuel idx cab = .ok r →
      ∃ i, idx ≤ i ∧ i < idx + fuel ∧ r = candidateName env.platform aSpec content fn D i
        ∧ r ∉ N ∧ ∀ j, idx ≤ j → j < i → candidateName env.platform aSpec content fn D j ∈ N := by
  induction fuel with
  | zero =>
    intro idx cab r _ h
    simp only [uniqueNameLoop] at h
    cases h
  | succ fuel ih =>
    intro idx cab r hb h
    simp only [uniqueNameLoop, CreateSampleFileName] at h
    split at h
    · cases h
    rename_i hr created hc
    split at hc
    · cases hc
    simp only [Except.ok.injEq, Prod.mk.injEq] at hc
    obtain ⟨hhr, hcreated⟩ := hc
    subst hhr
    subst hcreated
    rw [if_neg (by decide)] at h
    have hcand : (if (!aSpec.Name.isEmpty) = true then
          aSpec.Name ++ ['\\'] ++ sanitize env.platform
            (formatSampleFileName env.platform content fn D idx)
        else sanitize env.platform (formatSampleFileName env.platform content fn D idx))
        = candidateName env.platform aSpec content fn D idx := rfl
    simp only [hcand] at h
    split at h
    · rename_i hmem
      cases fuel with
      | zero =>
        simp only [uniqueNameLoop] at h
        cases h
      | succ fuel =>
        have hadd : add32 idx 1 = idx + 1 := by
          unfold add32
          exact Nat.mod_eq_of_lt (by omega)
        rw [hadd] at h
        obtain ⟨i, h1, h2, h3, h4, h5⟩ := ih (idx + 1) _ r (by omega) h
        refine ⟨i, by omega, by omega, h3, h4, ?_⟩
        intro j hj1 hj2
        by_cases hji : j = idx
        · rw [hji]; exact hmem
        · exact h5 j (by omega) hj2
    · rename_i hmem
      simp only [Except.ok.injEq] at h
      subst h
      exact ⟨idx, le_refl _, by omega, rfl, hmem, fun j hj1 hj2 => absurd hj2 (by omega)⟩

/-- The name adopted for a hard link with a `$FILE_NAME`: the candidate of the least
index whose candidate is absent from the Name Registry. -/
theorem uniqueName_least (env : Env) (N : List WString) (aSpec : SampleSpec)
    (content : ContentSpec) (fn : FILE_NAME) (D : WString) (r : WString)
    (h : uniqueName env N aSpec content (some fn) D = .ok r) :
    r ∉ N ∧ insertName N r = N ++ [r]
    ∧ ∃ i, i < 4294967296 ∧ r = candidateName env.platform aSpec content fn D i
        ∧ ∀ j, j < i → candidateName env.platform aSpec content fn D j ∈ N := by
  obtain ⟨i, -, h2, h3, h4, h5⟩ :=
    uniqueNameLoop_least env N aSpec content fn D 4294967296 0 [] r (by omega) h
  refine ⟨h4, ?_, i, by omega, h3, fun j hj => h5 j (Nat.zero_le _) hj⟩
  unfold insertName
  rw [if_neg h4]

/-- The hard-link loop on hard links that all have a `$FILE_NAME`: either there is no
hard link and nothing changed, or the name the sample ends with was absent from the Name
Registry before the loop and is in it afterwards. -/
theorem nameSample_fresh (env : Env) (aSpec : SampleSpec) (anAttr : AttributeMatch) (cd : Nat)
    (names : List NameMatch) (hfn : ∀ name ∈ names, name.FILENAME ≠ none) :
    ∀ (s : SampleRef) (N : List WString) (s1 : SampleRef) (N1 : List WString),
      nameSample env aSpec anAttr cd names s N = .ok (s1, N1) →
      (names = [] ∧ s1 = s ∧ N1 = N) ∨ (s1.SampleName ∉ N ∧ s1.SampleName ∈ N1) := by
  induction names with
  | nil =>
    intro s N s1 N1 h
    simp only [nameSample, Except.ok.injEq, Prod.mk.injEq] at h
    exact Or.inl ⟨rfl, h.1.symm, h.2.symm⟩
  | cons name rest ih =>
    intro s N s1 N1 h
    obtain ⟨fn, hfn1⟩ := Option.ne_none_iff_exists'.1 (hfn name (List.mem_cons_self _ _))
    simp only [nameSample, hfn1] at h
    split at h
    · cases h
    rename_i cab hu
    obtain ⟨u1, u2, -⟩ := uniqueName_least env N aSpec _ fn _ cab hu
    rw [u2] at h
    refine Or.inr ?_
    rcases ih (fun x hx => hfn x (List.mem_cons_of_mem _ hx)) _ _ _ _ h with
      ⟨-, e2, e3⟩ | ⟨e1, e2⟩
    · subst e2
      subst e3
      exact ⟨u1, by simp⟩
    · exact ⟨fun hin => e1 (List.mem_append_left _ hin), e2⟩

/-- The attribute loop on a match with at least one hard link, all hard links having a
`$FILE_NAME`, keeps the sample names of the registry pairwise different and inside the
Name Registry. -/
theorem addSamplesLoop_distinct (env : Env) (status : LimitStatus) (aSpec : SampleSpec)
    (aMatch : Match) (hne : aMatch.MatchingNames ≠ [])
    (hfn : ∀ name ∈ aMatch.MatchingNames, name.FILENAME ≠ none) (attrs : List AttributeMatch) :
    ∀ (i : Nat) (hr0 : HRESULT) (m : Main) (hr : HRESULT) (m1 : Main),
      addSamplesLoop env status aSpec aMatch attrs i hr0 m = .ok (hr, m1) →
      m.Samples.Pairwise (fun a b => a.SampleName ≠ b.SampleName) →
      (∀ s ∈ m.Samples, s.SampleName ∈ m.SampleNames) →
      m1.Samples.Pairwise (fun a b => a.SampleName ≠ b.SampleName)
      ∧ ∀ s ∈ m1.Samples, s.SampleName ∈ m1.SampleNames := by
  induction attrs with
  | nil =>
    intro i hr0 m hr m1 h hp hin
    simp only [addSamplesLoop] at h
    cases h
    exact ⟨hp, hin⟩
  | cons anAttr rest ih =>
    intro i hr0 m hr m1 h hp hin
    simp only [addSamplesLoop] at h
    split at h
    · exact ih _ _ _ _ _ h hp hin
    · split at h
      · cases h
      rename_i named N hn
      split at h
      · cases h
      rename_i hr1 configured hcfg
      obtain ⟨-, added, hN⟩ := nameSample_frame env aSpec anAttr _ _ _ _ _ _ hn
      obtain ⟨-, hsame⟩ := ConfigureSampleStreams_frame env _ _ _ _ hcfg
      rcases nameSample_fresh env aSpec anAttr _ _ hfn _ _ _ _ hn with ⟨e, -, -⟩ | ⟨e1, e2⟩
      · exact absurd e hne
      · refine ih _ _ _ _ _ h ?_ ?_
        · refine List.pairwise_append.2 ⟨hp, List.pairwise_singleton _ _, ?_⟩
          intro a ha b hb
          rw [List.mem_singleton.1 hb, hsame]
          intro hab
          exact e1 (hab ▸ hin a ha)
        · intro s hs
          rcases List.mem_append.1 hs with hs | hs
          · show s.SampleName ∈ N
            rw [hN]
            exact List.mem_append_left _ (hin s hs)
          · rw [List.mem_singleton.1 hs, hsame]
            exact e2

/-- C11 (amended). Assume every match carries at least one hard link and every hard
link of every match has a non-null `$FILE_NAME`.  After any sequence of
`AddSamplesForMatch` calls that return, started in a state where the sample names of the
registry are pairwise different and in the Name Registry (the empty registries, for one),
any two entries of the Sample Registry have different `SampleName` values and every
`SampleName` is a member of the Name Registry; and the name adopted for a hard link is
the candidate (the name of the spec, a backslash and the sanitized name of index `i` when
the spec has a name, else the sanitized name of index `i`) for the least `i` in
`[0, 2^32)` whose candidate was absent from the Name Registry just before it was
inserted. -/
theorem sample_names_unique (env : Env) (calls : List (LimitStatus × SampleSpec × Match))
    (m0 m1 : Main)
    (hp : m0.Samples.Pairwise (fun a b => a.SampleName ≠ b.SampleName))
    (hin : ∀ s ∈ m0.Samples, s.SampleName ∈ m0.SampleNames)
    (hnames : ∀ c ∈ calls, c.2.2.MatchingNames ≠ []
      ∧ ∀ name ∈ c.2.2.MatchingNames, name.FILENAME ≠ none)
    (h : addSamplesSeq env calls m0 = .ok m1) :
    m1.Samples.Pairwise (fun a b => a.SampleName ≠ b.SampleName)
    ∧ (∀ s ∈ m1.Samples, s.SampleName ∈ m1.SampleNames)
    ∧ ∀ (N : List WString) (aSpec : SampleSpec) (content : ContentSpec) (fn : FILE_NAME)
        (D r : WString), uniqueName env N aSpec content (some fn) D = .ok r →
        r ∉ N ∧ insertName N r = N ++ [r]
        ∧ ∃ i, i < 4294967296 ∧ r = candidateName env.platform aSpec content fn D i
            ∧ ∀ j, j < i → candidateName env.platform aSpec content fn D j ∈ N := by
  refine ⟨?_, ?_, fun N aSpec content fn D r hu => uniqueName_least env N aSpec content fn D r hu⟩
  · induction calls generalizing m0 with
    | nil =>
      simp only [addSamplesSeq, Except.ok.injEq] at h
      subst h
      exact hp
    | cons c rest ih =>
      obtain ⟨status, aSpec, aMatch⟩ := c
      simp only [addSamplesSeq] at h
      split at h
      · cases h
      rename_i hr m2 hcall
      obtain ⟨hr0, hl, -, -⟩ := AddSamplesForMatch_ok env status aSpec aMatch m0 hr m2 hcall
      obtain ⟨n1, n2⟩ := hnames _ (List.mem_cons_self _ _)
      obtain ⟨p2, i2⟩ := addSamplesLoop_distinct env status aSpec aMatch n1 n2 _ _ _ _ _ _ hl hp hin
      exact ih m2 p2 i2 (fun x hx => hnames x (List.mem_cons_of_mem _ hx)) h
  · induction calls generalizing m0 with
    | nil =>
      simp only [addSamplesSeq, Except.ok.injEq] at h
      subst h
      exact hin
    | cons c rest ih =>
      obtain ⟨status, aSpec, aMatch⟩ := c
      simp only [addSamplesSeq] at h
      split at h
      · cases h
      rename_i hr m2 hcall
      obtain ⟨hr0, hl, -, -⟩ := AddSamplesForMatch_ok env status aSpec aMatch m0 hr m2 hcall
      obtain ⟨n1, n2⟩ := hnames _ (List.mem_cons_self _ _)
      obtain ⟨p2, i2⟩ := addSamplesLoop_distinct env status aSpec aMatch n1 n2 _ _ _ _ _ _ hl hp hin
      exact ih m2 p2 i2 (fun x hx => hnames x (List.mem_cons_of_mem _ hx)) h

/-- Two files named `foo.txt` in the same directory, registered one after the other from
empty registries: the second gets the name of index `1`. -/
theorem sample_names_unique_witness :
    ((mkMain noLimits noLimits).Samples.Pairwise (fun a b => a.SampleName ≠ b.SampleName)
      ∧ (∀ s ∈ (mkMain noLimits noLimits).Samples,
          s.SampleName ∈ (mkMain noLimits noLimits).SampleNames)
      ∧ (∀ c ∈ [(LimitStatus.SampleWithinLimits, spec1 noLimits, match400 1),
                (LimitStatus.SampleWithinLimits, spec1 noLimits, match400 2)],
          c.2.2.MatchingNames ≠ [] ∧ ∀ name ∈ c.2.2.MatchingNames, name.FILENAME ≠ none)
      ∧ addSamplesSeq okEnv [(.SampleWithinLimits, spec1 noLimits, match400 1),
          (.SampleWithinLimits, spec1 noLimits, match400 2)] (mkMain noLimits noLimits)
          = .ok { afterTwo400 with GlobalLimits := noLimits
                                   config := (mkMain noLimits noLimits).config }
      ∧ afterTwo400.Samples.map (fun s => s.SampleName)
          = ["000100000000000A_foo.txt_data".toList, "000100000000000A__foo.txt_1_data".toList])
    ∧ (
    afterTwo400.Samples.Pairwise (fun a b => a.SampleName ≠ b.SampleName)
    ∧ (∀ s ∈ afterTwo400.Samples, s.SampleName ∈ afterTwo400.SampleNames)
    ∧ ∀ (N : List WString) (aSpec : SampleSpec) (content : ContentSpec) (fn : FILE_NAME)
        (D r : WString), uniqueName okEnv N aSpec content (some fn) D = .ok r →
        r ∉ N ∧ insertName N r = N ++ [r]
        ∧ ∃ i, i < 4294967296 ∧ r = candidateName okEnv.platform aSpec content fn D i
            ∧ ∀ j, j < i → candidateName okEnv.platform aSpec content fn D j ∈ N) :=
  ⟨⟨List.Pairwise.nil, by decide, by decide, by rfl, by rfl⟩,
    sample_names_unique okEnv [(.SampleWithinLimits, spec1 noLimits, match400 1),
      (.SampleWithinLimits, spec1 noLimits, match400 2)] (mkMain noLimits noLimits)
      { afterTwo400 with GlobalLimits := noLimits, config := (mkMain noLimits noLimits).config }
      List.Pairwise.nil (by decide) (by decide) (by rfl)⟩

/-- C11, counterexample to the claim as worded: two files (records 42 and 43), each with
the hard links `\foo.txt`, which has a `$FILE_NAME`, and `\old.txt`, which has none.
Every match carries a name with a non-null `$FILE_NAME`, yet after the two calls the
Sample Registry holds two entries that both have the empty `SampleName`. -/
theorem sample_names_unique_counterexample :
    (∀ c ∈ [halfNamed 42, halfNamed 43], ∃ name ∈ c.MatchingNames, name.FILENAME ≠ none)
    ∧ ∃ m1, addSamplesSeq okEnv [(.SampleWithinLimits, spec1 noLimits, halfNamed 42),
          (.SampleWithinLimits, spec1 noLimits, halfNamed 43)] (mkMain noLimits noLimits) = .ok m1
        ∧ m1.Samples.map (fun s => (s.FRN, s.SampleName)) = [(42, []), (43, [])]
        ∧ m1.SampleNames = ["000100000000000A_foo.txt_data".toList, [],
            "000100000000000A__foo.txt_1_data".toList] :=
  ⟨by decide, _, by rfl, by rfl, by rfl⟩

/-- The decimal digit of a number below ten is one of the ten digit characters and has
the value of the number. -/
theorem digitChar_dec (k : Nat) (hk : k < 10) :
    Nat.digitChar k ∈ "0123456789".toList ∧ (Nat.digitChar k).toNat - 48 = k := by
  interval_cases k <;> exact ⟨by decide, by rfl⟩

/-- What `Nat.toDigitsCore 10` puts in front of its accumulator: at least one character,
digits only, whose value read from the left is the number. -/
theorem toDigitsCore_dec (fuel : Nat) :
    ∀ (n : Nat) (ds : List Char), n < fuel →
      ∃ pre, Nat.toDigitsCore 10 fuel n ds = pre ++ ds ∧ 1 ≤ pre.length
        ∧ (∀ c ∈ pre, c ∈ "0123456789".toList)
        ∧ ∀ a, pre.foldl (fun acc c => 10 * acc + (c.toNat - 48)) a = a * 10 ^ pre.length + n := by
  induction fuel with
  | zero => intro n ds h; omega
  | succ fuel ih =>
    intro n ds hn
    obtain ⟨d1, d2⟩ := digitChar_dec (n % 10) (Nat.mod_lt _ (by decide))
    simp only [Nat.toDigitsCore]
    by_cases h0 : n / 10 = 0
    · rw [if_pos h0]
      refine ⟨[Nat.digitChar (n % 10)], rfl, by simp, ?_, ?_⟩
      · intro c hc
        rw [List.mem_singleton.1 hc]
        exact d1
      · intro a
        simp only [List.foldl_cons, List.foldl_nil, d2, List.length_singleton, pow_one]
        omega
    · rw [if_neg h0]
      obtain ⟨pre, e1, e2, e3, e4⟩ := ih (n / 10) (Nat.digitChar (n % 10) :: ds) (by omega)
      refine ⟨pre ++ [Nat.digitChar (n % 10)], ?_, by simp, ?_, ?_⟩
      · rw [e1]; simp
      · intro c hc
        rcases List.mem_append.1 hc with hc | hc
        · exact e3 c hc
        · rw [List.mem_singleton.1 hc]
          exact d1
      · intro a
        simp only [List.foldl_append, List.foldl_cons, List.foldl_nil, e4, d2,
          List.length_append, List.length_singleton, pow_succ]
        have := Nat.div_add_mod n 10
        nlinarith [this]

/-- The conversion `%u`: at least one character, digits only, and different numbers give
different texts. -/
theorem fmtDec_spec (n : Nat) :
    1 ≤ (fmtDec n).length ∧ (∀ c ∈ fmtDec n, c ∈ "0123456789".toList)
    ∧ (fmtDec n).foldl (fun acc c => 10 * acc + (c.toNat - 48)) 0 = n := by
  obtain ⟨pre, e1, e2, e3, e4⟩ := toDigitsCore_dec (n + 1) n [] (by omega)
  have h : fmtDec n = pre := by
    unfold fmtDec Nat.toDigits
    rw [e1, List.append_nil]
  rw [h]
  exact ⟨e2, e3, by rw [e4 0]; omega⟩

/-- The conversion `%u` is injective. -/
theorem fmtDec_injective (i j : Nat) (h : fmtDec i = fmtDec j) : i = j := by
  have hi := (fmtDec_spec i).2.2
  rw [h, (fmtDec_spec j).2.2] at hi
  exact hi.symm

/-- The conversion `%u` of a `DWORD` takes at most ten characters. -/
theorem fmtDec_length_le (n : Nat) (h : n < 4294967296) : (fmtDec n).length ≤ 10 := by
  unfold fmtDec Nat.toDigits
  exact Nat.toDigitsCore_length 10 (by decide) (n + 1) n 10 (by omega) (by decide)

/-- The sanitizer works character by character. -/
theorem sanitize_append (p : Platform) (a b : WString) :
    sanitize p (a ++ b) = sanitize p a ++ sanitize p b := by
  unfold sanitize
  exact List.map_append _ _ _

/-- The sanitizer keeps the length. -/
theorem sanitize_length (p : Platform) (a : WString) : (sanitize p a).length = a.length := by
  unfold sanitize
  exact List.length_map _ _

/-- On a platform where no digit is white space, the sanitizer leaves `%u` texts as they
are. -/
theorem sanitize_fmtDec (p : Platform) (hdig : ∀ c ∈ "0123456789".toList, p.iswspace c = false)
    (n : Nat) : sanitize p (fmtDec n) = fmtDec n := by
  have key : ∀ l : WString, (∀ c ∈ l, c ∈ "0123456789".toList) → sanitize p l = l := by
    intro l
    induction l with
    | nil => intro _; rfl
    | cons c rest ih =>
      intro hl
      have hc := hl c (List.mem_cons_self _ _)
      have h1 := hdig c hc
      have h2 : (c == ':') = false ∧ (c == '#') = false := by
        revert hc
        simp only [String.toList, List.mem_cons, List.mem_singleton, List.not_mem_nil, or_false]
        rintro (rfl | rfl | rfl | rfl | rfl | rfl | rfl | rfl | rfl | rfl) <;> exact ⟨rfl, rfl⟩
      have ih1 := ih (fun x hx => hl x (List.mem_cons_of_mem _ hx))
      unfold sanitize at ih1 ⊢
      simp only [List.map_cons, h1, h2.1, h2.2, Bool.or_self, Bool.false_eq_true, if_false, ih1]
  exact key _ (fmtDec_spec n).2.1

/-- The length of the text that the format strings of `CreateSampleFileName` give. -/
theorem formatSampleFileName_length (p : Platform) (content : ContentSpec) (fn : FILE_NAME)
    (D : WString) (idx : Nat) :
    (formatSampleFileName p content fn D idx).length
      = (fmtParent p fn.ParentDirectory).length + (cstr fn.FileName).length
        + (pContentOf content.Type_).length
        + (if idx ≠ 0 then
            (if D.length ≠ 0 then 4 + (cstr D).length + (fmtDec idx).length
             else 4 + (fmtDec idx).length)
           else (if D.length ≠ 0 then 4 + (cstr D).length else 2)) := by
  have u1 : "_".toList.length = 1 := rfl
  have u2 : "__".toList.length = 2 := rfl
  unfold formatSampleFileName
  by_cases hi : idx ≠ 0 <;> by_cases hD : D.length ≠ 0
  · rw [if_pos hi, if_pos hD, if_pos hi, if_pos hD]
    simp only [List.length_append, u1]
    omega
  · rw [if_pos hi, if_neg hD, if_pos hi, if_neg hD]
    simp only [List.length_append, u1, u2]
    omega
  · rw [if_neg hi, if_pos hD, if_neg hi, if_pos hD]
    simp only [List.length_append, u1, u2]
    omega
  · rw [if_neg hi, if_neg hD, if_neg hi, if_neg hD]
    simp only [List.length_append, u1]
    omega

/-- On a platform where no digit is white space, the sanitized names that the format
strings of `CreateSampleFileName` give for two different indices are different. -/
theorem sanitized_name_injective (p : Platform)
    (hdig : ∀ c ∈ "0123456789".toList, p.iswspace c = false) (content : ContentSpec)
    (fn : FILE_NAME) (D : WString) (i j : Nat)
    (h : sanitize p (formatSampleFileName p content fn D i)
      = sanitize p (formatSampleFileName p content fn D j)) : i = j := by
  have hlen := congrArg List.length h
  simp only [sanitize_length, formatSampleFileName_length] at hlen
  have li := (fmtDec_spec i).1
  have lj := (fmtDec_spec j).1
  by_cases hi : i = 0 <;> by_cases hj : j = 0
  · rw [hi, hj]
  · exfalso
    subst hi
    simp only [ne_eq, not_true_eq_false, if_false, hj, not_false_eq_true, if_true] at hlen
    split_ifs at hlen <;> omega
  · exfalso
    subst hj
    simp only [ne_eq, not_true_eq_false, if_false, hi, not_false_eq_true, if_true] at hlen
    split_ifs at hlen <;> omega
  · have hi1 : i ≠ 0 := hi
    have hj1 : j ≠ 0 := hj
    unfold formatSampleFileName at h
    rw [if_pos hi1, if_pos hj1] at h
    by_cases hD : D.length ≠ 0
    · simp only [if_pos hD, sanitize_append, sanitize_fmtDec p hdig] at h
      exact fmtDec_injective i j
        (List.append_cancel_left (List.append_cancel_right (List.append_cancel_right h)))
    · simp only [if_neg hD, sanitize_append, sanitize_fmtDec p hdig] at h
      exact fmtDec_injective i j
        (List.append_cancel_left (List.append_cancel_right (List.append_cancel_right h)))

/-- On a platform where no digit is white space, the candidates of two different indices
are different. -/
theorem candidateName_injective (p : Platform)
    (hdig : ∀ c ∈ "0123456789".toList, p.iswspace c = false) (aSpec : SampleSpec)
    (content : ContentSpec) (fn : FILE_NAME) (D : WString) (i j : Nat)
    (h : candidateName p aSpec content fn D i = candidateName p aSpec content fn D j) : i = j := by
  unfold candidateName at h
  split at h
  · exact sanitized_name_injective p hdig content fn D i j (List.append_cancel_left h)
  · exact sanitized_name_injective p hdig content fn D i j h

/-- A Name Registry with fewer than `2^32` names misses the candidate of some `DWORD`
index. -/
theorem candidate_absent (p : Platform)
    (hdig : ∀ c ∈ "0123456789".toList, p.iswspace c = false) (aSpec : SampleSpec)
    (content : ContentSpec) (fn : FILE_NAME) (D : WString) (N : List WString)
    (hN : N.length < 4294967296) :
    ∃ i, i < 4294967296 ∧ candidateName p aSpec content fn D i ∉ N := by
  by_contra hall
  simp only [not_exists, not_and, not_not] at hall
  have hsub : (Finset.range 4294967296).image (candidateName p aSpec content fn D) ⊆ N.toFinset := by
    intro x hx
    obtain ⟨i, hi, rfl⟩ := Finset.mem_image.1 hx
    exact List.mem_toFinset.2 (hall i (Finset.mem_range.1 hi))
  have hcard : ((Finset.range 4294967296).image (candidateName p aSpec content fn D)).card
      = 4294967296 := by
    rw [Finset.card_image_of_injOn, Finset.card_range]
    intro a _ b _ hab
    exact candidateName_injective p hdig aSpec content fn D a b hab
  have h1 := Finset.card_le_card hsub
  have h2 := List.toFinset_card_le N
  omega

/-- The `do ... while` returns when, among the indices it can still try without wrapping,
one has a candidate absent from the Name Registry and every name fits `tmpName`. -/
theorem uniqueNameLoop_returns (env : Env) (N : List WString) (aSpec : SampleSpec)
    (content : ContentSpec) (fn : FILE_NAME) (D : WString) (fuel : Nat) :
    ∀ (idx : Nat) (cab : WString), idx + fuel ≤ 4294967296 →
      (∀ i, idx ≤ i → i < idx + fuel →
        (formatSampleFileName env.platform content fn D i).length + 1 ≤ MAX_PATH) →
      (∃ i, idx ≤ i ∧ i < idx + fuel ∧ candidateName env.platform aSpec content fn D i ∉ N) →
      ∃ r, uniqueNameLoop env N aSpec content (some fn) D fuel idx cab = .ok r := by
  induction fuel with
  | zero =>
    intro idx cab _ _ h
    obtain ⟨i, h1, h2, -⟩ := h
    omega
  | succ fuel ih =>
    intro idx cab hb hfit habs
    have hf := hfit idx (le_refl _) (by omega)
    simp only [uniqueNameLoop, CreateSampleFileName]
    rw [if_neg (by omega)]
    simp only
    rw [if_neg (by decide)]
    have hcand : (if (!aSpec.Name.isEmpty) = true then
          aSpec.Name ++ ['\\'] ++ sanitize env.platform
            (formatSampleFileName env.platform content fn D idx)
        else sanitize env.platform (formatSampleFileName env.platform content fn D idx))
        = candidateName env.platform aSpec content fn D idx := rfl
    simp only [hcand]
    by_cases hmem : candidateName env.platform aSpec content fn D idx ∈ N
    · rw [if_pos hmem]
      obtain ⟨i, h1, h2, h3⟩ := habs
      have hne : i ≠ idx := fun e => h3 (e ▸ hmem)
      have hadd : add32 idx 1 = idx + 1 := by
        unfold add32
        exact Nat.mod_eq_of_lt (by omega)
      rw [hadd]
      exact ih (idx + 1) _ (by omega) (fun k hk1 hk2 => hfit k (by omega) (by omega))
        ⟨i, by omega, by omega, h3⟩
    · rw [if_neg hmem]
      exact ⟨_, rfl⟩

/-- The `do ... while` never leaves when the candidate of every `DWORD` index is in the
Name Registry (and every name fits `tmpName`). -/
theorem uniqueNameLoop_diverges (env : Env) (N : List WString) (aSpec : SampleSpec)
    (content : ContentSpec) (fn : FILE_NAME) (D : WString) (fuel : Nat) :
    ∀ (idx : Nat) (cab : WString), idx + fuel ≤ 4294967296 →
      (∀ i, idx ≤ i → i < idx + fuel →
        (formatSampleFileName env.platform content fn D i).length + 1 ≤ MAX_PATH
        ∧ candidateName env.platform aSpec content fn D i ∈ N) →
      uniqueNameLoop env N aSpec content (some fn) D fuel idx cab = .error .diverges := by
  induction fuel with
  | zero => intro idx cab _ _; rfl
  | succ fuel ih =>
    intro idx cab hb hall
    obtain ⟨hf, hmem⟩ := hall idx (le_refl _) (by omega)
    simp only [uniqueNameLoop, CreateSampleFileName]
    rw [if_neg (by omega)]
    simp only
    rw [if_neg (by decide)]
    have hcand : (if (!aSpec.Name.isEmpty) = true then
          aSpec.Name ++ ['\\'] ++ sanitize env.platform
            (formatSampleFileName env.platform content fn D idx)
        else sanitize env.platform (formatSampleFileName env.platform content fn D idx))
        = candidateName env.platform aSpec content fn D idx := rfl
    simp only [hcand]
    rw [if_pos hmem]
    cases fuel with
    | zero => rfl
    | succ fuel =>
      have hadd : add32 idx 1 = idx + 1 := by
        unfold add32
        exact Nat.mod_eq_of_lt (by omega)
      rw [hadd]
      exact ih (idx + 1) _ (by omega) (fun k hk1 hk2 => hall k (by omega) (by omega))

/-- Every name of index below `2^32` that the format strings give for `foo.txt` and the
unnamed stream fits `tmpName`. -/
theorem fooName_fits (i : Nat) (hi : i < 4294967296) :
    (formatSampleFileName okEnv.platform dataContent fooName [] i).length + 1 ≤ MAX_PATH := by
  rw [formatSampleFileName_length]
  have hd := fmtDec_length_le i hi
  have e1 : (fmtParent okEnv.platform fooName.ParentDirectory).length = 16 := by rfl
  have e2 : (cstr fooName.FileName).length = 7 := by rfl
  have e3 : (pContentOf dataContent.Type_).length = 4 := by rfl
  rw [e1, e2, e3]
  simp only [List.length_nil, ne_eq, not_true_eq_false, if_false, MAX_PATH]
  split_ifs <;> omega

/-- C12 (amended). On a platform where no decimal digit is white space, and for a fixed
non-null file-name attribute, data-stream name and content type, `CreateSampleFileName`
is injective in the index: whenever it returns a name for `i` and a name for `j` with
`i` different from `j`, the two sanitized names are different strings.  Hence the
uniqueness loop of `AddSamplesForMatch` returns on every Name Registry with fewer than
`2^32` names, provided that the name of every index below `2^32` fits `tmpName`. -/
theorem CreateSampleFileName_injective (env : Env)
    (hdig : ∀ c ∈ "0123456789".toList, env.platform.iswspace c = false)
    (content : ContentSpec) (fn : FILE_NAME) (D : WString) :
    (∀ (i j : Nat) (cab1 cab2 : WString) (hr1 hr2 : HRESULT) (n1 n2 : WString), i ≠ j →
        CreateSampleFileName env.platform content (some fn) D i cab1 = .ok (hr1, n1) →
        CreateSampleFileName env.platform content (some fn) D j cab2 = .ok (hr2, n2) →
        n1 ≠ n2)
    ∧ ∀ (N : List WString) (aSpec : SampleSpec), N.length < 4294967296 →
        (∀ i, i < 4294967296 →
          (formatSampleFileName env.platform content fn D i).length + 1 ≤ MAX_PATH) →
        ∃ r, uniqueName env N aSpec content (some fn) D = .ok r := by
  refine ⟨?_, ?_⟩
  · intro i j cab1 cab2 hr1 hr2 n1 n2 hij h1 h2 heq
    simp only [CreateSampleFileName] at h1 h2
    split at h1
    · cases h1
    split at h2
    · cases h2
    simp only [Except.ok.injEq, Prod.mk.injEq] at h1 h2
    rw [← h1.2, ← h2.2] at heq
    exact hij (sanitized_name_injective env.platform hdig content fn D i j heq)
  · intro N aSpec hN hfit
    obtain ⟨i, hi, habs⟩ := candidate_absent env.platform hdig aSpec content fn D N hN
    exact uniqueNameLoop_returns env N aSpec content fn D 4294967296 0 [] (by omega)
      (fun k _ hk => hfit k (by omega)) ⟨i, Nat.zero_le _, by omega, habs⟩

/-- The names of `foo.txt` for the indices `1` and `2` on the platform of the examples,
and the loop on the Name Registry of scenario 4, which returns the name of index `2`. -/
theorem CreateSampleFileName_injective_witness :
    ((∀ c ∈ "0123456789".toList, okEnv.platform.iswspace c = false)
      ∧ CreateSampleFileName okEnv.platform dataContent (some fooName) [] 1 []
          = .ok (.S_OK, "000100000000000A__foo.txt_1_data".toList)
      ∧ CreateSampleFileName okEnv.platform dataContent (some fooName) [] 2 []
          = .ok (.S_OK, "000100000000000A__foo.txt_2_data".toList)
      ∧ (∀ i, i < 4294967296 →
          (formatSampleFileName okEnv.platform dataContent fooName [] i).length + 1 ≤ MAX_PATH)
      ∧ uniqueName okEnv afterTwo400.SampleNames (spec1 noLimits) dataContent (some fooName) []
          = .ok "000100000000000A__foo.txt_2_data".toList)
    ∧ (
    (∀ (i j : Nat) (cab1 cab2 : WString) (hr1 hr2 : HRESULT) (n1 n2 : WString), i ≠ j →
        CreateSampleFileName okEnv.platform dataContent (some fooName) [] i cab1 = .ok (hr1, n1) →
        CreateSampleFileName okEnv.platform dataContent (some fooName) [] j cab2 = .ok (hr2, n2) →
        n1 ≠ n2)
    ∧ ∀ (N : List WString) (aSpec : SampleSpec), N.length < 4294967296 →
        (∀ i, i < 4294967296 →
          (formatSampleFileName okEnv.platform dataContent fooName [] i).length + 1 ≤ MAX_PATH) →
        ∃ r, uniqueName okEnv N aSpec dataContent (some fooName) [] = .ok r) :=
  ⟨⟨by decide, by rfl, by rfl, fooName_fits, by rfl⟩,
    CreateSampleFileName_injective okEnv (by decide) dataContent fooName []⟩

/-- C12, counterexample to the claim as worded: a Name Registry that holds the `2^32`
candidates of `foo.txt` (unnamed stream, content `data`, spec without a name), one per
`DWORD` index.  It is finite, and the uniqueness loop never leaves: after `2^32` rounds
the index is `0` again and the registry is as it was. -/
theorem CreateSampleFileName_injective_counterexample :
    ((List.range 4294967296).map
        (candidateName okEnv.platform (spec1 noLimits) dataContent fooName [])).length
      = 4294967296
    ∧ uniqueName okEnv
        ((List.range 4294967296).map
          (candidateName okEnv.platform (spec1 noLimits) dataContent fooName []))
        (spec1 noLimits) dataContent (some fooName) [] = .error .diverges := by
  refine ⟨by rw [List.length_map, List.length_range], ?_⟩
  exact uniqueNameLoop_diverges okEnv _ (spec1 noLimits) dataContent fooName [] 4294967296 0 []
    (by omega)
    (fun i _ hi => ⟨fooName_fits i (by omega),
      List.mem_map.2 ⟨i, List.mem_range.2 (by omega), rfl⟩⟩)

/-- C21 (the code at the failing input). Global quota of 15 bytes in total; `\foo.txt`
(10 bytes) is delivered twice.  The first round collects it.  In the second round the
status is `GlobalMaxBytesTotal`, `AddSamplesForMatch` signals the duplicate (`S_FALSE`)
and leaves the registry as it is, and the step sets the sticky flag
`bMaxBytesTotalReached` of the global limits, which was not set before. -/
theorem duplicate_sets_sticky_flag :
    ∃ m1 m2, ingestMatches okEnv [some fooMatch] (mkMain total15 noLimits) = .ok m1
      ∧ ingestAttribute okEnv fooMatch 0 (mkAttr 0 10 "") m1
          = .ok (.GlobalMaxBytesTotal, .S_FALSE, m2)
      ∧ ingestMatches okEnv [some fooMatch, some fooMatch] (mkMain total15 noLimits) = .ok m2
      ∧ m2.Samples = m1.Samples ∧ m2.SampleNames = m1.SampleNames
      ∧ m1.GlobalLimits.bMaxBytesTotalReached = false
      ∧ m2.GlobalLimits.bMaxBytesTotalReached = true
      ∧ m2.GlobalLimits ≠ m1.GlobalLimits :=
  ⟨_, _, by rfl, by rfl, by rfl, by rfl, by rfl, by rfl, by rfl, by decide⟩

/-- C23 (the code at the failing input). No limit configured.  Two files of `2^63` bytes
each are collected one after the other: the step for the second takes both byte totals
from `2^63` to `0`.  And in a state that has counted `2^32 - 1` samples, the step for
one more sample takes both counts to `0`. -/
theorem accumulators_wrap_around :
    (∃ m1 m2, ingestMatches okEnv [some (hugeMatch 1)] (mkMain noLimits noLimits) = .ok m1
      ∧ ingestAttribute okEnv (hugeMatch 2) 0 (mkAttr 0 9223372036854775808 "") m1
          = .ok (.SampleWithinLimits, .S_OK, m2)
      ∧ m1.GlobalLimits.dwlAccumulatedBytesTotal = 9223372036854775808
      ∧ m2.GlobalLimits.dwlAccumulatedBytesTotal = 0
      ∧ m1.config.listofSpecs.map (fun s => s.PerSampleLimits.dwlAccumulatedBytesTotal)
          = [9223372036854775808]
      ∧ m2.config.listofSpecs.map (fun s => s.PerSampleLimits.dwlAccumulatedBytesTotal) = [0])
    ∧ (∃ m2, ingestAttribute okEnv fooMatch 0 (mkAttr 0 10 "")
          (mkMain { noLimits with dwAccumulatedSampleCount := 4294967295 }
            { noLimits with dwAccumulatedSampleCount := 4294967295 })
          = .ok (.SampleWithinLimits, .S_OK, m2)
      ∧ m2.GlobalLimits.dwAccumulatedSampleCount = 0
      ∧ m2.config.listofSpecs.map (fun s => s.PerSampleLimits.dwAccumulatedSampleCount) = [0]) :=
  ⟨⟨_, _, by rfl, by rfl, by rfl, by rfl, by rfl, by rfl⟩, ⟨_, by rfl, by rfl, by rfl⟩⟩

/-- C29 (the code at the failing input). The spec has a quota of 1000 bytes in total and
has collected 500 bytes; the next attribute reports `2^64 - 400` bytes.  The true sum is
far above the quota, the `DWORDLONG` sum is 100, the status is `SampleWithinLimits`, the
sample is registered for collection and the accumulated total of the spec becomes 100. -/
theorem byte_total_quota_wraps :
    ∃ m1 m2, ingestMatches okEnv [some match500] (mkMain noLimits quota1000) = .ok m1
      ∧ m1.GlobalLimits.bIgnoreLimits = false
      ∧ m1.config.listofSpecs.map (fun s => (s.PerSampleLimits.dwlMaxBytesTotal,
          s.PerSampleLimits.dwlAccumulatedBytesTotal)) = [(1000, 500)]
      ∧ SampleLimitStatus m1.GlobalLimits { quota1000 with dwlAccumulatedBytesTotal := 500 }
          18446744073709551216 = .SampleWithinLimits
      ∧ 18446744073709551216 + 500 > 1000
      ∧ add64 18446744073709551216 500 = 100
      ∧ ingestAttribute okEnv wrapMatch 0 (mkAttr 0 18446744073709551216 "") m1
          = .ok (.SampleWithinLimits, .S_OK, m2)
      ∧ m2.Samples.map (fun s => (s.FRN, s.OffLimits, s.SampleSize))
          = [(1, false, 500), (2, false, 18446744073709551216)]
      ∧ m2.config.listofSpecs.map (fun s => s.PerSampleLimits.dwlAccumulatedBytesTotal) = [100] :=
  ⟨_, _, by rfl, by rfl, by rfl, by rfl, by decide, by rfl, by rfl, by rfl, by rfl⟩

/-- C25 (the code at the failing input). An attribute matched by the YARA rules `rule1`
and `rule2`: the `YaraRules` cell of its manifest line is `rule1; rule2; `, with a
separator after the last rule.  For any rules, the cell is each rule followed by the
separator. -/
theorem yara_rules_trailing_separator :
    (∃ m1, AddSamplesForMatch okEnv .SampleWithinLimits (spec1 noLimits) yaraMatch
          (mkMain noLimits noLimits) = .ok (.S_OK, m1)
      ∧ (m1.Samples.flatMap (rowsOf okEnv)).map (fun r => r[27]?)
          = [some (.WriteString "rule1; rule2; ".toList)])
    ∧ ∀ rules : List WString, joinRules rules = rules.flatMap (fun r => r ++ "; ".toList) := by
  refine ⟨⟨_, by rfl, by rfl⟩, ?_⟩
  intro rules
  have key : ∀ (l : List WString) (acc : WString),
      l.foldl (fun acc r => acc ++ r ++ "; ".toList) acc
        = acc ++ l.flatMap (fun r => r ++ "; ".toList) := by
    intro l
    induction l with
    | nil => intro acc; simp
    | cons r rest ih =>
      intro acc
      rw [List.foldl_cons, ih, List.flatMap_cons]
      simp only [List.append_assoc]
  unfold joinRules
  rw [key]
  rfl

/-- C24 (the code at the failing input). The strings of `\foo.txt` (10 bytes) collected
into a directory, the strings reader producing 3 bytes when copied: the sink copies the
pipeline, and the manifest line says `SampleSize = 10`, the size the pipeline reported
when `ConfigureSampleStreams` built it. -/
theorem sample_size_is_reported_size :
    ∃ m1, ingestMatches stringsEnv [some fooMatch] stringsMain = .ok m1
      ∧ m1.Samples.map (fun s => (s.SampleName, s.OffLimits, s.CopyStream, s.SampleSize))
          = [("000100000000000A_foo.txt_strings".toList, false,
              some (.strings (.source 0 10) 0 0), 10)]
      ∧ stringsEnv.GetSize (.strings (.source 0 10) 0 0) = 10
      ∧ stringsEnv.BytesWritten (.strings (.source 0 10) 0 0) = 3
      ∧ (CollectMatchingSamples_directory stringsEnv "out".toList m1.Samples).2 = .ok .S_OK
      ∧ (CollectMatchingSamples_directory stringsEnv "out".toList m1.Samples).1.filterMap
          SinkEvent.payloadOf
          = [("000100000000000A_foo.txt_strings".toList, some (.strings (.source 0 10) 0 0))]
      ∧ ((CollectMatchingSamples_directory stringsEnv "out".toList m1.Samples).1.filterMap
          SinkEvent.rowOf).map (fun r => r[6]?) = [some (.WriteFileSize 10)]
      ∧ ((CollectMatchingSamples_archive stringsEnv m1.Samples).1.filterMap
          SinkEvent.rowOf).map (fun r => r[6]?) = [some (.WriteFileSize 10)] :=
  ⟨_, by rfl, by rfl, by rfl, by rfl, by rfl, by rfl, by rfl, by rfl⟩

/-- The search for the governing spec: the position found is that of the first spec
whose `Terms` hold the term; nothing is found exactly when no spec holds it. -/
theorem findSpec_first (Term : SearchTerm) (specs : List SampleSpec) :
    (findSpec Term specs = none ↔ ∀ b ∈ specs, b.Terms.any (fun t => t.id == Term.id) = false)
    ∧ ∀ i, findSpec Term specs = some i →
        ∃ aSpec, specs[i]? = some aSpec ∧ aSpec.Terms.any (fun t => t.id == Term.id) = true
          ∧ ∀ j b, j < i → specs[j]? = some b → b.Terms.any (fun t => t.id == Term.id) = false := by
  induction specs with
  | nil =>
    refine ⟨by simp [findSpec], ?_⟩
    intro i h
    simp [findSpec] at h
  | cons a rest ih =>
    obtain ⟨ih1, ih2⟩ := ih
    by_cases ha : a.Terms.any (fun t => t.id == Term.id) = true
    · refine ⟨?_, ?_⟩
      · simp only [findSpec, ha, if_true]
        constructor
        · intro h; cases h
        · intro h
          have := h a (List.mem_cons_self _ _)
          rw [ha] at this
          cases this
      · intro i h
        simp only [findSpec, ha, if_true, Option.some.injEq] at h
        subst h
        exact ⟨a, List.getElem?_cons_zero, ha, fun j b hj => absurd hj (Nat.not_lt_zero _)⟩
    · have ha1 : a.Terms.any (fun t => t.id == Term.id) = false := by
        cases hv : a.Terms.any (fun t => t.id == Term.id)
        · rfl
        · exact absurd hv ha
      refine ⟨?_, ?_⟩
      · simp only [findSpec, ha, if_false, Option.map_eq_none', ih1, List.mem_cons,
          forall_eq_or_imp, ha1, true_and, Bool.false_eq_true]
      · intro i h
        simp only [findSpec, ha, if_false, Option.map_eq_some', Bool.false_eq_true] at h
        obtain ⟨k, hk, rfl⟩ := h
        obtain ⟨aSpec, e1, e2, e3⟩ := ih2 k hk
        refine ⟨aSpec, by simpa using e1, e2, ?_⟩
        intro j b hj hb
        cases j with
        | zero =>
          simp only [List.getElem?_cons_zero, Option.some.injEq] at hb
          rw [← hb]
          exact ha1
        | succ j =>
          simp only [List.getElem?_cons_succ] at hb
          exact e3 j b (by omega) hb

/-- The attribute loop of the callback writes to the limits of the spec at the given
position and to no other part of the list of specs. -/
theorem ingestAttributes_specs (env : Env) (aMatch : Match) (i : Nat)
    (attrs : List AttributeMatch) :
    ∀ (m m1 : Main), ingestAttributes env aMatch i attrs m = .ok m1 →
      (∀ j, j ≠ i → m1.config.listofSpecs[j]? = m.config.listofSpecs[j]?)
      ∧ ∀ aSpec, m.config.listofSpecs[i]? = some aSpec →
          ∃ aSpec1, m1.config.listofSpecs[i]? = some aSpec1
            ∧ aSpec1.Name = aSpec.Name ∧ aSpec1.Content = aSpec.Content
            ∧ aSpec1.Terms = aSpec.Terms := by
  induction attrs with
  | nil =>
    intro m m1 h
    simp only [ingestAttributes, Except.ok.injEq] at h
    subst h
    exact ⟨fun _ _ => rfl, fun aSpec ha => ⟨aSpec, ha, rfl, rfl, rfl⟩⟩
  | cons attr rest ih =>
    intro m m1 h
    simp only [ingestAttributes] at h
    split at h
    · cases h
    rename_i status hr m0 hstep
    obtain ⟨aSpec0, mm, s1, -, -, -, -, -, s7⟩ := ingestAttribute_ok env aMatch i attr m _ _ _ hstep
    obtain ⟨r1, r2⟩ := ih m0 m1 h
    refine ⟨?_, ?_⟩
    · intro j hj
      rw [r1 j hj, s7, setSpecLimits_other _ _ _ _ hj]
    · intro aSpec ha
      rw [s1] at ha
      cases ha
      have hsame := setSpecLimits_same m.config.listofSpecs i
        (applyStatus status hr (env.GetSize attr.DataStream) m.GlobalLimits
          aSpec0.PerSampleLimits).2 aSpec0 s1
      rw [← s7] at hsame
      obtain ⟨aSpec1, q1, q2, q3, q4⟩ := r2 _ hsame
      exact ⟨aSpec1, q1, q2, q3, q4⟩

/-- C26. For every match with at least one hard-link name: the position that
`FindMatchingSamples` finds for it is that of the first spec, in configuration order,
whose `Terms` hold the term of the match; when no spec holds the term, or when the match
has no matching attribute, the callback leaves the whole state (Sample Registry, Name
Registry, global limits and the limits of every spec) as it is; otherwise the callback is
the attribute loop run with the spec at that position, every round of which classifies
with the limits of that spec, hands that spec to `AddSamplesForMatch` and writes the new
limits back to that spec and to no other. -/
theorem governing_spec_is_first (env : Env) (aMatch : Match) (m : Main)
    (hn : aMatch.MatchingNames ≠ []) :
    (findSpec aMatch.Term m.config.listofSpecs = none
        ↔ ∀ b ∈ m.config.listofSpecs, b.Terms.any (fun t => t.id == aMatch.Term.id) = false)
    ∧ (∀ i, findSpec aMatch.Term m.config.listofSpecs = some i →
        ∃ aSpec, m.config.listofSpecs[i]? = some aSpec
          ∧ aSpec.Terms.any (fun t => t.id == aMatch.Term.id) = true
          ∧ ∀ j b, j < i → m.config.listofSpecs[j]? = some b →
              b.Terms.any (fun t => t.id == aMatch.Term.id) = false)
    ∧ (findSpec aMatch.Term m.config.listofSpecs = none → onMatch env (some aMatch) m = .ok m)
    ∧ (aMatch.MatchingAttributes = [] → onMatch env (some aMatch) m = .ok m)
    ∧ (∀ i, findSpec aMatch.Term m.config.listofSpecs = some i →
        aMatch.MatchingAttributes ≠ [] →
        onMatch env (some aMatch) m
          = ingestAttributes env aMatch i aMatch.MatchingAttributes m
        ∧ ∀ m1, onMatch env (some aMatch) m = .ok m1 →
            (∀ j, j ≠ i → m1.config.listofSpecs[j]? = m.config.listofSpecs[j]?)
            ∧ ∃ aSpec aSpec1, m.config.listofSpecs[i]? = some aSpec
                ∧ m1.config.listofSpecs[i]? = some aSpec1
                ∧ aSpec1.Name = aSpec.Name ∧ aSpec1.Content = aSpec.Content
                ∧ aSpec1.Terms = aSpec.Terms)
    ∧ ∀ (i : Nat) (attr : AttributeMatch) (m0 : Main) (status : LimitStatus) (hr : HRESULT)
        (m1 : Main), ingestAttribute env aMatch i attr m0 = .ok (status, hr, m1) →
        ∃ aSpec m2, m0.config.listofSpecs[i]? = some aSpec
          ∧ status = SampleLimitStatus m0.GlobalLimits aSpec.PerSampleLimits
              (env.GetSize attr.DataStream)
          ∧ AddSamplesForMatch env status aSpec aMatch m0 = .ok (hr, m2)
          ∧ m1.Samples = m2.Samples ∧ m1.SampleNames = m2.SampleNames
          ∧ m1.config.listofSpecs = setSpecLimits m0.config.listofSpecs i
              (applyStatus status hr (env.GetSize attr.DataStream) m0.GlobalLimits
                aSpec.PerSampleLimits).2
          ∧ ∀ j, j ≠ i → m1.config.listofSpecs[j]? = m0.config.listofSpecs[j]? := by
  obtain ⟨f1, f2⟩ := findSpec_first aMatch.Term m.config.listofSpecs
  obtain ⟨name, names, hnames⟩ := List.exists_cons_of_ne_nil hn
  refine ⟨f1, f2, ?_, ?_, ?_, ?_⟩
  · intro h
    simp only [onMatch, h]
  · intro h
    simp only [onMatch, hnames, h, List.isEmpty_nil, if_true]
    split <;> rfl
  · intro i hi hattrs
    have hne : aMatch.MatchingAttributes.isEmpty = false := by
      cases hl : aMatch.MatchingAttributes with
      | nil => exact absurd hl hattrs
      | cons a l => rfl
    have heq : onMatch env (some aMatch) m
        = ingestAttributes env aMatch i aMatch.MatchingAttributes m := by
      simp only [onMatch, hi, hnames, hne, Bool.false_eq_true, if_false]
    refine ⟨heq, ?_⟩
    intro m1 h1
    rw [heq] at h1
    obtain ⟨r1, r2⟩ := ingestAttributes_specs env aMatch i _ m m1 h1
    obtain ⟨aSpec, e1, -, -⟩ := f2 i hi
    obtain ⟨aSpec1, q1, q2, q3, q4⟩ := r2 aSpec e1
    exact ⟨r1, aSpec, aSpec1, e1, q1, q2, q3, q4⟩
  · intro i attr m0 status hr m1 h
    obtain ⟨aSpec, m2, s1, s2, s3, s4, s5, -, s7⟩ := ingestAttribute_ok env aMatch i attr m0 _ _ _ h
    refine ⟨aSpec, m2, s1, s2, s3, s4, s5, s7, ?_⟩
    intro j hj
    rw [s7, setSpecLimits_other _ _ _ _ hj]

/-- The match on `\foo.txt` through the first term, in a configuration whose first spec
holds that term and whose second spec holds it too: position `0` governs. -/
theorem governing_spec_is_first_witness :
    (fooMatch.MatchingNames ≠ []
      ∧ findSpec fooMatch.Term twoSpecsMain.config.listofSpecs = some 0
      ∧ findSpec term2 twoSpecsMain.config.listofSpecs = some 1
      ∧ (∃ m1, onMatch okEnv (some fooMatch) twoSpecsMain = .ok m1
          ∧ m1.Samples.map (fun s => s.SampleName) = ["000100000000000A_foo.txt_data".toList]
          ∧ m1.config.listofSpecs.map (fun s => s.PerSampleLimits.dwlAccumulatedBytesTotal)
              = [10, 0]))
    ∧ (
    (findSpec fooMatch.Term twoSpecsMain.config.listofSpecs = none
        ↔ ∀ b ∈ twoSpecsMain.config.listofSpecs, b.Terms.any (fun t => t.id == fooMatch.Term.id) = false)
    ∧ (∀ i, findSpec fooMatch.Term twoSpecsMain.config.listofSpecs = some i →
        ∃ aSpec, twoSpecsMain.config.listofSpecs[i]? = some aSpec
          ∧ aSpec.Terms.any (fun t => t.id == fooMatch.Term.id) = true
          ∧ ∀ j b, j < i → twoSpecsMain.config.listofSpecs[j]? = some b →
              b.Terms.any (fun t => t.id == fooMatch.Term.id) = false)
    ∧ (findSpec fooMatch.Term twoSpecsMain.config.listofSpecs = none → onMatch okEnv (some fooMatch) twoSpecsMain = .ok twoSpecsMain)
    ∧ (fooMatch.MatchingAttributes = [] → onMatch okEnv (some fooMatch) twoSpecsMain = .ok twoSpecsMain)
    ∧ (∀ i, findSpec fooMatch.Term twoSpecsMain.config.listofSpecs = some i →
        fooMatch.MatchingAttributes ≠ [] →
        onMatch okEnv (some fooMatch) twoSpecsMain
          = ingestAttributes okEnv fooMatch i fooMatch.MatchingAttributes twoSpecsMain
        ∧ ∀ m1, onMatch okEnv (some fooMatch) twoSpecsMain = .ok m1 →
            (∀ j, j ≠ i → m1.config.listofSpecs[j]? = twoSpecsMain.config.listofSpecs[j]?)
            ∧ ∃ aSpec aSpec1, twoSpecsMain.config.listofSpecs[i]? = some aSpec
                ∧ m1.config.listofSpecs[i]? = some aSpec1
                ∧ aSpec1.Name = aSpec.Name ∧ aSpec1.Content = aSpec.Content
                ∧ aSpec1.Terms = aSpec.Terms)
    ∧ ∀ (i : Nat) (attr : AttributeMatch) (m0 : Main) (status : LimitStatus) (hr : HRESULT)
        (m1 : Main), ingestAttribute okEnv fooMatch i attr m0 = .ok (status, hr, m1) →
        ∃ aSpec m2, m0.config.listofSpecs[i]? = some aSpec
          ∧ status = SampleLimitStatus m0.GlobalLimits aSpec.PerSampleLimits
              (okEnv.GetSize attr.DataStream)
          ∧ AddSamplesForMatch okEnv status aSpec fooMatch m0 = .ok (hr, m2)
          ∧ m1.Samples = m2.Samples ∧ m1.SampleNames = m2.SampleNames
          ∧ m1.config.listofSpecs = setSpecLimits m0.config.listofSpecs i
              (applyStatus status hr (okEnv.GetSize attr.DataStream) m0.GlobalLimits
                aSpec.PerSampleLimits).2
          ∧ ∀ j, j ≠ i → m1.config.listofSpecs[j]? = m0.config.listofSpecs[j]?) :=
  ⟨⟨by decide, by rfl, by rfl, _, by rfl, by rfl, by rfl⟩,
    governing_spec_is_first okEnv fooMatch twoSpecsMain (by decide)⟩

/-- When every off-limits sample has a pipeline that can be read to its end, the
operations of the off-limits hasher are the draining of each off-limits sample, in
registry order, and nothing else. -/
theorem HashOffLimitSamples_drains (env : Env) (Samples : List SampleRef)
    (hcopy : ∀ s ∈ Samples, s.OffLimits = true →
      ∃ stream, s.CopyStream = some stream ∧ FAILED (env.CopyTo stream) = false) :
    (HashOffLimitSamples env Samples).1 = (Samples.filter (fun s => s.OffLimits)).flatMap drainOf := by
  induction Samples with
  | nil => rfl
  | cons s rest ih =>
    have ih1 := ih (fun x hx => hcopy x (List.mem_cons_of_mem _ hx))
    unfold HashOffLimitSamples
    cases hoff : s.OffLimits with
    | false =>
      simp only [Bool.not_false, if_true]
      rw [List.filter_cons_of_neg (by simp [hoff])]
      exact ih1
    | true =>
      simp only [Bool.not_true, Bool.false_eq_true, if_false]
      rw [List.filter_cons_of_pos (by simp [hoff])]
      obtain ⟨stream, hcs, hf⟩ := hcopy s (List.mem_cons_self _ _) hoff
      simp only [hcs, hf, Bool.false_eq_true, if_false, List.flatMap_cons, drainOf, ih1,
        List.cons_append, List.nil_append]

/-- The first loop of the directory sink reads nothing the way the off-limits hasher
does. -/
theorem directoryPayload_no_hash (env : Env) (outputdir : WString) (Samples : List SampleRef) :
    ∀ e ∈ (directoryPayload env outputdir Samples).1, SinkEvent.hashedOf e = none := by
  induction Samples with
  | nil => intro e he; cases he
  | cons s rest ih =>
    unfold directoryPayload
    split
    · split
      · intro e he
        simp only [List.mem_singleton] at he
        subst he
        rfl
      · split
        · intro e he
          simp only [List.mem_singleton] at he
          subst he
          rfl
        · split
          · intro e he
            simp only [List.mem_cons, List.mem_singleton, List.not_mem_nil, or_false] at he
            rcases he with rfl | rfl <;> rfl
          · intro e he
            simp only [List.mem_cons] at he
            rcases he with rfl | rfl | rfl | he
            · rfl
            · rfl
            · rfl
            · exact ih e he
    · exact ih

/-- No operation of a sink reads a pipeline the way the off-limits hasher does. -/
theorem CollectMatchingSamples_no_hash (env : Env) (out : OutputEnv) (outputType : OutputType)
    (outputPath : WString) (Samples : List SampleRef) :
    ∀ e ∈ (CollectMatchingSamples env out outputType outputPath Samples).1,
      SinkEvent.hashedOf e = none := by
  have hrows : ∀ (rows : List Row) (e : SinkEvent), e ∈ rows.map SinkEvent.WriteRow →
      SinkEvent.hashedOf e = none := by
    intro rows e he
    obtain ⟨r, -, rfl⟩ := List.mem_map.1 he
    rfl
  have hP : ∀ e ∈ (archivePayload env Samples).1, SinkEvent.hashedOf e = none := by
    intro e he
    by_contra hne
    obtain ⟨v, hv⟩ := Option.ne_none_iff_exists'.1 hne
    have : v ∈ (archivePayload env Samples).1.filterMap SinkEvent.hashedOf :=
      List.mem_filterMap.2 ⟨e, he, hv⟩
    rw [archivePayload_no_hash] at this
    cases this
  have hA : ∀ e ∈ (CollectMatchingSamples_archive env Samples).1,
      SinkEvent.hashedOf e = none := by
    unfold CollectMatchingSamples_archive
    simp only
    split
    · exact hP
    · split
      · intro e he
        rcases List.mem_append.1 he with he | he
        · exact hP e he
        · simp only [List.mem_singleton] at he
          subst he
          rfl
      · intro e he
        rcases List.mem_append.1 he with he | he
        · rcases List.mem_append.1 he with he | he
          · exact hP e he
          · simp only [List.mem_singleton] at he
            subst he
            rfl
        · exact hrows _ e he
  have hD : ∀ e ∈ (CollectMatchingSamples_directory env outputPath Samples).1,
      SinkEvent.hashedOf e = none := by
    unfold CollectMatchingSamples_directory
    split
    · intro e he; cases he
    · simp only
      split
      · exact directoryPayload_no_hash env outputPath Samples
      · intro e he
        rcases List.mem_append.1 he with he | he
        · exact directoryPayload_no_hash env outputPath Samples e he
        · exact hrows _ e he
  have hF : ∀ (rows : List Row), ∀ e ∈ (finalizeArchive env out rows).1,
      SinkEvent.hashedOf e = none := by
    intro rows e he
    unfold finalizeArchive at he
    simp only [List.mem_append, List.mem_singleton] at he
    rcases he with (he | he) | he
    · split at he
      · simp only [List.mem_singleton] at he
        subst he
        rfl
      · cases he
    · split at he
      · simp only [List.mem_singleton] at he
        subst he
        rfl
      · cases he
    · subst he
      rfl
  have aux : ∀ r, CollectMatchingSamples env out outputType outputPath Samples = r →
      ∀ e ∈ r.1, SinkEvent.hashedOf e = none := by
    intro r hr
    unfold CollectMatchingSamples at hr
    dsimp only at hr
    repeat' split at hr
    all_goals subst hr
    all_goals intro e he
    all_goals first
      | exact absurd he (List.not_mem_nil _)
      | exact hA e he
      | exact hD e he
      | (rcases List.mem_append.1 he with he | he
         · exact hA e he
         · exact hF _ e he)
  exact aux _ rfl

/-- C27 (amended). Let `FindMatchingSamples` have left the registry, and let every
off-limits sample of it have a pipeline that can be read to its end.  The operations of
`Run` are those of the hasher phase followed by those of the sink, and the sink drains
nothing into the null sink.  When off-limits samples are to be reported and a crypto
algorithm is selected, the hasher phase drains the pipeline of every off-limits sample of
the registry, in registry order, and does nothing else (so it drains no sample with
`OffLimits = false`); when either condition is false it does nothing. -/
theorem off_limits_drained_before_sink (env : Env) (out : OutputEnv) (outputType : OutputType)
    (outputPath : WString) (found : List (Option Match)) (m0 m1 : Main)
    (hi : ingestMatches env found m0 = .ok m1)
    (hcopy : ∀ s ∈ m1.Samples, s.OffLimits = true →
      ∃ stream, s.CopyStream = some stream ∧ FAILED (env.CopyTo stream) = false) :
    (Run env out outputType outputPath found m0).1
        = (hashPhase env m1).1 ++ (CollectMatchingSamples env out outputType outputPath m1.Samples).1
    ∧ (∀ e ∈ (CollectMatchingSamples env out outputType outputPath m1.Samples).1,
        SinkEvent.hashedOf e = none)
    ∧ ((m1.config.bReportAll && decide (m1.config.CryptoHashAlgs ≠ 0)) = true →
        (hashPhase env m1).1 = (m1.Samples.filter (fun s => s.OffLimits)).flatMap drainOf)
    ∧ ((m1.config.bReportAll && decide (m1.config.CryptoHashAlgs ≠ 0)) = false →
        (hashPhase env m1).1 = []) := by
  have hall := HashOffLimitSamples_all env m1.Samples hcopy
  have hres : (hashPhase env m1).2 = .ok .S_OK := by
    unfold hashPhase
    split
    · exact hall.2
    · rfl
  refine ⟨(Run_after_hasher env out outputType outputPath found m0 m1 .S_OK hi hres).1,
    CollectMatchingSamples_no_hash env out outputType outputPath m1.Samples, ?_, ?_⟩
  · intro hen
    unfold hashPhase
    rw [if_pos hen]
    exact HashOffLimitSamples_drains env m1.Samples hcopy
  · intro hen
    unfold hashPhase
    rw [if_neg (by rw [hen]; exact Bool.false_ne_true)]

/-- Scenario 4 with off-limits samples reported and a crypto algorithm selected, three
400-byte matches, archive output: the third sample is drained, then the first two are
added to the archive. -/
theorem off_limits_drained_before_sink_witness :
    (ingestMatches okEnv [some (match400 1), some (match400 2), some (match400 3)]
        reportAll400 = .ok reportAllThree400
      ∧ (∀ s ∈ reportAllThree400.Samples, s.OffLimits = true →
          ∃ stream, s.CopyStream = some stream ∧ FAILED (okEnv.CopyTo stream) = false)
      ∧ (Run okEnv okOut .Archive "out.7z".toList
            [some (match400 1), some (match400 2), some (match400 3)] reportAll400).2
          = .ok .S_OK
      ∧ (Run okEnv okOut .Archive "out.7z".toList
            [some (match400 1), some (match400 2), some (match400 3)] reportAll400).1.take 4
          = [.HashCopy (.cryptoHash 1 (.source 0 400)) "000100000000000A__foo.txt_2_data".toList,
             .HashClose (.cryptoHash 1 (.source 0 400)) "000100000000000A__foo.txt_2_data".toList,
             .AddStream "000100000000000A_foo.txt_data".toList "\\foo.txt".toList
               (some (.cryptoHash 1 (.source 0 400))),
             .AddStream "000100000000000A__foo.txt_1_data".toList "\\foo.txt".toList
               (some (.cryptoHash 1 (.source 0 400)))])
    ∧ (
    (Run okEnv okOut .Archive "out.7z".toList 
        [some (match400 1), some (match400 2), some (match400 3)] reportAll400).1
        = (hashPhase okEnv reportAllThree400).1 ++ (CollectMatchingSamples okEnv okOut .Archive "out.7z".toList reportAllThree400.Samples).1
    ∧ (∀ e ∈ (CollectMatchingSamples okEnv okOut .Archive "out.7z".toList reportAllThree400.Samples).1,
        SinkEvent.hashedOf e = none)
    ∧ ((reportAllThree400.config.bReportAll && decide (reportAllThree400.config.CryptoHashAlgs ≠ 0)) = true →
        (hashPhase okEnv reportAllThree400).1 = (reportAllThree400.Samples.filter (fun s => s.OffLimits)).flatMap drainOf)
    ∧ ((reportAllThree400.config.bReportAll && decide (reportAllThree400.config.CryptoHashAlgs ≠ 0)) = false →
        (hashPhase okEnv reportAllThree400).1 = [])) :=
  ⟨⟨by rfl, by decide, by rfl, by rfl⟩,
    off_limits_drained_before_sink okEnv okOut .Archive "out.7z".toList
      [some (match400 1), some (match400 2), some (match400 3)] reportAll400
      reportAllThree400 (by rfl) (by decide)⟩

/-- C27, counterexample to the claim as worded: off-limits samples reported, a crypto
algorithm selected, four 400-byte matches under a quota of 1000 bytes (two samples within
limits, two off-limits), and no pipeline can be copied.  The hasher leaves its loop at
the failed `CopyTo` of the third sample: the fourth, off-limits, sample is never drained,
and the run goes on to the sink and returns `S_OK`. -/
theorem off_limits_drained_before_sink_counterexample :
    ingestMatches copyFailsEnv [some (match400 1), some (match400 2), some (match400 3), some (match400 4)]
        reportAll400 = .ok reportAllFour400
    ∧ reportAllFour400.Samples.map (fun s => (s.SampleName, s.OffLimits))
        = [("000100000000000A_foo.txt_data".toList, false),
           ("000100000000000A__foo.txt_1_data".toList, false),
           ("000100000000000A__foo.txt_2_data".toList, true),
           ("000100000000000A__foo.txt_3_data".toList, true)]
    ∧ (reportAllFour400.config.bReportAll
        && decide (reportAllFour400.config.CryptoHashAlgs ≠ 0)) = true
    ∧ (Run copyFailsEnv okOut .Archive "out.7z".toList
          [some (match400 1), some (match400 2), some (match400 3), some (match400 4)]
          reportAll400).1.filterMap SinkEvent.hashedOf
        = [("000100000000000A__foo.txt_2_data".toList, some (.cryptoHash 1 (.source 0 400)))]
    ∧ (Run copyFailsEnv okOut .Archive "out.7z".toList
          [some (match400 1), some (match400 2), some (match400 3), some (match400 4)]
          reportAll400).2 = .ok .S_OK :=
  ⟨by rfl, by rfl, by rfl, by rfl, by rfl⟩

/-- The hard-link loop on hard links that all have a `$FILE_NAME`: it appends one name
per hard link to the Name Registry, all of them new and pairwise different, and the name
the sample ends with is the one appended last. -/
theorem nameSample_allocates (env : Env) (aSpec : SampleSpec) (anAttr : AttributeMatch) (cd : Nat)
    (names : List NameMatch) (hfn : ∀ name ∈ names, name.FILENAME ≠ none) :
    ∀ (s : SampleRef) (N : List WString) (s1 : SampleRef) (N1 : List WString),
      nameSample env aSpec anAttr cd names s N = .ok (s1, N1) →
      ∃ added, N1 = N ++ added ∧ added.length = names.length ∧ added.Nodup
        ∧ (∀ a ∈ added, a ∉ N) ∧ (names = [] → s1 = s)
        ∧ (names ≠ [] → added.getLast? = some s1.SampleName) := by
  induction names with
  | nil =>
    intro s N s1 N1 h
    simp only [nameSample, Except.ok.injEq, Prod.mk.injEq] at h
    refine ⟨[], by simp [h.2], rfl, List.nodup_nil, ?_, fun _ => h.1.symm, fun hne => absurd rfl hne⟩
    intro a ha
    cases ha
  | cons name rest ih =>
    intro s N s1 N1 h
    obtain ⟨fn, hfn1⟩ := Option.ne_none_iff_exists'.1 (hfn name (List.mem_cons_self _ _))
    simp only [nameSample, hfn1] at h
    split at h
    · cases h
    rename_i cab hu
    obtain ⟨u1, u2, -⟩ := uniqueName_least env N aSpec _ fn _ cab hu
    rw [u2] at h
    obtain ⟨added, e1, e2, e3, e4, e5, e6⟩ :=
      ih (fun x hx => hfn x (List.mem_cons_of_mem _ hx)) _ _ _ _ h
    refine ⟨cab :: added, ?_, ?_, ?_, ?_, ?_, ?_⟩
    · rw [e1]; simp
    · simp [e2]
    · exact List.nodup_cons.2 ⟨fun hmem => e4 cab hmem (by simp), e3⟩
    · intro a ha
      rcases List.mem_cons.1 ha with rfl | ha
      · exact u1
      · exact fun hin => e4 a ha (List.mem_append_left _ hin)
    · intro hnil
      cases hnil
    · intro _
      by_cases hr : rest = []
      · have hnil : added = [] := List.length_eq_zero.1 (by rw [e2, hr]; rfl)
        rw [hnil, e5 hr]
        rfl
      · have h6 := e6 hr
        cases added with
        | nil => simp at h6
        | cons b l =>
          rw [List.getLast?_cons_cons]
          exact h6

/-- The attribute loop on a match whose hard links all have a `$FILE_NAME`: the Name
Registry grows by one block of names per sample added, each block holding one name per
hard link and ending with the name stored on its sample; all these names are new and
pairwise different. -/
theorem addSamplesLoop_blocks (env : Env) (status : LimitStatus) (aSpec : SampleSpec)
    (aMatch : Match) (hfn : ∀ name ∈ aMatch.MatchingNames, name.FILENAME ≠ none)
    (hne : aMatch.MatchingNames ≠ []) (attrs : List AttributeMatch) :
    ∀ (i : Nat) (hr0 : HRESULT) (m : Main) (hr : HRESULT) (m1 : Main),
      addSamplesLoop env status aSpec aMatch attrs i hr0 m = .ok (hr, m1) →
      ∃ (built : List SampleRef) (blocks : List (List WString)),
        m1.Samples = m.Samples ++ built ∧ m1.SampleNames = m.SampleNames ++ blocks.flatten
        ∧ List.Forall₂ (fun s block => block.length = aMatch.MatchingNames.length
            ∧ block.getLast? = some s.SampleName) built blocks
        ∧ blocks.flatten.Nodup ∧ ∀ a ∈ blocks.flatten, a ∉ m.SampleNames := by
  induction attrs with
  | nil =>
    intro i hr0 m hr m1 h
    simp only [addSamplesLoop] at h
    cases h
    exact ⟨[], [], by simp, by simp, List.Forall₂.nil, by simp, by simp⟩
  | cons anAttr rest ih =>
    intro i hr0 m hr m1 h
    simp only [addSamplesLoop] at h
    split at h
    · exact ih _ _ _ _ _ h
    · split at h
      · cases h
      rename_i named N hn
      split at h
      · cases h
      rename_i hr1 configured hcfg
      obtain ⟨added, a1, a2, a3, a4, -, a6⟩ :=
        nameSample_allocates env aSpec anAttr _ _ hfn _ _ _ _ hn
      obtain ⟨-, hsame⟩ := ConfigureSampleStreams_frame env _ _ _ _ hcfg
      obtain ⟨built, blocks, b1, b2, b3, b4, b5⟩ := ih _ _ _ _ _ h
      simp only at b1 b2 b5
      refine ⟨configured :: built, added :: blocks, ?_, ?_, ?_, ?_, ?_⟩
      · rw [b1]; simp
      · rw [b2, a1]; simp
      · exact List.Forall₂.cons ⟨a2, by rw [hsame]; exact a6 hne⟩ b3
      · rw [List.flatten_cons]
        refine List.nodup_append.2 ⟨a3, b4, ?_⟩
        intro x hx1 hx2
        exact b5 x hx2 (by rw [a1]; exact List.mem_append_right _ hx1)
      · intro x hx
        rw [List.flatten_cons] at hx
        rcases List.mem_append.1 hx with hx | hx
        · exact a4 x hx
        · exact fun hin => b5 x hx (by rw [a1]; exact List.mem_append_left _ hin)

/-- C28 (amended). Let a match with hard-link names `n1, ..., nk` (`k ≥ 1`), each with a
non-null `$FILE_NAME`, be handed to `AddSamplesForMatch` in a state where every
`SampleName` of the registry is in the Name Registry.  For every sample the call inserts,
it appends a block of `k` names to the Name Registry, one per hard link; all appended
names are new and pairwise different; the `SampleName` stored on the sample is the last
name of its block; and the `k - 1` earlier names of each block are in the Name Registry
although no sample of the registry bears them. -/
theorem hard_link_names_reserved (env : Env) (status : LimitStatus) (aSpec : SampleSpec)
    (aMatch : Match) (m : Main) (hr : HRESULT) (m1 : Main)
    (hne : aMatch.MatchingNames ≠ [])
    (hfn : ∀ name ∈ aMatch.MatchingNames, name.FILENAME ≠ none)
    (hin : ∀ s ∈ m.Samples, s.SampleName ∈ m.SampleNames)
    (h : AddSamplesForMatch env status aSpec aMatch m = .ok (hr, m1)) :
    ∃ (built : List SampleRef) (blocks : List (List WString)),
      m1.Samples = m.Samples ++ built ∧ m1.SampleNames = m.SampleNames ++ blocks.flatten
      ∧ List.Forall₂ (fun s block => block.length = aMatch.MatchingNames.length
          ∧ block.getLast? = some s.SampleName) built blocks
      ∧ blocks.flatten.Nodup ∧ (∀ a ∈ blocks.flatten, a ∉ m.SampleNames)
      ∧ ∀ block ∈ blocks, ∀ a ∈ block.dropLast,
          a ∈ m1.SampleNames ∧ ∀ s ∈ m1.Samples, s.SampleName ≠ a := by
  obtain ⟨hr0, hl, -, -⟩ := AddSamplesForMatch_ok env status aSpec aMatch m hr m1 h
  obtain ⟨built, blocks, b1, b2, b3, b4, b5⟩ :=
    addSamplesLoop_blocks env status aSpec aMatch hfn hne _ _ _ _ _ _ hl
  refine ⟨built, blocks, b1, b2, b3, b4, b5, ?_⟩
  have hlast : ∀ (l1 : List SampleRef) (l2 : List (List WString)),
      List.Forall₂ (fun s block => block.length = aMatch.MatchingNames.length
        ∧ block.getLast? = some s.SampleName) l1 l2 →
      ∀ s ∈ l1, ∃ block ∈ l2, block.getLast? = some s.SampleName := by
    intro l1 l2 hf
    induction hf with
    | nil => intro s hs; cases hs
    | cons hab _ ih =>
      intro s hs
      rcases List.mem_cons.1 hs with rfl | hs
      · exact ⟨_, List.mem_cons_self _ _, hab.2⟩
      · obtain ⟨block, hb, hg⟩ := ih s hs
        exact ⟨block, List.mem_cons_of_mem _ hb, hg⟩
  obtain ⟨n1, n2⟩ := List.nodup_flatten.1 b4
  intro block hblock a ha
  have hab : a ∈ block := List.mem_of_mem_dropLast ha
  have haf : a ∈ blocks.flatten := List.mem_flatten.2 ⟨block, hblock, hab⟩
  refine ⟨by rw [b2]; exact List.mem_append_right _ haf, ?_⟩
  intro s hs hsa
  rw [b1] at hs
  rcases List.mem_append.1 hs with hs | hs
  · exact b5 a haf (hsa ▸ hin s hs)
  · obtain ⟨blockS, hbS, hg⟩ := hlast built blocks b3 s hs
    have hsplit := List.dropLast_append_getLast? s.SampleName (by rw [hg]; rfl)
    have hmemS : a ∈ blockS := by
      rw [← hsplit, hsa]
      simp
    by_cases heq : blockS = block
    · subst heq
      have hnd := n1 blockS hbS
      rw [← hsplit] at hnd
      have hdis := (List.nodup_append.1 hnd).2.2
      exact hdis ha (by rw [hsa]; simp)
    · have hdisj := List.Pairwise.forall (fun _ _ hd => hd.symm) n2 hbS hblock heq
      exact hdisj hmemS hab

/-- A file with the hard links `\foo.txt` and `\bar.txt`, registered from empty
registries: two names are reserved, the sample bears the second. -/
theorem hard_link_names_reserved_witness :
    (linkedMatch.MatchingNames ≠ []
      ∧ (∀ name ∈ linkedMatch.MatchingNames, name.FILENAME ≠ none)
      ∧ (∀ s ∈ (mkMain noLimits noLimits).Samples,
          s.SampleName ∈ (mkMain noLimits noLimits).SampleNames)
      ∧ AddSamplesForMatch okEnv .SampleWithinLimits (spec1 noLimits) linkedMatch
          (mkMain noLimits noLimits) = .ok (.S_OK, linkedRegistered)
      ∧ linkedRegistered.SampleNames
          = ["000100000000000A_foo.txt_data".toList, "000100000000000A_bar.txt_data".toList]
      ∧ linkedRegistered.Samples.map (fun s => s.SampleName)
          = ["000100000000000A_bar.txt_data".toList])
    ∧ (
    ∃ (built : List SampleRef) (blocks : List (List WString)),
      linkedRegistered.Samples = (mkMain noLimits noLimits).Samples ++ built ∧ linkedRegistered.SampleNames = (mkMain noLimits noLimits).SampleNames ++ blocks.flatten
      ∧ List.Forall₂ (fun s block => block.length = linkedMatch.MatchingNames.length
          ∧ block.getLast? = some s.SampleName) built blocks
      ∧ blocks.flatten.Nodup ∧ (∀ a ∈ blocks.flatten, a ∉ (mkMain noLimits noLimits).SampleNames)
      ∧ ∀ block ∈ blocks, ∀ a ∈ block.dropLast,
          a ∈ linkedRegistered.SampleNames ∧ ∀ s ∈ linkedRegistered.Samples, s.SampleName ≠ a) :=
  ⟨⟨by decide, by decide, by decide, by rfl, by rfl, by rfl⟩,
    hard_link_names_reserved okEnv .SampleWithinLimits (spec1 noLimits) linkedMatch
      (mkMain noLimits noLimits) .S_OK linkedRegistered (by decide) (by decide) (by decide)
      (by rfl)⟩

/-- C28, counterexample to the claim as worded: a file whose two hard links both lack a
`$FILE_NAME`, registered from empty registries.  The sample is inserted, and the Name
Registry holds one name, the empty one, not two. -/
theorem hard_link_names_reserved_counterexample :
    unnamedLinks.MatchingNames.length = 2
    ∧ ∃ m1, AddSamplesForMatch okEnv .SampleWithinLimits (spec1 noLimits) unnamedLinks
          (mkMain noLimits noLimits) = .ok (.S_OK, m1)
        ∧ m1.Samples.map (fun s => (s.FRN, s.SampleName)) = [(42, [])]
        ∧ m1.SampleNames = [[]] :=
  ⟨by rfl, _, by rfl, by rfl, by rfl⟩

/-- The callbacks change nothing when every match delivered is a null pointer, has no
governing spec, or has hard-link names and no matching attribute. -/
theorem ingestMatches_skipped (env : Env) (m : Main) (found : List (Option Match))
    (h : ∀ aMatch ∈ found, aMatch = none ∨ ∃ a, aMatch = some a
      ∧ (findSpec a.Term m.config.listofSpecs = none
          ∨ (a.MatchingNames ≠ [] ∧ a.MatchingAttributes = []))) :
    ingestMatches env found m = .ok m := by
  induction found with
  | nil => rfl
  | cons aMatch rest ih =>
    have hstep : onMatch env aMatch m = .ok m := by
      rcases h aMatch (List.mem_cons_self _ _) with rfl | ⟨a, rfl, hs | ⟨hn, ha⟩⟩
      · rfl
      · simp only [onMatch, hs]
      · obtain ⟨name, names, hnames⟩ := List.exists_cons_of_ne_nil hn
        simp only [onMatch, hnames, ha, List.isEmpty_nil, if_true]
        split <;> rfl
    simp only [ingestMatches, hstep]
    exact ih (fun x hx => h x (List.mem_cons_of_mem _ hx))

/-- C30. Whatever `InitializeYara` and `Find` return and whatever the finder delivers,
`FindMatchingSamples` returns `S_OK` whenever its callbacks return; it does return, with
the state unchanged, when every match delivered is a null pointer, has no governing spec
or has names but no matching attribute.  Consequently `Run` never takes its "failed while
matching samples" branch: it goes on to the hasher phase and, when that phase returns
(it always does when the hasher is not enabled), to the sink traversal, whose operations
follow those of the hasher phase and whose failure is the only failure `Run` returns. -/
theorem FindMatchingSamples_always_S_OK (env : Env) (out : OutputEnv) (outputType : OutputType)
    (outputPath : WString) (found : List (Option Match)) (m : Main) :
    (∀ (hr : HRESULT) (m1 : Main), FindMatchingSamples env found m = .ok (hr, m1) →
        hr = .S_OK ∧ ingestMatches env found m = .ok m1)
    ∧ ((∀ aMatch ∈ found, aMatch = none ∨ ∃ a, aMatch = some a
          ∧ (findSpec a.Term m.config.listofSpecs = none
              ∨ (a.MatchingNames ≠ [] ∧ a.MatchingAttributes = []))) →
        FindMatchingSamples env found m = .ok (.S_OK, m))
    ∧ ∀ m1, ingestMatches env found m = .ok m1 →
        FindMatchingSamples env found m = .ok (.S_OK, m1)
        ∧ (∀ e, (hashPhase env m1).2 = .error e →
            Run env out outputType outputPath found m = ((hashPhase env m1).1, .error e))
        ∧ (∀ hr1, (hashPhase env m1).2 = .ok hr1 →
            (Run env out outputType outputPath found m).1
              = (hashPhase env m1).1
                ++ (CollectMatchingSamples env out outputType outputPath m1.Samples).1
            ∧ (Run env out outputType outputPath found m).2
              = match (CollectMatchingSamples env out outputType outputPath m1.Samples).2 with
                | .error e => .error e
                | .ok hr2 => if FAILED hr2 then .ok hr2 else .ok .S_OK)
        ∧ ((m1.config.bReportAll && decide (m1.config.CryptoHashAlgs ≠ 0)) = false →
            (hashPhase env m1).2 = .ok .S_OK) := by
  refine ⟨?_, ?_, ?_⟩
  · intro hr m1 h
    unfold FindMatchingSamples at h
    split at h
    · cases h
    rename_i m2 hi
    simp only [Except.ok.injEq, Prod.mk.injEq] at h
    exact ⟨h.1.symm, by rw [hi, h.2]⟩
  · intro hskip
    unfold FindMatchingSamples
    rw [ingestMatches_skipped env m found hskip]
  · intro m1 hi
    have hfind : FindMatchingSamples env found m = .ok (.S_OK, m1) := by
      unfold FindMatchingSamples
      rw [hi]
    refine ⟨hfind, ?_, ?_, ?_⟩
    · intro e he
      unfold Run
      simp only [hfind, he]
      rw [if_neg (by decide)]
    · intro hr1 hh
      exact Run_after_hasher env out outputType outputPath found m m1 hr1 hi hh
    · intro hen
      unfold hashPhase
      rw [if_neg (by rw [hen]; exact Bool.false_ne_true)]

/-- A finder whose YARA initialisation and `Find` call both fail and which delivers a
null pointer, a match of a term that no spec holds and a match without attribute: both
failures are logged, `FindMatchingSamples` returns `S_OK` and the run goes on to the
sink. -/
theorem FindMatchingSamples_always_S_OK_witness :
    (FindMatchingSamples_logged finderFailsEnv = [.E_FAIL, .E_ABORT]
      ∧ findSpec fooAgain.Term (mkMain noLimits noLimits).config.listofSpecs = none
      ∧ FindMatchingSamples finderFailsEnv [none, some fooAgain, some (mkMatch 7 [])]
          (mkMain noLimits noLimits) = .ok (.S_OK, mkMain noLimits noLimits)
      ∧ ingestMatches finderFailsEnv [none, some fooAgain, some (mkMatch 7 [])]
          (mkMain noLimits noLimits) = .ok (mkMain noLimits noLimits)
      ∧ Run finderFailsEnv okOut .Archive "out.7z".toList
          [none, some fooAgain, some (mkMatch 7 [])] (mkMain noLimits noLimits)
          = ([.FlushQueue,
              .AddStream "GetThis.csv".toList "GetThis.csv".toList (some .csvStream),
              .AddStream "GetThis.log".toList "GetThis.log".toList (some .logStream),
              .Complete], .ok .S_OK))
    ∧ (
    (∀ (hr : HRESULT) (m1 : Main), FindMatchingSamples finderFailsEnv [none, some fooAgain, some (mkMatch 7 [])] (mkMain noLimits noLimits) = .ok (hr, m1) →
        hr = .S_OK ∧ ingestMatches finderFailsEnv [none, some fooAgain, some (mkMatch 7 [])] (mkMain noLimits noLimits) = .ok m1)
    ∧ ((∀ aMatch ∈ [none, some fooAgain, some (mkMatch 7 [])], aMatch = none ∨ ∃ a, aMatch = some a
          ∧ (findSpec a.Term (mkMain noLimits noLimits).config.listofSpecs = none
              ∨ (a.MatchingNames ≠ [] ∧ a.MatchingAttributes = []))) →
        FindMatchingSamples finderFailsEnv [none, some fooAgain, some (mkMatch 7 [])] (mkMain noLimits noLimits) = .ok (.S_OK, (mkMain noLimits noLimits)))
    ∧ ∀ m1, ingestMatches finderFailsEnv [none, some fooAgain, some (mkMatch 7 [])] (mkMain noLimits noLimits) = .ok m1 →
        FindMatchingSamples finderFailsEnv [none, some fooAgain, some (mkMatch 7 [])] (mkMain noLimits noLimits) = .ok (.S_OK, m1)
        ∧ (∀ e, (hashPhase finderFailsEnv m1).2 = .error e →
            Run finderFailsEnv okOut .Archive "out.7z".toList [none, some fooAgain, some (mkMatch 7 [])] (mkMain noLimits noLimits) = ((hashPhase finderFailsEnv m1).1, .error e))
        ∧ (∀ hr1, (hashPhase finderFailsEnv m1).2 = .ok hr1 →
            (Run finderFailsEnv okOut .Archive "out.7z".toList [none, some fooAgain, some (mkMatch 7 [])] (mkMain noLimits noLimits)).1
              = (hashPhase finderFailsEnv m1).1
                ++ (CollectMatchingSamples finderFailsEnv okOut .Archive "out.7z".toList m1.Samples).1
            ∧ (Run finderFailsEnv okOut .Archive "out.7z".toList [none, some fooAgain, some (mkMatch 7 [])] (mkMain noLimits noLimits)).2
              = match (CollectMatchingSamples finderFailsEnv okOut .Archive "out.7z".toList m1.Samples).2 with
                | .error e => .error e
                | .ok hr2 => if FAILED hr2 then .ok hr2 else .ok .S_OK)
        ∧ ((m1.config.bReportAll && decide (m1.config.CryptoHashAlgs ≠ 0)) = false →
            (hashPhase finderFailsEnv m1).2 = .ok .S_OK)) :=
  ⟨⟨by rfl, by rfl, by rfl, by rfl, by rfl⟩,
    FindMatchingSamples_always_S_OK finderFailsEnv okOut .Archive "out.7z".toList
      [none, some fooAgain, some (mkMatch 7 [])] (mkMain noLimits noLimits)⟩

/-- The byte-total test of the code is the byte-total rule whenever the sum fits 64
bits. -/
theorem totalExceeded64_eq (l : Limits) (n : Nat)
    (h : n + l.dwlAccumulatedBytesTotal < 18446744073709551616) :
    totalExceeded64 l n = totalExceeded l n := by
  unfold totalExceeded64 totalExceeded add64
  rw [Nat.mod_eq_of_lt h]

/-- When both byte-total sums fit 64 bits, `SampleLimitStatus` is the status of the first
rule that fires. -/
theorem SampleLimitStatus_eq_classifyRules (G L : Limits) (n : Nat)
    (hG : n + G.dwlAccumulatedBytesTotal < 18446744073709551616)
    (hL : n + L.dwlAccumulatedBytesTotal < 18446744073709551616) :
    SampleLimitStatus G L n = firstRule (classifyRules G L n) .SampleWithinLimits := by
  rw [SampleLimitStatus_eq_rules]
  unfold classifyRules64 classifyRules
  rw [totalExceeded64_eq G n hG, totalExceeded64_eq L n hL]

/-- C22 (amended). With `ignore_limits` false and a sum `n + accumulated_bytes_total` of
the global scope that fits 64 bits, when a global limit condition holds (global sample
count reached, `n` above the global `max_bytes_per_sample`, or
`n + accumulated_bytes_total` above the global `max_bytes_total`), the status is one of
the three `Global*` statuses, except that it is `LocalSampleCountLimitReached` exactly
when the global sample count is not reached and the local sample count is; it is never
`LocalMaxBytesPerSample` nor `LocalMaxBytesTotal`. -/
theorem global_dominates_local_bytes (G L : Limits) (n : Nat) (hig : G.bIgnoreLimits = false)
    (hfit : n + G.dwlAccumulatedBytesTotal < 18446744073709551616)
    (hglob : countReached G = true ∨ perSampleExceeded G n = true ∨ totalExceeded G n = true) :
    (SampleLimitStatus G L n = .GlobalSampleCountLimitReached
      ∨ SampleLimitStatus G L n = .GlobalMaxBytesPerSample
      ∨ SampleLimitStatus G L n = .GlobalMaxBytesTotal
      ∨ SampleLimitStatus G L n = .LocalSampleCountLimitReached)
    ∧ (SampleLimitStatus G L n = .LocalSampleCountLimitReached
        ↔ countReached G = false ∧ countReached L = true)
    ∧ (countReached G = true → SampleLimitStatus G L n = .GlobalSampleCountLimitReached)
    ∧ (countReached G = false → countReached L = false → perSampleExceeded G n = true →
        SampleLimitStatus G L n = .GlobalMaxBytesPerSample)
    ∧ (countReached G = false → countReached L = false → perSampleExceeded G n = false →
        SampleLimitStatus G L n = .GlobalMaxBytesTotal)
    ∧ SampleLimitStatus G L n ≠ .LocalMaxBytesPerSample
    ∧ SampleLimitStatus G L n ≠ .LocalMaxBytesTotal := by
  rw [← totalExceeded64_eq G n hfit] at hglob
  rw [SampleLimitStatus_eq_rules]
  cases h1 : countReached G <;> cases h2 : countReached L <;>
    cases h3 : perSampleExceeded G n <;> cases h4 : totalExceeded64 G n <;>
    simp_all [classifyRules64, firstRule]

/-- A 400-byte attribute under a global quota of 1000 bytes of which 800 are used, and a
local per-sample limit of 50 bytes: the sum 1200 is above the global quota and the status
is the global one. -/
theorem global_dominates_local_bytes_witness :
    (({ noLimits with dwlMaxBytesTotal := 1000, dwlAccumulatedBytesTotal := 800 } : Limits).bIgnoreLimits = false
      ∧ 400 + ({ noLimits with dwlMaxBytesTotal := 1000, dwlAccumulatedBytesTotal := 800 } : Limits).dwlAccumulatedBytesTotal < 18446744073709551616
      ∧ totalExceeded ({ noLimits with dwlMaxBytesTotal := 1000, dwlAccumulatedBytesTotal := 800 } : Limits) 400 = true
      ∧ perSampleExceeded ({ noLimits with dwlMaxBytesPerSample := 50 } : Limits) 400 = true
      ∧ SampleLimitStatus ({ noLimits with dwlMaxBytesTotal := 1000, dwlAccumulatedBytesTotal := 800 } : Limits)
          ({ noLimits with dwlMaxBytesPerSample := 50 } : Limits) 400 = .GlobalMaxBytesTotal)
    ∧ (
    (SampleLimitStatus ({ noLimits with dwlMaxBytesTotal := 1000, dwlAccumulatedBytesTotal := 800 } : Limits) ({ noLimits with dwlMaxBytesPerSample := 50 } : Limits) 400 = .GlobalSampleCountLimitReached
      ∨ SampleLimitStatus ({ noLimits with dwlMaxBytesTotal := 1000, dwlAccumulatedBytesTotal := 800 } : Limits) ({ noLimits with dwlMaxBytesPerSample := 50 } : Limits) 400 = .GlobalMaxBytesPerSample
      ∨ SampleLimitStatus ({ noLimits with dwlMaxBytesTotal := 1000, dwlAccumulatedBytesTotal := 800 } : Limits) ({ noLimits with dwlMaxBytesPerSample := 50 } : Limits) 400 = .GlobalMaxBytesTotal
      ∨ SampleLimitStatus ({ noLimits with dwlMaxBytesTotal := 1000, dwlAccumulatedBytesTotal := 800 } : Limits) ({ noLimits with dwlMaxBytesPerSample := 50 } : Limits) 400 = .LocalSampleCountLimitReached)
    ∧ (SampleLimitStatus ({ noLimits with dwlMaxBytesTotal := 1000, dwlAccumulatedBytesTotal := 800 } : Limits) ({ noLimits with dwlMaxBytesPerSample := 50 } : Limits) 400 = .LocalSampleCountLimitReached
        ↔ countReached ({ noLimits with dwlMaxBytesTotal := 1000, dwlAccumulatedBytesTotal := 800 } : Limits) = false ∧ countReached ({ noLimits with dwlMaxBytesPerSample := 50 } : Limits) = true)
    ∧ (countReached ({ noLimits with dwlMaxBytesTotal := 1000, dwlAccumulatedBytesTotal := 800 } : Limits) = true → SampleLimitStatus ({ noLimits with dwlMaxBytesTotal := 1000, dwlAccumulatedBytesTotal := 800 } : Limits) ({ noLimits with dwlMaxBytesPerSample := 50 } : Limits) 400 = .GlobalSampleCountLimitReached)
    ∧ (countReached ({ noLimits with dwlMaxBytesTotal := 1000, dwlAccumulatedBytesTotal := 800 } : Limits) = false → countReached ({ noLimits with dwlMaxBytesPerSample := 50 } : Limits) = false → perSampleExceeded ({ noLimits with dwlMaxBytesTotal := 1000, dwlAccumulatedBytesTotal := 800 } : Limits) 400 = true →
        SampleLimitStatus ({ noLimits with dwlMaxBytesTotal := 1000, dwlAccumulatedBytesTotal := 800 } : Limits) ({ noLimits with dwlMaxBytesPerSample := 50 } : Limits) 400 = .GlobalMaxBytesPerSample)
    ∧ (countReached ({ noLimits with dwlMaxBytesTotal := 1000, dwlAccumulatedBytesTotal := 800 } : Limits) = false → countReached ({ noLimits with dwlMaxBytesPerSample := 50 } : Limits) = false → perSampleExceeded ({ noLimits with dwlMaxBytesTotal := 1000, dwlAccumulatedBytesTotal := 800 } : Limits) 400 = false →
        SampleLimitStatus ({ noLimits with dwlMaxBytesTotal := 1000, dwlAccumulatedBytesTotal := 800 } : Limits) ({ noLimits with dwlMaxBytesPerSample := 50 } : Limits) 400 = .GlobalMaxBytesTotal)
    ∧ SampleLimitStatus ({ noLimits with dwlMaxBytesTotal := 1000, dwlAccumulatedBytesTotal := 800 } : Limits) ({ noLimits with dwlMaxBytesPerSample := 50 } : Limits) 400 ≠ .LocalMaxBytesPerSample
    ∧ SampleLimitStatus ({ noLimits with dwlMaxBytesTotal := 1000, dwlAccumulatedBytesTotal := 800 } : Limits) ({ noLimits with dwlMaxBytesPerSample := 50 } : Limits) 400 ≠ .LocalMaxBytesTotal) :=
  ⟨⟨by rfl, by decide, by rfl, by rfl, by rfl⟩,
    global_dominates_local_bytes { noLimits with dwlMaxBytesTotal := 1000, dwlAccumulatedBytesTotal := 800 }
      { noLimits with dwlMaxBytesPerSample := 50 } 400 (by rfl) (by decide)
      (Or.inr (Or.inr (by rfl)))⟩

/-- C22, counterexample to the claim as worded: a 1000-byte attribute under a global
per-sample limit of 100 bytes, the spec having reached its sample count (1 of 1), the
global scope having no count limit.  A global limit condition holds, and the status is
`LocalSampleCountLimitReached`: the local count rule comes before the global byte
rules. -/
theorem global_dominates_local_bytes_counterexample :
    ({ noLimits with dwlMaxBytesPerSample := 100 } : Limits).bIgnoreLimits = false
    ∧ perSampleExceeded { noLimits with dwlMaxBytesPerSample := 100 } 1000 = true
    ∧ SampleLimitStatus { noLimits with dwlMaxBytesPerSample := 100 }
        { noLimits with dwMaxSampleCount := 1, dwAccumulatedSampleCount := 1 } 1000
      = .LocalSampleCountLimitReached :=
  ⟨by rfl, by rfl, by rfl⟩

/-- C1 (the code at the failing input). Global quota of 1000 bytes of which 500 are used,
nothing else limited, data size `2^64 - 400`.  Rules (1) to (4) do not fire and rule (5)
does (`n + accumulated_bytes_total > max_bytes_total`), so the first rule that fires
gives `GlobalMaxBytesTotal`; `SampleLimitStatus` returns `SampleWithinLimits`, because it
compares the `DWORDLONG` sum, which is 100.  Whenever both byte-total sums fit 64 bits,
`SampleLimitStatus` is the status of the first rule that fires. -/
theorem SampleLimitStatus_total_rule_wraps :
    (quotaHalfUsed.bIgnoreLimits = false
      ∧ countReached quotaHalfUsed = false ∧ countReached noLimits = false
      ∧ perSampleExceeded quotaHalfUsed 18446744073709551216 = false
      ∧ quotaHalfUsed.dwlMaxBytesTotal ≠ INFINITE
      ∧ 18446744073709551216 + quotaHalfUsed.dwlAccumulatedBytesTotal
          > quotaHalfUsed.dwlMaxBytesTotal
      ∧ totalExceeded quotaHalfUsed 18446744073709551216 = true
      ∧ firstRule (classifyRules quotaHalfUsed noLimits 18446744073709551216)
          .SampleWithinLimits = .GlobalMaxBytesTotal
      ∧ add64 18446744073709551216 quotaHalfUsed.dwlAccumulatedBytesTotal = 100
      ∧ SampleLimitStatus quotaHalfUsed noLimits 18446744073709551216 = .SampleWithinLimits)
    ∧ ∀ (G L : Limits) (n : Nat), n + G.dwlAccumulatedBytesTotal < 18446744073709551616 →
        n + L.dwlAccumulatedBytesTotal < 18446744073709551616 →
        SampleLimitStatus G L n = firstRule (classifyRules G L n) .SampleWithinLimits :=
  ⟨⟨by rfl, by rfl, by rfl, by rfl, by decide, by decide, by rfl, by rfl, by rfl, by rfl⟩,
    SampleLimitStatus_eq_classifyRules⟩

/-- C4 (the code at the failing input). No limit configured.  A file of `2^64 - 1` bytes
is collected, then one of 2 bytes: the second step is within limits and not a duplicate,
so the accumulators change, but both byte totals go from `2^64 - 1` to `1` instead of
growing by 2. -/
theorem accumulators_grow_modulo :
    ∃ m1 m2, ingestMatches okEnv [some maxSizeMatch] (mkMain noLimits noLimits) = .ok m1
      ∧ ingestAttribute okEnv twoByteMatch 0 (mkAttr 0 2 "") m1
          = .ok (.SampleWithinLimits, .S_OK, m2)
      ∧ okEnv.GetSize (mkAttr 0 2 "").DataStream = 2
      ∧ m1.GlobalLimits.dwlAccumulatedBytesTotal = 18446744073709551615
      ∧ m2.GlobalLimits.dwlAccumulatedBytesTotal = 1
      ∧ m1.config.listofSpecs.map (fun s => s.PerSampleLimits.dwlAccumulatedBytesTotal)
          = [18446744073709551615]
      ∧ m2.config.listofSpecs.map (fun s => s.PerSampleLimits.dwlAccumulatedBytesTotal) = [1]
      ∧ m2.GlobalLimits.dwlAccumulatedBytesTotal
          ≠ m1.GlobalLimits.dwlAccumulatedBytesTotal + 2
      ∧ m2.Samples.map (fun s => (s.FRN, s.OffLimits)) = [(1, false), (2, false)] :=
  ⟨_, _, by rfl, by rfl, by rfl, by rfl, by rfl, by rfl, by rfl, by decide, by rfl⟩

/-- C7 (the code at the failing input). The spec has a quota of 1000 bytes in total and
starts at 0; an 800-byte file is collected; the next attribute reports `2^64 - 700`
bytes.  Its size would push the total over the quota and no earlier rule rejects it, yet
the status is `SampleWithinLimits`, not `LocalMaxBytesTotal`: the `total_reached` flag of
the spec stays unset, the sample is registered for collection and the accumulator of the
spec changes from 800 to 100. -/
theorem spec_quota_missed_on_overflow :
    ∃ m1 m2, ingestMatches okEnv [some match800] (mkMain noLimits quota1000) = .ok m1
      ∧ m1.GlobalLimits.bIgnoreLimits = false
      ∧ m1.config.listofSpecs.map (fun s => (s.PerSampleLimits.dwlMaxBytesTotal,
          s.PerSampleLimits.dwlAccumulatedBytesTotal)) = [(1000, 800)]
      ∧ 18446744073709550916 + 800 > 1000
      ∧ countReached m1.GlobalLimits = false
      ∧ perSampleExceeded m1.GlobalLimits 18446744073709550916 = false
      ∧ totalExceeded m1.GlobalLimits 18446744073709550916 = false
      ∧ m1.config.listofSpecs.map (fun s => (countReached s.PerSampleLimits,
          perSampleExceeded s.PerSampleLimits 18446744073709550916,
          totalExceeded s.PerSampleLimits 18446744073709550916)) = [(false, false, true)]
      ∧ ingestAttribute okEnv overMatch 0 (mkAttr 0 18446744073709550916 "") m1
          = .ok (.SampleWithinLimits, .S_OK, m2)
      ∧ m2.config.listofSpecs.map (fun s => (s.PerSampleLimits.dwlAccumulatedBytesTotal,
          s.PerSampleLimits.bMaxBytesTotalReached)) = [(100, false)]
      ∧ m2.Samples.map (fun s => (s.FRN, s.OffLimits)) = [(1, false), (2, false)] :=
  ⟨_, _, by rfl, by rfl, by rfl, by decide, by rfl, by rfl, by rfl, by rfl, by rfl, by rfl,
    by rfl⟩

/-- C15 (the code at the failing input). A file with two hard links, `\foo.txt` with its
`$FILE_NAME` and `\old.txt` without one, matched within limits and registered.  For that
registered sample `AddSampleRefToCSV` writes the line of the first hard link and then
dereferences the null `$FILE_NAME` of the second: one line for two hard links, and no
return; the manifest loop of the sinks stops there. -/
theorem manifest_stops_at_null_file_name :
    ∃ m1 s, AddSamplesForMatch okEnv .SampleWithinLimits (spec1 noLimits) (halfNamed 42)
          (mkMain noLimits noLimits) = .ok (.S_OK, m1)
      ∧ m1.Samples = [s] ∧ s.Matches = [halfNamed 42]
      ∧ (halfNamed 42).MatchingNames.map (fun name => (name.FullPathName, name.FILENAME.isSome))
          = [("\\foo.txt".toList, true), ("\\old.txt".toList, false)]
      ∧ (AddSampleRefToCSV okEnv.ComputerName (readDigests okEnv s)).2 = .error .fault
      ∧ (AddSampleRefToCSV okEnv.ComputerName (readDigests okEnv s)).1.map (fun r => r[4]?)
          = [some (.WriteString "\\foo.txt".toList)]
      ∧ (writeManifest okEnv m1.Samples).2 = .error .fault
      ∧ (writeManifest okEnv m1.Samples).1.length = 1 :=
  ⟨_, _, by rfl, by rfl, by rfl, by rfl, by rfl, by rfl, by rfl, by rfl⟩

/-- Manifest lines are no payload. -/
theorem rows_no_payload (rows : List Row) :
    (rows.map SinkEvent.WriteRow).filterMap SinkEvent.payloadOf = [] := by
  induction rows with
  | nil => rfl
  | cons r rest ih => simp [SinkEvent.payloadOf]

/-- The payload of the archive sink is that of its first loop. -/
theorem CollectMatchingSamples_archive_payload (env : Env) (Samples : List SampleRef) :
    (CollectMatchingSamples_archive env Samples).1.filterMap SinkEvent.payloadOf
      = (archivePayload env Samples).1.filterMap SinkEvent.payloadOf := by
  unfold CollectMatchingSamples_archive
  dsimp only
  split
  · rfl
  · split
    · rw [List.filterMap_append]
      simp [SinkEvent.payloadOf]
    · rw [List.filterMap_append, List.filterMap_append, rows_no_payload]
      simp [SinkEvent.payloadOf]

/-- The payload of the directory sink is that of its first loop. -/
theorem CollectMatchingSamples_directory_payload (env : Env) (outputdir : WString)
    (Samples : List SampleRef) :
    (CollectMatchingSamples_directory env outputdir Samples).1.filterMap SinkEvent.payloadOf
      = (directoryPayload env outputdir Samples).1.filterMap SinkEvent.payloadOf := by
  unfold CollectMatchingSamples_directory
  split
  · rename_i hemp
    have hnil : Samples = [] := List.isEmpty_iff.1 hemp
    subst hnil
    rfl
  · dsimp only
    split
    · rfl
    · rw [List.filterMap_append, rows_no_payload, List.append_nil]

/-- The first loop of the directory sink, when every output file can be created and every
pipeline copied: every sample that is not off-limits is copied once, in registry
order. -/
theorem directoryPayload_full (env : Env) (outputdir : WString) (Samples : List SampleRef)
    (hall : ∀ s ∈ Samples, s.OffLimits = false →
      FAILED (env.WriteTo outputdir s.SampleName) = false
      ∧ ∃ stream, s.CopyStream = some stream ∧ FAILED (env.CopyTo stream) = false) :
    (directoryPayload env outputdir Samples).1.filterMap SinkEvent.payloadOf
      = (Samples.filter (fun s => !s.OffLimits)).map (fun s => (s.SampleName, s.CopyStream)) := by
  induction Samples with
  | nil => rfl
  | cons s rest ih =>
    have ih1 := ih (fun x hx => hall x (List.mem_cons_of_mem _ hx))
    unfold directoryPayload
    cases hoff : s.OffLimits with
    | true =>
      simp only [Bool.not_true, Bool.false_eq_true, if_false]
      rw [List.filter_cons_of_neg (by simp [hoff])]
      exact ih1
    | false =>
      obtain ⟨hw, stream, hcs, hc⟩ := hall s (List.mem_cons_self _ _) hoff
      simp only [Bool.not_false, if_true, hw, Bool.false_eq_true, if_false, hcs, hc]
      rw [List.filter_cons_of_pos (by simp [hoff])]
      simp only [List.filterMap_cons, SinkEvent.payloadOf, List.map_cons, hcs, ih1]

/-- A sublist of the registry made of samples that are not off-limits is a sublist of
the samples of the registry that are not off-limits. -/
theorem sublist_within_limits (handled Samples : List SampleRef) (h1 : handled.Sublist Samples)
    (h2 : ∀ s ∈ handled, s.OffLimits = false) :
    handled.Sublist (Samples.filter (fun s => !s.OffLimits)) := by
  have hf := h1.filter (fun s => !s.OffLimits)
  have hself : handled.filter (fun s => !s.OffLimits) = handled :=
    List.filter_eq_self.2 (fun s hs => by simp [h2 s hs])
  rw [hself] at hf
  exact hf

/-- The payload of the closing operations of the archive output: `GetThis.csv` and
`GetThis.log`, each if its stream is not empty. -/
theorem finalizeArchive_payload (env : Env) (out : OutputEnv) (rows : List Row) :
    ∃ closing : List (WString × Option ByteStream), closing.Sublist closingMembers
      ∧ (finalizeArchive env out rows).1.filterMap SinkEvent.payloadOf = closing := by
  unfold finalizeArchive
  dsimp only
  split <;> split
  · exact ⟨closingMembers, List.Sublist.refl _, rfl⟩
  · exact ⟨[("GetThis.csv".toList, some .csvStream)], by decide, rfl⟩
  · exact ⟨[("GetThis.log".toList, some .logStream)], by decide, rfl⟩
  · exact ⟨[], List.nil_sublist _, rfl⟩

/-- What a sink is handed: samples of the registry that are not off-limits, each at most
once and in registry order, followed (archive output) by the closing members. -/
theorem CollectMatchingSamples_payload (env : Env) (out : OutputEnv) (outputType : OutputType)
    (outputPath : WString) (Samples : List SampleRef) :
    ∃ (handled : List SampleRef) (closing : List (WString × Option ByteStream)),
      handled.Sublist (Samples.filter (fun s => !s.OffLimits))
      ∧ closing.Sublist closingMembers
      ∧ (CollectMatchingSamples env out outputType outputPath Samples).1.filterMap
          SinkEvent.payloadOf
        = handled.map (fun s => (s.SampleName, s.CopyStream)) ++ closing := by
  have hNil : ∃ (handled : List SampleRef) (closing : List (WString × Option ByteStream)),
      handled.Sublist (Samples.filter (fun s => !s.OffLimits))
      ∧ closing.Sublist closingMembers
      ∧ ([] : List SinkEvent).filterMap SinkEvent.payloadOf
        = handled.map (fun s => (s.SampleName, s.CopyStream)) ++ closing :=
    ⟨[], [], List.nil_sublist _, List.nil_sublist _, rfl⟩
  obtain ⟨⟨hA, a1, a2, a3⟩, -, -⟩ := archivePayload_trace env Samples
  obtain ⟨⟨hD, d1, d2, d3⟩, -, -⟩ := directoryPayload_trace env outputPath Samples
  have hArch : ∃ (handled : List SampleRef) (closing : List (WString × Option ByteStream)),
      handled.Sublist (Samples.filter (fun s => !s.OffLimits))
      ∧ closing.Sublist closingMembers
      ∧ (CollectMatchingSamples_archive env Samples).1.filterMap SinkEvent.payloadOf
        = handled.map (fun s => (s.SampleName, s.CopyStream)) ++ closing :=
    ⟨hA, [], sublist_within_limits _ _ a1 a2, List.nil_sublist _, by
      rw [CollectMatchingSamples_archive_payload, a3, List.append_nil]⟩
  have hArchF : ∀ rows : List Row,
      ∃ (handled : List SampleRef) (closing : List (WString × Option ByteStream)),
      handled.Sublist (Samples.filter (fun s => !s.OffLimits))
      ∧ closing.Sublist closingMembers
      ∧ ((CollectMatchingSamples_archive env Samples).1
          ++ (finalizeArchive env out rows).1).filterMap SinkEvent.payloadOf
        = handled.map (fun s => (s.SampleName, s.CopyStream)) ++ closing := by
    intro rows
    obtain ⟨closing, c1, c2⟩ := finalizeArchive_payload env out rows
    exact ⟨hA, closing, sublist_within_limits _ _ a1 a2, c1, by
      rw [List.filterMap_append, CollectMatchingSamples_archive_payload, a3, c2]⟩
  have hDir : ∃ (handled : List SampleRef) (closing : List (WString × Option ByteStream)),
      handled.Sublist (Samples.filter (fun s => !s.OffLimits))
      ∧ closing.Sublist closingMembers
      ∧ (CollectMatchingSamples_directory env outputPath Samples).1.filterMap
          SinkEvent.payloadOf
        = handled.map (fun s => (s.SampleName, s.CopyStream)) ++ closing :=
    ⟨hD, [], sublist_within_limits _ _ d1 d2, List.nil_sublist _, by
      rw [CollectMatchingSamples_directory_payload, d3, List.append_nil]⟩
  have aux : ∀ r, CollectMatchingSamples env out outputType outputPath Samples = r →
      ∃ (handled : List SampleRef) (closing : List (WString × Option ByteStream)),
        handled.Sublist (Samples.filter (fun s => !s.OffLimits))
        ∧ closing.Sublist closingMembers
        ∧ r.1.filterMap SinkEvent.payloadOf
          = handled.map (fun s => (s.SampleName, s.CopyStream)) ++ closing := by
    intro r hr
    unfold CollectMatchingSamples at hr
    dsimp only at hr
    repeat' split at hr
    all_goals subst hr
    all_goals first
      | exact hNil
      | exact hArch
      | exact hDir
      | exact hArchF _
  exact aux _ rfl

/-- The archive output once set up, when the first loop of the archive sink runs to its
end: the sink is handed every sample that is not off-limits, once, in registry order,
followed by the closing members if the run gets that far. -/
theorem archive_payload_full (env : Env) (out : OutputEnv) (outputPath : WString)
    (Samples : List SampleRef)
    (hc : CreateCompressor out = .ok ()) (hl : CreateLogStream out = .ok ())
    (hw : CreateCsvWriter out = .ok ()) (hp : (archivePayload env Samples).2 = .ok ()) :
    ∃ closing : List (WString × Option ByteStream), closing.Sublist closingMembers
      ∧ (CollectMatchingSamples env out .Archive outputPath Samples).1.filterMap
          SinkEvent.payloadOf
        = (Samples.filter (fun s => !s.OffLimits)).map (fun s => (s.SampleName, s.CopyStream))
          ++ closing := by
  have hpay := (archivePayload_ok env Samples () hp).1
  have hinner : (CollectMatchingSamples_archive env Samples).1.filterMap SinkEvent.payloadOf
      = (Samples.filter (fun s => !s.OffLimits)).map (fun s => (s.SampleName, s.CopyStream)) := by
    rw [CollectMatchingSamples_archive_payload, hpay]
  have aux : ∀ r, CollectMatchingSamples env out .Archive outputPath Samples = r →
      ∃ closing : List (WString × Option ByteStream), closing.Sublist closingMembers
        ∧ r.1.filterMap SinkEvent.payloadOf
          = (Samples.filter (fun s => !s.OffLimits)).map (fun s => (s.SampleName, s.CopyStream))
            ++ closing := by
    intro r hr
    rw [CollectMatchingSamples_archive_case env out outputPath Samples hc hl hw] at hr
    dsimp only at hr
    repeat' split at hr
    all_goals subst hr
    all_goals first
      | exact ⟨[], List.nil_sublist _, by rw [hinner, List.append_nil]⟩
      | (obtain ⟨closing, c1, c2⟩ := finalizeArchive_payload env out
           ((CollectMatchingSamples_archive env Samples).1.filterMap SinkEvent.rowOf)
         exact ⟨closing, c1, by rw [List.filterMap_append, hinner, c2]⟩)
  exact aux _ rfl

/-- The directory output once set up, when every output file can be created and every
pipeline copied: the sink copies every sample that is not off-limits, once, in registry
order. -/
theorem directory_payload_full (env : Env) (out : OutputEnv) (outputPath : WString)
    (Samples : List SampleRef) (hs : CreateOutputDirLogFileAndCSV out = .ok ())
    (hall : ∀ s ∈ Samples, s.OffLimits = false →
      FAILED (env.WriteTo outputPath s.SampleName) = false
      ∧ ∃ stream, s.CopyStream = some stream ∧ FAILED (env.CopyTo stream) = false) :
    (CollectMatchingSamples env out .Directory outputPath Samples).1.filterMap
        SinkEvent.payloadOf
      = (Samples.filter (fun s => !s.OffLimits)).map (fun s => (s.SampleName, s.CopyStream)) := by
  have hinner : (CollectMatchingSamples_directory env outputPath Samples).1.filterMap
      SinkEvent.payloadOf
      = (Samples.filter (fun s => !s.OffLimits)).map (fun s => (s.SampleName, s.CopyStream)) := by
    rw [CollectMatchingSamples_directory_payload, directoryPayload_full env outputPath Samples hall]
  have aux : ∀ r, CollectMatchingSamples env out .Directory outputPath Samples = r →
      r.1.filterMap SinkEvent.payloadOf
        = (Samples.filter (fun s => !s.OffLimits)).map (fun s => (s.SampleName, s.CopyStream)) := by
    intro r hr
    unfold CollectMatchingSamples at hr
    simp only [hs] at hr
    repeat' split at hr
    all_goals subst hr
    all_goals exact hinner
  exact aux _ rfl

/-- C18 (amended). Over a whole run every registered sample is consumed at most once:
the hasher phase reads only samples with `OffLimits = true`, each at most once and in
registry order, and hands nothing to a sink; the sink (archive or directory output) is
handed only samples with `OffLimits = false`, each at most once and in registry order
(followed, for the archive, by the closing members), and reads nothing the way the
hasher does; so no sample is consumed by both.  The hasher phase reads every off-limits
sample when it is enabled and every off-limits pipeline can be copied, and none when it
is not enabled.  The sink is handed every sample that is not off-limits when the archive
output is set up and its first loop runs to its end, and when the directory output is
set up, every output file can be created and every pipeline copied.  The operations of
`Run` are those of the hasher phase followed by those of the sink (by nothing if the
hasher phase does not return). -/
theorem pipelines_consumed_once (env : Env) (out : OutputEnv) (outputType : OutputType)
    (outputPath : WString) (m : Main) :
    (∃ hashed : List SampleRef, hashed.Sublist (m.Samples.filter (fun s => s.OffLimits))
      ∧ (hashPhase env m).1.filterMap SinkEvent.hashedOf
          = hashed.map (fun s => (s.SampleName, s.CopyStream)))
    ∧ (hashPhase env m).1.filterMap SinkEvent.payloadOf = []
    ∧ (∃ (handled : List SampleRef) (closing : List (WString × Option ByteStream)),
        handled.Sublist (m.Samples.filter (fun s => !s.OffLimits))
        ∧ closing.Sublist closingMembers
        ∧ (CollectMatchingSamples env out outputType outputPath m.Samples).1.filterMap
            SinkEvent.payloadOf
          = handled.map (fun s => (s.SampleName, s.CopyStream)) ++ closing)
    ∧ (∀ e ∈ (CollectMatchingSamples env out outputType outputPath m.Samples).1,
        SinkEvent.hashedOf e = none)
    ∧ ((m.config.bReportAll && decide (m.config.CryptoHashAlgs ≠ 0)) = true →
        (∀ s ∈ m.Samples, s.OffLimits = true →
          ∃ stream, s.CopyStream = some stream ∧ FAILED (env.CopyTo stream) = false) →
        (hashPhase env m).1.filterMap SinkEvent.hashedOf
            = (m.Samples.filter (fun s => s.OffLimits)).map (fun s => (s.SampleName, s.CopyStream))
        ∧ (hashPhase env m).2 = .ok .S_OK)
    ∧ ((m.config.bReportAll && decide (m.config.CryptoHashAlgs ≠ 0)) = false →
        (hashPhase env m).1 = [] ∧ (hashPhase env m).2 = .ok .S_OK)
    ∧ (outputType = .Archive → CreateCompressor out = .ok () → CreateLogStream out = .ok () →
        CreateCsvWriter out = .ok () → (archivePayload env m.Samples).2 = .ok () →
        ∃ closing : List (WString × Option ByteStream), closing.Sublist closingMembers
          ∧ (CollectMatchingSamples env out outputType outputPath m.Samples).1.filterMap
              SinkEvent.payloadOf
            = (m.Samples.filter (fun s => !s.OffLimits)).map (fun s => (s.SampleName, s.CopyStream))
              ++ closing)
    ∧ (outputType = .Directory → CreateOutputDirLogFileAndCSV out = .ok () →
        (∀ s ∈ m.Samples, s.OffLimits = false →
          FAILED (env.WriteTo outputPath s.SampleName) = false
          ∧ ∃ stream, s.CopyStream = some stream ∧ FAILED (env.CopyTo stream) = false) →
        (CollectMatchingSamples env out outputType outputPath m.Samples).1.filterMap
            SinkEvent.payloadOf
          = (m.Samples.filter (fun s => !s.OffLimits)).map (fun s => (s.SampleName, s.CopyStream)))
    ∧ ∀ (found : List (Option Match)) (m0 : Main), ingestMatches env found m0 = .ok m →
        ∃ sinkPart : List SinkEvent,
          (sinkPart = []
            ∨ sinkPart = (CollectMatchingSamples env out outputType outputPath m.Samples).1)
          ∧ (Run env out outputType outputPath found m0).1 = (hashPhase env m).1 ++ sinkPart
          ∧ ((hashPhase env m).2 = .ok .S_OK →
              sinkPart = (CollectMatchingSamples env out outputType outputPath m.Samples).1) := by
  refine ⟨?_, ?_, CollectMatchingSamples_payload env out outputType outputPath m.Samples,
    CollectMatchingSamples_no_hash env out outputType outputPath m.Samples, ?_, ?_, ?_, ?_, ?_⟩
  · unfold hashPhase
    split
    · exact (HashOffLimitSamples_trace env m.Samples).1
    · exact ⟨[], List.nil_sublist _, rfl⟩
  · unfold hashPhase
    split
    · exact (HashOffLimitSamples_trace env m.Samples).2
    · rfl
  · intro hen hcopy
    unfold hashPhase
    rw [if_pos hen]
    exact HashOffLimitSamples_all env m.Samples hcopy
  · intro hen
    unfold hashPhase
    rw [if_neg (by rw [hen]; exact Bool.false_ne_true)]
    exact ⟨rfl, rfl⟩
  · intro hot hc hl hw hp
    subst hot
    exact archive_payload_full env out outputPath m.Samples hc hl hw hp
  · intro hot hs hall
    subst hot
    exact directory_payload_full env out outputPath m.Samples hs hall
  · intro found m0 hi
    have hfind : FindMatchingSamples env found m0 = .ok (.S_OK, m) := by
      unfold FindMatchingSamples
      rw [hi]
    cases hh : (hashPhase env m).2 with
    | error e =>
      refine ⟨[], Or.inl rfl, ?_, ?_⟩
      · unfold Run
        simp only [hfind, hh]
        rw [if_neg (by decide), List.append_nil]
      · intro hcontra
        cases hcontra
    | ok hr1 =>
      exact ⟨_, Or.inr rfl,
        (Run_after_hasher env out outputType outputPath found m0 m hr1 hi hh).1, fun _ => rfl⟩

/-- Scenario 4 with off-limits samples reported and a crypto algorithm selected, archive
output: the hasher reads the third, off-limits, sample, the sink is handed the first
two, then the two closing members. -/
theorem pipelines_consumed_once_witness :
    (reportAllThree400.Samples.map (fun s => (s.SampleName, s.OffLimits))
        = [("000100000000000A_foo.txt_data".toList, false),
           ("000100000000000A__foo.txt_1_data".toList, false),
           ("000100000000000A__foo.txt_2_data".toList, true)]
      ∧ (reportAllThree400.config.bReportAll
          && decide (reportAllThree400.config.CryptoHashAlgs ≠ 0)) = true
      ∧ (∀ s ∈ reportAllThree400.Samples, s.OffLimits = true →
          ∃ stream, s.CopyStream = some stream ∧ FAILED (okEnv.CopyTo stream) = false)
      ∧ CreateCompressor okOut = .ok () ∧ CreateLogStream okOut = .ok ()
      ∧ CreateCsvWriter okOut = .ok ()
      ∧ (archivePayload okEnv reportAllThree400.Samples).2 = .ok ()
      ∧ (Run okEnv okOut .Archive "out.7z".toList [] reportAllThree400).1.filterMap
          SinkEvent.hashedOf
          = [("000100000000000A__foo.txt_2_data".toList, some (.cryptoHash 1 (.source 0 400)))]
      ∧ (Run okEnv okOut .Archive "out.7z".toList [] reportAllThree400).1.filterMap
          SinkEvent.payloadOf
          = [("000100000000000A_foo.txt_data".toList, some (.cryptoHash 1 (.source 0 400))),
             ("000100000000000A__foo.txt_1_data".toList, some (.cryptoHash 1 (.source 0 400)))]
            ++ closingMembers)
    ∧ (
    (∃ hashed : List SampleRef, hashed.Sublist (reportAllThree400.Samples.filter (fun s => s.OffLimits))
      ∧ (hashPhase okEnv reportAllThree400).1.filterMap SinkEvent.hashedOf
          = hashed.map (fun s => (s.SampleName, s.CopyStream)))
    ∧ (hashPhase okEnv reportAllThree400).1.filterMap SinkEvent.payloadOf = []
    ∧ (∃ (handled : List SampleRef) (closing : List (WString × Option ByteStream)),
        handled.Sublist (reportAllThree400.Samples.filter (fun s => !s.OffLimits))
        ∧ closing.Sublist closingMembers
        ∧ (CollectMatchingSamples okEnv okOut OutputType.Archive "out.7z".toList reportAllThree400.Samples).1.filterMap
            SinkEvent.payloadOf
          = handled.map (fun s => (s.SampleName, s.CopyStream)) ++ closing)
    ∧ (∀ e ∈ (CollectMatchingSamples okEnv okOut OutputType.Archive "out.7z".toList reportAllThree400.Samples).1,
        SinkEvent.hashedOf e = none)
    ∧ ((reportAllThree400.config.bReportAll && decide (reportAllThree400.config.CryptoHashAlgs ≠ 0)) = true →
        (∀ s ∈ reportAllThree400.Samples, s.OffLimits = true →
          ∃ stream, s.CopyStream = some stream ∧ FAILED (okEnv.CopyTo stream) = false) →
        (hashPhase okEnv reportAllThree400).1.filterMap SinkEvent.hashedOf
            = (reportAllThree400.Samples.filter (fun s => s.OffLimits)).map (fun s => (s.SampleName, s.CopyStream))
        ∧ (hashPhase okEnv reportAllThree400).2 = .ok .S_OK)
    ∧ ((reportAllThree400.config.bReportAll && decide (reportAllThree400.config.CryptoHashAlgs ≠ 0)) = false →
        (hashPhase okEnv reportAllThree400).1 = [] ∧ (hashPhase okEnv reportAllThree400).2 = .ok .S_OK)
    ∧ (OutputType.Archive = .Archive → CreateCompressor okOut = .ok () → CreateLogStream okOut = .ok () →
        CreateCsvWriter okOut = .ok () → (archivePayload okEnv reportAllThree400.Samples).2 = .ok () →
        ∃ closing : List (WString × Option ByteStream), closing.Sublist closingMembers
          ∧ (CollectMatchingSamples okEnv okOut OutputType.Archive "out.7z".toList reportAllThree400.Samples).1.filterMap
              SinkEvent.payloadOf
            = (reportAllThree400.Samples.filter (fun s => !s.OffLimits)).map (fun s => (s.SampleName, s.CopyStream))
              ++ closing)
    ∧ (OutputType.Archive = .Directory → CreateOutputDirLogFileAndCSV okOut = .ok () →
        (∀ s ∈ reportAllThree400.Samples, s.OffLimits = false →
          FAILED (okEnv.WriteTo "out.7z".toList s.SampleName) = false
          ∧ ∃ stream, s.CopyStream = some stream ∧ FAILED (okEnv.CopyTo stream) = false) →
        (CollectMatchingSamples okEnv okOut OutputType.Archive "out.7z".toList reportAllThree400.Samples).1.filterMap
            SinkEvent.payloadOf
          = (reportAllThree400.Samples.filter (fun s => !s.OffLimits)).map (fun s => (s.SampleName, s.CopyStream)))
    ∧ ∀ (found : List (Option Match)) (m0 : Main), ingestMatches okEnv found m0 = .ok reportAllThree400 →
        ∃ sinkPart : List SinkEvent,
          (sinkPart = []
            ∨ sinkPart = (CollectMatchingSamples okEnv okOut OutputType.Archive "out.7z".toList reportAllThree400.Samples).1)
          ∧ (Run okEnv okOut OutputType.Archive "out.7z".toList found m0).1 = (hashPhase okEnv reportAllThree400).1 ++ sinkPart
          ∧ ((hashPhase okEnv reportAllThree400).2 = .ok .S_OK →
              sinkPart = (CollectMatchingSamples okEnv okOut OutputType.Archive "out.7z".toList reportAllThree400.Samples).1)) :=
  ⟨⟨by rfl, by rfl, by decide, by rfl, by rfl, by rfl, by rfl, by rfl, by rfl⟩,
    pipelines_consumed_once okEnv okOut .Archive "out.7z".toList reportAllThree400⟩

/-- C18, counterexample to the claim as worded.  In scenario 4 off-limits samples are not
reported, so the hasher is not called; the run succeeds, the sink is handed the two
samples within limits, and the third, off-limits, sample is consumed by neither.  And
with the directory output, when the output file of the first of two samples within
limits cannot be created, the sink leaves its loop: the run succeeds and neither sample
is consumed. -/
theorem pipelines_consumed_once_counterexample :
    (afterThree400.Samples.map (fun s => (s.SampleName, s.OffLimits))
        = [("000100000000000A_foo.txt_data".toList, false),
           ("000100000000000A__foo.txt_1_data".toList, false),
           ("000100000000000A__foo.txt_2_data".toList, true)]
      ∧ (Run okEnv okOut .Archive "out.7z".toList [] afterThree400).2 = .ok .S_OK
      ∧ (Run okEnv okOut .Archive "out.7z".toList [] afterThree400).1.filterMap
          SinkEvent.hashedOf = []
      ∧ (Run okEnv okOut .Archive "out.7z".toList [] afterThree400).1.filterMap
          SinkEvent.memberOf
        = ["000100000000000A_foo.txt_data".toList, "000100000000000A__foo.txt_1_data".toList,
           "GetThis.csv".toList, "GetThis.log".toList])
    ∧ (afterTwo400.Samples.map (fun s => (s.SampleName, s.OffLimits))
        = [("000100000000000A_foo.txt_data".toList, false),
           ("000100000000000A__foo.txt_1_data".toList, false)]
      ∧ (Run writeFailsEnv okOut .Directory "out".toList [] afterTwo400).2 = .ok .S_OK
      ∧ (Run writeFailsEnv okOut .Directory "out".toList [] afterTwo400).1.filterMap
          SinkEvent.hashedOf = []
      ∧ (Run writeFailsEnv okOut .Directory "out".toList [] afterTwo400).1.filterMap
          SinkEvent.payloadOf = []) :=
  ⟨⟨by rfl, by rfl, by rfl, by rfl⟩, ⟨by rfl, by rfl, by rfl, by rfl⟩⟩

end GetThis
